import Mathlib

/-!
# Dashboard API of circonus-gometrics (`api/dashboard.go`)

A shallow embedding of the dashboard operations (`FetchDashboard`,
`FetchDashboards`, `UpdateDashboard`, `CreateDashboard`, `DeleteDashboard`,
`DeleteDashboardByCID`, `SearchDashboards`) and of the library calls they make
(`regexp.MatchString`, `fmt.Errorf`, `json.Marshal`, `json.Unmarshal`,
`url.Values`, `url.URL.String`).

Conventions of the embedding:

* Go strings are Lean `String`s (the embedding covers strings that are valid
  UTF-8); a nil pointer is `none`.
* A Go `(value, error)` result is a pair whose second component is
  `Option GoError` (`none` is a nil error).
* The API client is a record of its four verbs; every operation returns, next
  to its Go result, the list of client calls it made.
* JSON text is kept at the level of the value it denotes (`JSON`); a byte
  string that is not JSON text is `Bytes.malformed`. A number is kept as its
  literal, which has a value in ℚ (`JNumber.toRat`).
* A finite Go float is kept as a number literal that denotes it: the float is
  the one nearest to the literal. The decoders reject a literal that is out of
  the range of the float type, and a float is zero when its literal rounds to
  zero.
-/

namespace Circonus

/-! ## Go errors -/

/-- Go `error` values, by the concrete type behind the interface. -/
inductive GoError
  /-- an error made by `fmt.Errorf` or `errors.New` -/
  | errorString (s : String)
  /-- a `*regexp/syntax.Error` -/
  | regexpError (code : String) (expr : String)
  /-- a `*json.SyntaxError` -/
  | syntaxError (msg : String)
  /-- a `*json.UnmarshalTypeError`, with its fields `Value`, `Type`, `Struct` and
  `Field` (the offset in the text is not kept) -/
  | unmarshalTypeError (value : String) (type : String) (struct : String) (field : String)
  /-- a `*json.UnsupportedValueError` -/
  | unsupportedValueError (str : String)
  /-- a `*json.UnsupportedTypeError` -/
  | unsupportedTypeError (type : String)
  deriving DecidableEq, Repr

/-- The method `Error() string` of the error interface. -/
def GoError.Error : GoError → String
  | .errorString s => s
  | .regexpError code expr => "error parsing regexp: " ++ code ++ ": `" ++ expr ++ "`"
  | .syntaxError msg => msg
  | .unmarshalTypeError value type struct field =>
      if struct ≠ "" ∨ field ≠ "" then
        "json: cannot unmarshal " ++ value ++ " into Go struct field " ++ struct ++ "." ++
          field ++ " of type " ++ type
      else "json: cannot unmarshal " ++ value ++ " into Go value of type " ++ type
  | .unsupportedValueError str => "json: unsupported value: " ++ str
  | .unsupportedTypeError type => "json: unsupported type: " ++ type

/-- What the decoder of `encoding/json` adds to an error it saves while it decodes the
field `fieldName` of a struct of type `structName`: an `UnmarshalTypeError` gets the
name of the innermost struct and the path of field names that lead to the value. -/
def GoError.inField (structName fieldName : String) : GoError → GoError
  | .unmarshalTypeError value type struct field =>
    if struct = "" ∧ field = "" then .unmarshalTypeError value type structName fieldName
    else .unmarshalTypeError value type struct (fieldName ++ "." ++ field)
  | e => e

/-! ## fmt -/

/-- The formatting loop of `fmt.Sprintf` for the verbs the source uses (`%s`, `%v` and
`%+v`, each printing the text of its operand); operands are given by their text. -/
def sprintfChars : List Char → List String → List Char
  | [], _ => []
  | [c], _ => [c]
  | c :: d :: rest, [] => c :: sprintfChars (d :: rest) []
  | c :: d :: rest, a :: as =>
    if c = '%' ∧ (d = 's' ∨ d = 'v') then a.toList ++ sprintfChars rest as
    else if c = '%' ∧ d = '+' then
      match rest with
      | [] => [c, d]
      | e :: rest2 =>
        if e = 'v' then a.toList ++ sprintfChars rest2 as
        else c :: d :: sprintfChars (e :: rest2) (a :: as)
    else c :: sprintfChars (d :: rest) (a :: as)

/-- Go `fmt.Sprintf`. -/
def fmtSprintf (format : String) (args : List String) : String :=
  String.mk (sprintfChars format.toList args)

/-- Go `fmt.Errorf`. -/
def fmtErrorf (format : String) (args : List String) : GoError :=
  .errorString (fmtSprintf format args)

/-! ## regexp -/

namespace Regexp

/-- One-character matchers and empty-width assertions. -/
inductive Atom
  /-- Beginning of text, `^`. -/
  | beginText
  /-- End of text, `$` (without the multi-line flag). -/
  | endText
  /-- a literal character -/
  | lit (c : Char)
  /-- a character class `[...]` as a list of inclusive ranges -/
  | cls (ranges : List (Char × Char))
  deriving DecidableEq, Repr

/-- An atom, possibly under the repetition operator `+`. -/
structure Piece where
  atom : Atom
  plus : Bool
  deriving DecidableEq, Repr

/-- Characters with a meaning in the pattern syntax that the embedding does not cover. -/
def unsupportedMeta : List Char := ['\\', '.', '*', '?', '(', ')', '|', '{']

/-- Parser for the fragment of the RE2 syntax used by the CID patterns: `^`, `$`, literal
characters, classes `[lo-hi...]` and `+`. The second argument is the class being read
(ranges in reverse), the third the pieces read so far (in reverse). The error is the
error code of `regexp/syntax`. -/
def parseLoop : List Char → Option (List (Char × Char)) → List Piece →
    Except String (List Piece)
  | [], none, acc => .ok acc.reverse
  | [], some _, _ => .error "missing closing ]"
  | c :: rest, some rs, acc =>
    if c = ']' ∧ rs ≠ [] then parseLoop rest none (⟨.cls rs.reverse, false⟩ :: acc)
    else
      match rest with
      | [] => .error "missing closing ]"
      | [d] => parseLoop [d] (some ((c, c) :: rs)) acc
      | d :: hi :: rest2 =>
        if d = '-' ∧ hi ≠ ']' then
          if hi < c then .error "invalid character class range"
          else parseLoop rest2 (some ((c, hi) :: rs)) acc
        else parseLoop (d :: hi :: rest2) (some ((c, c) :: rs)) acc
  | c :: rest, none, acc =>
    if c = '^' then parseLoop rest none (⟨.beginText, false⟩ :: acc)
    else if c = '$' then parseLoop rest none (⟨.endText, false⟩ :: acc)
    else if c = '[' then parseLoop rest (some []) acc
    else if c = '+' then
      match acc with
      | [] => .error "missing argument to repetition operator"
      | p :: acc2 =>
        if p.plus then .error "invalid nested repetition operator"
        else parseLoop rest none (⟨p.atom, true⟩ :: acc2)
    else if c ∈ unsupportedMeta then .error "unsupported"
    else parseLoop rest none (⟨.lit c, false⟩ :: acc)

/-- Go `regexp.Compile`, on the fragment above. -/
def compile (expr : String) : Except GoError (List Piece) :=
  match parseLoop expr.toList none [] with
  | .ok ps => .ok ps
  | .error code => .error (.regexpError code expr)

/-- Whether a one-character atom accepts a character. -/
def Atom.accepts : Atom → Char → Bool
  | .lit c, x => x == c
  | .cls ranges, x => ranges.any (fun r => decide (r.1 ≤ x) && decide (x ≤ r.2))
  | .beginText, _ => false
  | .endText, _ => false

/-- One or more characters accepted by `p`, then the continuation `k` on what is left
(longest repetition tried first). -/
def plusLoop (p : Char → Bool) (k : List Char → Bool) : List Char → Bool
  | [] => false
  | c :: rest => p c && (plusLoop p k rest || k rest)

/-- Whether the pieces match a prefix of the text at the current position; `atStart`
says that the position is the beginning of the text. -/
def matchHere : List Piece → Bool → List Char → Bool
  | [], _, _ => true
  | p :: ps, atStart, s =>
    match p.atom with
    | .beginText => atStart && matchHere ps atStart s
    | .endText => s.isEmpty && matchHere ps atStart s
    | a =>
      if p.plus then plusLoop a.accepts (fun rest => matchHere ps false rest) s
      else
        match s with
        | [] => false
        | c :: rest => a.accepts c && matchHere ps false rest

/-- Whether the pieces match at the current position or at a later one. -/
def search (ps : List Piece) : Bool → List Char → Bool
  | atStart, [] => matchHere ps atStart []
  | atStart, c :: rest => matchHere ps atStart (c :: rest) || search ps false rest

end Regexp

/-- Go `regexp.MatchString(pattern, s)`: whether `s` contains a match of the pattern, or
the error of compiling the pattern. -/
def regexpMatchString (pattern : String) (s : String) : Bool × Option GoError :=
  match Regexp.compile pattern with
  | .error e => (false, some e)
  | .ok ps => (Regexp.search ps true s.toList, none)

/-! ## Go strings -/

/-- The bytes of a character in a Go string (UTF-8). -/
def utf8Bytes (c : Char) : List Nat :=
  let v := c.toNat
  if v ≤ 0x7f then [v]
  else if v ≤ 0x7ff then [v / 64 % 32 + 192, v % 64 + 128]
  else if v ≤ 0xffff then [v / 4096 % 16 + 224, v / 64 % 64 + 128, v % 64 + 128]
  else [v / 262144 % 8 + 240, v / 4096 % 64 + 128, v / 64 % 64 + 128, v % 64 + 128]

/-- The bytes of a Go string. -/
def goBytes (s : String) : List Nat := s.toList.flatMap utf8Bytes

/-- Lexicographic order of byte strings. -/
def bytesLess : List Nat → List Nat → Bool
  | _, [] => false
  | [], _ :: _ => true
  | x :: xs, y :: ys => decide (x < y) || (x == y && bytesLess xs ys)

/-- The comparison `a < b` of Go strings, which is byte-wise. -/
def stringLess (a b : String) : Bool := bytesLess (goBytes a) (goBytes b)

/-- Go `sort.Strings`: the strings in increasing order. -/
def sortStrings (l : List String) : List String :=
  l.insertionSort (fun a b => stringLess b a = false)

/-! ## encoding/json: values -/

/-- A string of decimal digits that is not empty: its first digit and the others. -/
structure JDigits where
  head : Fin 10
  tail : List (Fin 10)
  deriving DecidableEq, Repr

/-- The digits, in order. -/
def JDigits.toList (d : JDigits) : List (Fin 10) := d.head :: d.tail

/-- The number that a string of digits writes. -/
def digitsValue (ds : List (Fin 10)) : Nat := ds.foldl (fun a d => 10 * a + d.val) 0

/-- The text of a string of digits. -/
def digitsText (ds : List (Fin 10)) : String :=
  String.mk (ds.map (fun d => Char.ofNat (48 + d.val)))

/-- The exponent part of a number literal: the letter (`E` when `upper`, else `e`), the
sign (`some true` is `-`, `some false` is `+`) and the digits. -/
structure JExponent where
  upper : Bool
  sign : Option Bool
  digits : JDigits
  deriving DecidableEq, Repr

/-- The text of an exponent part. -/
def JExponent.text (e : JExponent) : String :=
  (if e.upper then "E" else "e") ++
    (match e.sign with
      | some true => "-"
      | some false => "+"
      | none => "") ++ digitsText e.digits.toList

/-- The integer that an exponent part writes. -/
def JExponent.value (e : JExponent) : Int :=
  if e.sign = some true then -(digitsValue e.digits.toList : Int)
  else (digitsValue e.digits.toList : Int)

/-- JSON number literals `-? int frac? exp?`. The integer part, which has no leading
zero, is kept as the number it writes. A literal without fraction and exponent is an
`int`, a literal with a fraction a `frac`, and a literal with an exponent and no
fraction an `exp`. -/
inductive JNumber
  | int (neg : Bool) (mag : Nat)
  | frac (neg : Bool) (mag : Nat) (frac : JDigits) (exp : Option JExponent)
  | exp (neg : Bool) (mag : Nat) (exp : JExponent)
  deriving DecidableEq, Repr

/-- The text of a number literal. -/
def JNumber.text : JNumber → String
  | .int neg mag => (if neg then "-" else "") ++ toString mag
  | .frac neg mag f e =>
    (if neg then "-" else "") ++ toString mag ++ "." ++ digitsText f.toList ++
      (match e with
        | some e => e.text
        | none => "")
  | .exp neg mag e => (if neg then "-" else "") ++ toString mag ++ e.text

/-- Whether a number literal starts with `-`. -/
def JNumber.isNeg : JNumber → Bool
  | .int neg _ => neg
  | .frac neg _ _ _ => neg
  | .exp neg _ _ => neg

/-- The digits of a number literal, read as one natural number: the absolute value of
the literal is `mantissa * 10 ^ exponent10`. -/
def JNumber.mantissa : JNumber → Nat
  | .int _ mag => mag
  | .frac _ mag f _ => mag * 10 ^ f.toList.length + digitsValue f.toList
  | .exp _ mag _ => mag

/-- The power of ten by which the digits of a number literal are scaled. -/
def JNumber.exponent10 : JNumber → Int
  | .int _ _ => 0
  | .frac _ _ f none => -(f.toList.length : Int)
  | .frac _ _ f (some e) => e.value - (f.toList.length : Int)
  | .exp _ _ e => e.value

/-- Whether the absolute value of a number literal is at least `bound`. -/
def JNumber.reaches (n : JNumber) (bound : Nat) : Bool :=
  if 0 ≤ n.exponent10 then decide (bound ≤ n.mantissa * 10 ^ n.exponent10.toNat)
  else decide (bound * 10 ^ (-n.exponent10).toNat ≤ n.mantissa)

/-- Whether the absolute value of a number literal is at most `1 / 2 ^ k`. -/
def JNumber.vanishes (n : JNumber) (k : Nat) : Bool :=
  if 0 ≤ n.exponent10 then decide (n.mantissa * 10 ^ n.exponent10.toNat * 2 ^ k ≤ 1)
  else decide (n.mantissa * 2 ^ k ≤ 10 ^ (-n.exponent10).toNat)

/-- JSON values. An object keeps its members in the order of the text, repeated keys
included. -/
inductive JSON
  | null
  | bool (b : Bool)
  | number (n : JNumber)
  | string (s : String)
  | array (xs : List JSON)
  | object (kvs : List (String × JSON))
  deriving Repr

/-- How `json.UnmarshalTypeError` names the kind of a JSON value. -/
def JSON.kind : JSON → String
  | .null => "null"
  | .bool _ => "bool"
  | .number _ => "number"
  | .string _ => "string"
  | .array _ => "array"
  | .object _ => "object"

/-- Go `[]byte` holding a message body: the text of a JSON value, kept as that value,
or a byte string that is not JSON text, kept with the message of the syntax error that
`encoding/json` reports for it. -/
inductive Bytes
  | json (v : JSON)
  | malformed (text : String) (err : String)
  deriving Repr

/-! ## Go values -/

/-- Go `uint` (64-bit platform). -/
abbrev GoUint := Fin 18446744073709551616

/-- Go `int` (64-bit platform). -/
abbrev GoInt := { i : Int // -9223372036854775808 ≤ i ∧ i ≤ 9223372036854775807 }

/-- Values of a Go float type, before the range of the type is taken into account. A
finite value is kept as a number literal that denotes it: the value is the float
nearest to the literal, ties going to the even mantissa, as `strconv.ParseFloat` reads
it. Float arithmetic is not modelled. -/
inductive GoFloat
  | finite (n : JNumber)
  | nan
  | inf (neg : Bool)
  deriving DecidableEq, Repr

/-- The least absolute value that is nearer to an infinity than to a finite float32, or
as near (the tie goes to the even mantissa, which is the one of the infinity): half an
ulp above `math.MaxFloat32`. For a literal that reaches it `strconv.ParseFloat(s, 32)`
returns a range error. The bound is (2^25 - 1) * 2^103. -/
def float32Overflow : Nat := 340282356779733661637539395458142568448

/-- The same bound for float64, half an ulp above `math.MaxFloat64`:
(2^54 - 1) * 2^970. -/
def float64Overflow : Nat :=
  179769313486231580793728971405303415079934132710037826936173778980444968292764750946649017977587207096330286416692887910946555547851940402630657488671505820681908902000708383676273854845817711531764475730270069855571366959622842914819860834936475292719074168444365510704342711559699508093042880177904174497792

/-- Half the least positive float32 is `1 / 2 ^ float32Underflow`: a literal whose
absolute value is at most that is read as zero (the tie goes to the even mantissa,
which is the one of zero). -/
def float32Underflow : Nat := 150

/-- Whether a float value is in the range of a float type, given the bound where its
literals overflow. -/
def GoFloat.below (bound : Nat) : GoFloat → Bool
  | .finite n => !n.reaches bound
  | _ => true

/-- Go `float32`. -/
abbrev GoFloat32 := { f : GoFloat // f.below float32Overflow = true }

/-- Go `float64`. -/
abbrev GoFloat64 := { f : GoFloat // f.below float64Overflow = true }

/-- Go slices: `none` is the nil slice. -/
abbrev GoSlice (α : Type) := Option (List α)

/-- Go maps, as the list of their entries in the order an iteration visits them; the keys
of a map are distinct. -/
abbrev GoMap (κ ν : Type) := List (κ × ν)

/-- Values of type `interface{}`: the dynamic types that `json.Unmarshal` stores, the
integer types, and `unsupported` for a value of a type that `json.Marshal` rejects
(a channel, a function, a complex number). -/
inductive GoAny
  | nil
  | bool (b : Bool)
  | string (s : String)
  | uint (n : GoUint)
  | int (i : GoInt)
  | float64 (f : GoFloat64)
  | slice (xs : List GoAny)
  | map (m : List (String × GoAny))
  | unsupported (type : String)

/-! ## encoding/json: encoders and decoders by Go type -/

/-- What `encoding/json` does with the values of one Go type: `isEmpty` is
`isEmptyValue` (used by `omitempty`), `encode` the encoder, and `decode j cur` stores the
JSON value `j` into a location that holds `cur`. Of the errors a decoder saves, the
first is the one `Unmarshal` returns. -/
structure Codec (β : Type) where
  goType : String
  zero : β
  isEmpty : β → Bool
  encode : β → Except GoError JSON
  decode : JSON → β → Except GoError β

/-- Codec of Go `bool`. -/
def boolCodec : Codec Bool where
  goType := "bool"
  zero := false
  isEmpty b := !b
  encode b := .ok (.bool b)
  decode j cur :=
    match j with
    | .null => .ok cur
    | .bool b => .ok b
    | j => .error (.unmarshalTypeError j.kind "bool" "" "")

/-- Codec of Go `string`. -/
def stringCodec : Codec String where
  goType := "string"
  zero := ""
  isEmpty s := s.length == 0
  encode s := .ok (.string s)
  decode j cur :=
    match j with
    | .null => .ok cur
    | .string s => .ok s
    | j => .error (.unmarshalTypeError j.kind "string" "" "")

/-- Codec of Go `uint`: a number is read by `strconv.ParseUint`. -/
def uintCodec : Codec GoUint where
  goType := "uint"
  zero := 0
  isEmpty n := n.val == 0
  encode n := .ok (.number (.int false n.val))
  decode j cur :=
    match j with
    | .null => .ok cur
    | .number (.int false mag) =>
      if h : mag < 18446744073709551616 then .ok ⟨mag, h⟩
      else .error (.unmarshalTypeError ("number " ++ (JNumber.int false mag).text) "uint" "" "")
    | .number n => .error (.unmarshalTypeError ("number " ++ n.text) "uint" "" "")
    | j => .error (.unmarshalTypeError j.kind "uint" "" "")

/-- The integer an integer literal denotes. -/
def JNumber.intValue (neg : Bool) (mag : Nat) : Int :=
  if neg then -(mag : Int) else (mag : Int)

/-- Codec of Go `int`: a number is read by `strconv.ParseInt`. -/
def intCodec : Codec GoInt where
  goType := "int"
  zero := ⟨0, by decide⟩
  isEmpty i := i.val == 0
  encode i := .ok (.number (.int (decide (i.val < 0)) i.val.natAbs))
  decode j cur :=
    match j with
    | .null => .ok cur
    | .number (.int neg mag) =>
      if h : -9223372036854775808 ≤ JNumber.intValue neg mag ∧
          JNumber.intValue neg mag ≤ 9223372036854775807 then
        .ok ⟨JNumber.intValue neg mag, h⟩
      else .error (.unmarshalTypeError ("number " ++ (JNumber.int neg mag).text) "int" "" "")
    | .number n => .error (.unmarshalTypeError ("number " ++ n.text) "int" "" "")
    | j => .error (.unmarshalTypeError j.kind "int" "" "")

/-- The encoder of floats: `NaN` and the infinities are unsupported values, and a finite
value is written as the literal it is kept by. (Go writes the shortest literal that
reads back as the float; both literals denote the same float.) -/
def GoFloat.encode : GoFloat → Except GoError JSON
  | .finite n => .ok (.number n)
  | .nan => .error (.unsupportedValueError "NaN")
  | .inf neg => .error (.unsupportedValueError (if neg then "-Inf" else "+Inf"))

/-- Whether a float32 is zero (`0` or `-0`): its literal is nearer to zero than to the
least positive float32, or as near. -/
def GoFloat.isZero32 : GoFloat → Bool
  | .finite n => n.vanishes float32Underflow
  | _ => false

/-- Codec of Go `float32`. A number is read by `strconv.ParseFloat(s, 32)`: one that
overflows float32 is a type error, and the number read is kept by its literal. -/
def float32Codec : Codec GoFloat32 where
  goType := "float32"
  zero := ⟨.finite (.int false 0), rfl⟩
  isEmpty f := f.val.isZero32
  encode f := f.val.encode
  decode j cur :=
    match j with
    | .null => .ok cur
    | .number n =>
      if h : (GoFloat.finite n).below float32Overflow = true then .ok ⟨.finite n, h⟩
      else .error (.unmarshalTypeError ("number " ++ n.text) "float32" "" "")
    | j => .error (.unmarshalTypeError j.kind "float32" "" "")

/-- Encodes the elements of a slice, in order; the first error ends the encoding. -/
def encodeElems {β : Type} (c : Codec β) : List β → Except GoError (List JSON)
  | [] => .ok []
  | b :: bs =>
    match c.encode b with
    | .error e => .error e
    | .ok j =>
      match encodeElems c bs with
      | .error e => .error e
      | .ok js => .ok (j :: js)

/-- Decodes the elements of a JSON array into a slice that holds `cur`: element `i` is
decoded into `cur[i]` when the slice has one, and into a zero value otherwise. (Elements
that an earlier decoding left in the backing array beyond the length are not modelled.) -/
def decodeElems {β : Type} (c : Codec β) : List JSON → List β → Except GoError (List β)
  | [], _ => .ok []
  | j :: js, cur =>
    match c.decode j (cur.headD c.zero) with
    | .error e => .error e
    | .ok b =>
      match decodeElems c js cur.tail with
      | .error e => .error e
      | .ok bs => .ok (b :: bs)

/-- Codec of a Go slice type `[]T`, from the codec of `T`. -/
def sliceCodec {β : Type} (c : Codec β) : Codec (GoSlice β) where
  goType := "[]" ++ c.goType
  zero := none
  isEmpty s := (s.getD []).length == 0
  encode s :=
    match s with
    | none => .ok .null
    | some bs =>
      match encodeElems c bs with
      | .error e => .error e
      | .ok js => .ok (.array js)
  decode j cur :=
    match j with
    | .null => .ok none
    | .array js =>
      match decodeElems c js (cur.getD []) with
      | .error e => .error e
      | .ok bs => .ok (some bs)
    | j => .error (.unmarshalTypeError j.kind ("[]" ++ c.goType) "" "")

/-- Sets a key of a `map[string]interface{}`. -/
def mapInsert (k : String) (v : GoAny) : List (String × GoAny) → List (String × GoAny)
  | [] => [(k, v)]
  | (k2, v2) :: rest => if k2 = k then (k, v) :: rest else (k2, v2) :: mapInsert k v rest

mutual
/-- The value `json.Unmarshal` stores into an `interface{}` for a JSON value. A number
is read by `strconv.ParseFloat(s, 64)` and stored as a float64; one that overflows
float64 is a type error. -/
def GoAny.ofJSON : JSON → Except GoError GoAny
  | .null => .ok .nil
  | .bool b => .ok (.bool b)
  | .number n =>
    if h : (GoFloat.finite n).below float64Overflow = true then .ok (.float64 ⟨.finite n, h⟩)
    else .error (.unmarshalTypeError ("number " ++ n.text) "float64" "" "")
  | .string s => .ok (.string s)
  | .array xs =>
    match GoAny.ofJSONList xs with
    | .error e => .error e
    | .ok vs => .ok (.slice vs)
  | .object kvs =>
    match GoAny.ofJSONMembers kvs [] with
    | .error e => .error e
    | .ok m => .ok (.map m)
/-- Elements of a `[]interface{}`. -/
def GoAny.ofJSONList : List JSON → Except GoError (List GoAny)
  | [] => .ok []
  | x :: xs =>
    match GoAny.ofJSON x with
    | .error e => .error e
    | .ok v =>
      match GoAny.ofJSONList xs with
      | .error e => .error e
      | .ok vs => .ok (v :: vs)
/-- Entries of a `map[string]interface{}`; a repeated key replaces the earlier entry. -/
def GoAny.ofJSONMembers : List (String × JSON) → List (String × GoAny) →
    Except GoError (List (String × GoAny))
  | [], acc => .ok acc
  | (k, v) :: kvs, acc =>
    match GoAny.ofJSON v with
    | .error e => .error e
    | .ok w => GoAny.ofJSONMembers kvs (mapInsert k w acc)
end

/-- Sorts the entries of a map by key, as the map encoder does. -/
def sortByKey {ν : Type} (m : List (String × ν)) : List (String × ν) :=
  m.insertionSort (fun a b => stringLess b.1 a.1 = false)

mutual
/-- The encoder of a value held in an `interface{}`. -/
def GoAny.encode : GoAny → Except GoError JSON
  | .nil => .ok .null
  | .bool b => .ok (.bool b)
  | .string s => .ok (.string s)
  | .uint n => .ok (.number (.int false n.val))
  | .int i => .ok (.number (.int (decide (i.val < 0)) i.val.natAbs))
  | .float64 f => f.val.encode
  | .slice xs =>
    match GoAny.encodeList xs with
    | .error e => .error e
    | .ok js => .ok (.array js)
  | .map m =>
    match GoAny.encodeMembers m with
    | .error e => .error e
    | .ok kvs => .ok (.object (sortByKey kvs))
  | .unsupported type => .error (.unsupportedTypeError type)
/-- Encodes the elements of a `[]interface{}`. -/
def GoAny.encodeList : List GoAny → Except GoError (List JSON)
  | [] => .ok []
  | x :: xs =>
    match GoAny.encode x with
    | .error e => .error e
    | .ok j =>
      match GoAny.encodeList xs with
      | .error e => .error e
      | .ok js => .ok (j :: js)
/-- Encodes the entries of a `map[string]interface{}`. -/
def GoAny.encodeMembers : List (String × GoAny) → Except GoError (List (String × JSON))
  | [] => .ok []
  | (k, v) :: m =>
    match GoAny.encode v with
    | .error e => .error e
    | .ok j =>
      match GoAny.encodeMembers m with
      | .error e => .error e
      | .ok kvs => .ok ((k, j) :: kvs)
end

/-- Codec of `interface{}`: empty when nil; a decoded value replaces the one held. -/
def anyCodec : Codec GoAny where
  goType := "interface {}"
  zero := .nil
  isEmpty v := match v with | .nil => true | _ => false
  encode v := v.encode
  decode j _ := GoAny.ofJSON j

/-! ## encoding/json: structs -/

/-- One field of a struct as `encoding/json` sees it: the name and the `omitempty`
option of its tag, the codec of its type, and the access to the field. -/
structure Field (α : Type) where
  name : String
  omitEmpty : Bool
  β : Type
  codec : Codec β
  get : α → β
  set : α → β → α

/-- Case folding of a key, for the case-insensitive match of a key with a field name
(`equalFold`): ASCII letters fold to lower case, the Kelvin sign to `k` and the long s
to `s`. -/
def foldChar (c : Char) : Char :=
  if 'A' ≤ c ∧ c ≤ 'Z' then Char.ofNat (c.toNat + 32)
  else if c = Char.ofNat 0x212A then 'k'
  else if c = Char.ofNat 0x17F then 's'
  else c

/-- Case folding of a string. -/
def foldKey (s : String) : String := String.mk (s.toList.map foldChar)

/-- The field a key of a JSON object is decoded into: the field of that name, else the
first field whose name matches the key up to case. -/
def findField {α : Type} (fields : List (Field α)) (key : String) : Option (Field α) :=
  match fields.find? (fun f => f.name == key) with
  | some f => some f
  | none => fields.find? (fun f => foldKey f.name == foldKey key)

/-- Encodes the fields of a struct in the order of their declaration; a field with
`omitempty` whose value is empty is left out. -/
def encodeFields {α : Type} : List (Field α) → α → Except GoError (List (String × JSON))
  | [], _ => .ok []
  | f :: fs, x =>
    if f.omitEmpty && f.codec.isEmpty (f.get x) then encodeFields fs x
    else
      match f.codec.encode (f.get x) with
      | .error e => .error e
      | .ok j =>
        match encodeFields fs x with
        | .error e => .error e
        | .ok kvs => .ok ((f.name, j) :: kvs)

/-- Decodes one member of a JSON object into a struct of type `name`; a key without
a field is skipped, and an error gets the field as its context. -/
def decodeMember {α : Type} (name : String) (fields : List (Field α)) (x : α)
    (kv : String × JSON) : Except GoError α :=
  match findField fields kv.1 with
  | none => .ok x
  | some f =>
    match f.codec.decode kv.2 (f.get x) with
    | .error e => .error (e.inField name f.name)
    | .ok b => .ok (f.set x b)

/-- Decodes the members of a JSON object into a struct, in the order of the text. -/
def decodeMembers {α : Type} (name : String) (fields : List (Field α)) :
    List (String × JSON) → α → Except GoError α
  | [], x => .ok x
  | kv :: kvs, x =>
    match decodeMember name fields x kv with
    | .error e => .error e
    | .ok y => decodeMembers name fields kvs y

/-- Codec of the struct type `name` of the package `pkg`, from its fields. A struct is
never empty for `omitempty`. -/
def structCodec {α : Type} (pkg name : String) (zero : α) (fields : List (Field α)) :
    Codec α where
  goType := pkg ++ "." ++ name
  zero := zero
  isEmpty _ := false
  encode x :=
    match encodeFields fields x with
    | .error e => .error e
    | .ok kvs => .ok (.object kvs)
  decode j cur :=
    match j with
    | .null => .ok cur
    | .object kvs => decodeMembers name fields kvs cur
    | j => .error (.unmarshalTypeError j.kind (pkg ++ "." ++ name) "" "")

/-- Go `json.Marshal` for a value of the type of the codec. -/
def jsonMarshal {α : Type} (c : Codec α) (v : α) : Except GoError Bytes :=
  match c.encode v with
  | .error e => .error e
  | .ok j => .ok (.json j)

/-- Go `json.Unmarshal(data, &v)` where the location holds `cur`: the value the location
holds afterwards, or the error returned. -/
def jsonUnmarshal {α : Type} (c : Codec α) (data : Bytes) (cur : α) : Except GoError α :=
  match data with
  | .malformed _ err => .error (.syntaxError err)
  | .json j => c.decode j cur

/-! ## Data model of `dashboard.go` -/

/-- Go struct `DashboardGridLayout`. -/
structure DashboardGridLayout where
  Height : GoUint
  Width  : GoUint

/-- The zero value of `DashboardGridLayout`. -/
def DashboardGridLayout.zero : DashboardGridLayout where
  Height := 0
  Width  := 0

/-- The fields of `DashboardGridLayout` with their `json` tags, in the order of declaration. -/
def DashboardGridLayout.fields : List (Field DashboardGridLayout) := [
  ⟨"height", false, _, uintCodec, (·.Height), fun x b => { x with Height := b }⟩,
  ⟨"width", false, _, uintCodec, (·.Width), fun x b => { x with Width := b }⟩]

/-- Codec of `DashboardGridLayout`. -/
def DashboardGridLayout.codec : Codec DashboardGridLayout :=
  structCodec "api" "DashboardGridLayout" DashboardGridLayout.zero DashboardGridLayout.fields

/-- Go struct `DashboardAccessConfig`. -/
structure DashboardAccessConfig where
  BlackDash           : Bool
  Enabled             : Bool
  Fullscreen          : Bool
  FullscreenHideTitle : Bool
  Nickname            : String
  ScaleText           : Bool
  SharedID            : String
  TextSize            : GoUint

/-- The zero value of `DashboardAccessConfig`. -/
def DashboardAccessConfig.zero : DashboardAccessConfig where
  BlackDash           := false
  Enabled             := false
  Fullscreen          := false
  FullscreenHideTitle := false
  Nickname            := ""
  ScaleText           := false
  SharedID            := ""
  TextSize            := 0

/-- The fields of `DashboardAccessConfig` with their `json` tags, in the order of declaration. -/
def DashboardAccessConfig.fields : List (Field DashboardAccessConfig) := [
  ⟨"black_dash", true, _, boolCodec, (·.BlackDash), fun x b => { x with BlackDash := b }⟩,
  ⟨"enabled", true, _, boolCodec, (·.Enabled), fun x b => { x with Enabled := b }⟩,
  ⟨"fullscreen", true, _, boolCodec, (·.Fullscreen), fun x b => { x with Fullscreen := b }⟩,
  ⟨"fullscreen_hide_title", true, _, boolCodec, (·.FullscreenHideTitle), fun x b => { x with FullscreenHideTitle := b }⟩,
  ⟨"nickname", true, _, stringCodec, (·.Nickname), fun x b => { x with Nickname := b }⟩,
  ⟨"scale_text", true, _, boolCodec, (·.ScaleText), fun x b => { x with ScaleText := b }⟩,
  ⟨"shared_id", true, _, stringCodec, (·.SharedID), fun x b => { x with SharedID := b }⟩,
  ⟨"text_size", true, _, uintCodec, (·.TextSize), fun x b => { x with TextSize := b }⟩]

/-- Codec of `DashboardAccessConfig`. -/
def DashboardAccessConfig.codec : Codec DashboardAccessConfig :=
  structCodec "api" "DashboardAccessConfig" DashboardAccessConfig.zero DashboardAccessConfig.fields

/-- Go struct `DashboardOptions`. -/
structure DashboardOptions where
  AccessConfigs       : GoSlice DashboardAccessConfig
  FullscreenHideTitle : Bool
  HideGrid            : Bool
  Linkages            : GoSlice (GoSlice String)
  ScaleText           : Bool
  TextSize            : GoUint

/-- The zero value of `DashboardOptions`. -/
def DashboardOptions.zero : DashboardOptions where
  AccessConfigs       := none
  FullscreenHideTitle := false
  HideGrid            := false
  Linkages            := none
  ScaleText           := false
  TextSize            := 0

/-- The fields of `DashboardOptions` with their `json` tags, in the order of declaration. -/
def DashboardOptions.fields : List (Field DashboardOptions) := [
  ⟨"access_configs", true, _, (sliceCodec DashboardAccessConfig.codec), (·.AccessConfigs), fun x b => { x with AccessConfigs := b }⟩,
  ⟨"fullscreen_hide_title", true, _, boolCodec, (·.FullscreenHideTitle), fun x b => { x with FullscreenHideTitle := b }⟩,
  ⟨"hide_grid", true, _, boolCodec, (·.HideGrid), fun x b => { x with HideGrid := b }⟩,
  ⟨"linkages", true, _, (sliceCodec (sliceCodec stringCodec)), (·.Linkages), fun x b => { x with Linkages := b }⟩,
  ⟨"scale_text", true, _, boolCodec, (·.ScaleText), fun x b => { x with ScaleText := b }⟩,
  ⟨"text_size", true, _, uintCodec, (·.TextSize), fun x b => { x with TextSize := b }⟩]

/-- Codec of `DashboardOptions`. -/
def DashboardOptions.codec : Codec DashboardOptions :=
  structCodec "api" "DashboardOptions" DashboardOptions.zero DashboardOptions.fields

/-- Go struct `ChartTextWidgetDatapoint`. -/
structure ChartTextWidgetDatapoint where
  ClusterTitle : String
  Label2       : String
  NumericOnly  : Bool
  ClusterID    : GoUint
  AccountID    : String
  Label        : String
  Metric       : String
  MetricType   : String
  CheckID      : GoUint

/-- The zero value of `ChartTextWidgetDatapoint`. -/
def ChartTextWidgetDatapoint.zero : ChartTextWidgetDatapoint where
  ClusterTitle := ""
  Label2       := ""
  NumericOnly  := false
  ClusterID    := 0
  AccountID    := ""
  Label        := ""
  Metric       := ""
  MetricType   := ""
  CheckID      := 0

/-- The fields of `ChartTextWidgetDatapoint` with their `json` tags, in the order of declaration. -/
def ChartTextWidgetDatapoint.fields : List (Field ChartTextWidgetDatapoint) := [
  ⟨"_cluster_title", true, _, stringCodec, (·.ClusterTitle), fun x b => { x with ClusterTitle := b }⟩,
  ⟨"_label", true, _, stringCodec, (·.Label2), fun x b => { x with Label2 := b }⟩,
  ⟨"numeric_only", true, _, boolCodec, (·.NumericOnly), fun x b => { x with NumericOnly := b }⟩,
  ⟨"cluster_id", true, _, uintCodec, (·.ClusterID), fun x b => { x with ClusterID := b }⟩,
  ⟨"account_id", true, _, stringCodec, (·.AccountID), fun x b => { x with AccountID := b }⟩,
  ⟨"label", true, _, stringCodec, (·.Label), fun x b => { x with Label := b }⟩,
  ⟨"metric", true, _, stringCodec, (·.Metric), fun x b => { x with Metric := b }⟩,
  ⟨"_metric_type", true, _, stringCodec, (·.MetricType), fun x b => { x with MetricType := b }⟩,
  ⟨"_check_id", true, _, uintCodec, (·.CheckID), fun x b => { x with CheckID := b }⟩]

/-- Codec of `ChartTextWidgetDatapoint`. -/
def ChartTextWidgetDatapoint.codec : Codec ChartTextWidgetDatapoint :=
  structCodec "api" "ChartTextWidgetDatapoint" ChartTextWidgetDatapoint.zero ChartTextWidgetDatapoint.fields

/-- Go struct `ChartWidgetDefinitionLegend`. -/
structure ChartWidgetDefinitionLegend where
  Show   : Bool
  «Type» : String

/-- The zero value of `ChartWidgetDefinitionLegend`. -/
def ChartWidgetDefinitionLegend.zero : ChartWidgetDefinitionLegend where
  Show   := false
  «Type» := ""

/-- The fields of `ChartWidgetDefinitionLegend` with their `json` tags, in the order of declaration. -/
def ChartWidgetDefinitionLegend.fields : List (Field ChartWidgetDefinitionLegend) := [
  ⟨"show", true, _, boolCodec, (·.Show), fun x b => { x with Show := b }⟩,
  ⟨"type", true, _, stringCodec, (·.«Type»), fun x b => { x with «Type» := b }⟩]

/-- Codec of `ChartWidgetDefinitionLegend`. -/
def ChartWidgetDefinitionLegend.codec : Codec ChartWidgetDefinitionLegend :=
  structCodec "api" "ChartWidgetDefinitionLegend" ChartWidgetDefinitionLegend.zero ChartWidgetDefinitionLegend.fields

/-- Go struct `ChartWidgetWedgeLabels`. -/
structure ChartWidgetWedgeLabels where
  OnChart  : Bool
  ToolTips : Bool

/-- The zero value of `ChartWidgetWedgeLabels`. -/
def ChartWidgetWedgeLabels.zero : ChartWidgetWedgeLabels where
  OnChart  := false
  ToolTips := false

/-- The fields of `ChartWidgetWedgeLabels` with their `json` tags, in the order of declaration. -/
def ChartWidgetWedgeLabels.fields : List (Field ChartWidgetWedgeLabels) := [
  ⟨"on_chart", true, _, boolCodec, (·.OnChart), fun x b => { x with OnChart := b }⟩,
  ⟨"tooltips", true, _, boolCodec, (·.ToolTips), fun x b => { x with ToolTips := b }⟩]

/-- Codec of `ChartWidgetWedgeLabels`. -/
def ChartWidgetWedgeLabels.codec : Codec ChartWidgetWedgeLabels :=
  structCodec "api" "ChartWidgetWedgeLabels" ChartWidgetWedgeLabels.zero ChartWidgetWedgeLabels.fields

/-- Go struct `ChartWidgetWedgeValues`. -/
structure ChartWidgetWedgeValues where
  Angle : String
  Color : String
  Show  : Bool

/-- The zero value of `ChartWidgetWedgeValues`. -/
def ChartWidgetWedgeValues.zero : ChartWidgetWedgeValues where
  Angle := ""
  Color := ""
  Show  := false

/-- The fields of `ChartWidgetWedgeValues` with their `json` tags, in the order of declaration. -/
def ChartWidgetWedgeValues.fields : List (Field ChartWidgetWedgeValues) := [
  ⟨"angle", true, _, stringCodec, (·.Angle), fun x b => { x with Angle := b }⟩,
  ⟨"color", true, _, stringCodec, (·.Color), fun x b => { x with Color := b }⟩,
  ⟨"show", true, _, boolCodec, (·.Show), fun x b => { x with Show := b }⟩]

/-- Codec of `ChartWidgetWedgeValues`. -/
def ChartWidgetWedgeValues.codec : Codec ChartWidgetWedgeValues :=
  structCodec "api" "ChartWidgetWedgeValues" ChartWidgetWedgeValues.zero ChartWidgetWedgeValues.fields

/-- Go struct `ChartWidgtDefinition`. -/
structure ChartWidgtDefinition where
  Datasource        : String
  Derive            : String
  DisableAutoformat : Bool
  Formula           : String
  Legend            : ChartWidgetDefinitionLegend
  Period            : GoUint
  PopOnHover        : Bool
  WedgeLabels       : ChartWidgetWedgeLabels
  WedgeValues       : ChartWidgetWedgeValues

/-- The zero value of `ChartWidgtDefinition`. -/
def ChartWidgtDefinition.zero : ChartWidgtDefinition where
  Datasource        := ""
  Derive            := ""
  DisableAutoformat := false
  Formula           := ""
  Legend            := ChartWidgetDefinitionLegend.zero
  Period            := 0
  PopOnHover        := false
  WedgeLabels       := ChartWidgetWedgeLabels.zero
  WedgeValues       := ChartWidgetWedgeValues.zero

/-- The fields of `ChartWidgtDefinition` with their `json` tags, in the order of declaration. -/
def ChartWidgtDefinition.fields : List (Field ChartWidgtDefinition) := [
  ⟨"datasource", true, _, stringCodec, (·.Datasource), fun x b => { x with Datasource := b }⟩,
  ⟨"derive", true, _, stringCodec, (·.Derive), fun x b => { x with Derive := b }⟩,
  ⟨"disable_autoformat", true, _, boolCodec, (·.DisableAutoformat), fun x b => { x with DisableAutoformat := b }⟩,
  ⟨"formula", true, _, stringCodec, (·.Formula), fun x b => { x with Formula := b }⟩,
  ⟨"legend", true, _, ChartWidgetDefinitionLegend.codec, (·.Legend), fun x b => { x with Legend := b }⟩,
  ⟨"period", true, _, uintCodec, (·.Period), fun x b => { x with Period := b }⟩,
  ⟨"pop_onhover", true, _, boolCodec, (·.PopOnHover), fun x b => { x with PopOnHover := b }⟩,
  ⟨"wedge_labels", true, _, ChartWidgetWedgeLabels.codec, (·.WedgeLabels), fun x b => { x with WedgeLabels := b }⟩,
  ⟨"wedge_values", true, _, ChartWidgetWedgeValues.codec, (·.WedgeValues), fun x b => { x with WedgeValues := b }⟩]

/-- Codec of `ChartWidgtDefinition`. -/
def ChartWidgtDefinition.codec : Codec ChartWidgtDefinition :=
  structCodec "api" "ChartWidgtDefinition" ChartWidgtDefinition.zero ChartWidgtDefinition.fields

/-- Go struct `ForecastGaugeWidgetThresholds`. -/
structure ForecastGaugeWidgetThresholds where
  Colors : GoSlice String
  Values : GoSlice String
  Flip   : Bool

/-- The zero value of `ForecastGaugeWidgetThresholds`. -/
def ForecastGaugeWidgetThresholds.zero : ForecastGaugeWidgetThresholds where
  Colors := none
  Values := none
  Flip   := false

/-- The fields of `ForecastGaugeWidgetThresholds` with their `json` tags, in the order of declaration. -/
def ForecastGaugeWidgetThresholds.fields : List (Field ForecastGaugeWidgetThresholds) := [
  ⟨"colors", true, _, (sliceCodec stringCodec), (·.Colors), fun x b => { x with Colors := b }⟩,
  ⟨"values", true, _, (sliceCodec stringCodec), (·.Values), fun x b => { x with Values := b }⟩,
  ⟨"flip", true, _, boolCodec, (·.Flip), fun x b => { x with Flip := b }⟩]

/-- Codec of `ForecastGaugeWidgetThresholds`. -/
def ForecastGaugeWidgetThresholds.codec : Codec ForecastGaugeWidgetThresholds :=
  structCodec "api" "ForecastGaugeWidgetThresholds" ForecastGaugeWidgetThresholds.zero ForecastGaugeWidgetThresholds.fields

/-- Go struct `StatusWidgetAgentStatusSettings`. -/
structure StatusWidgetAgentStatusSettings where
  Search         : String
  ShowAgentTypes : String
  ShowContact    : Bool
  ShowFeeds      : Bool
  ShowSetup      : Bool
  ShowSkew       : Bool
  ShowUpdates    : Bool

/-- The zero value of `StatusWidgetAgentStatusSettings`. -/
def StatusWidgetAgentStatusSettings.zero : StatusWidgetAgentStatusSettings where
  Search         := ""
  ShowAgentTypes := ""
  ShowContact    := false
  ShowFeeds      := false
  ShowSetup      := false
  ShowSkew       := false
  ShowUpdates    := false

/-- The fields of `StatusWidgetAgentStatusSettings` with their `json` tags, in the order of declaration. -/
def StatusWidgetAgentStatusSettings.fields : List (Field StatusWidgetAgentStatusSettings) := [
  ⟨"search", true, _, stringCodec, (·.Search), fun x b => { x with Search := b }⟩,
  ⟨"show_agent_types", true, _, stringCodec, (·.ShowAgentTypes), fun x b => { x with ShowAgentTypes := b }⟩,
  ⟨"show_contact", true, _, boolCodec, (·.ShowContact), fun x b => { x with ShowContact := b }⟩,
  ⟨"show_feeds", true, _, boolCodec, (·.ShowFeeds), fun x b => { x with ShowFeeds := b }⟩,
  ⟨"show_setup", true, _, boolCodec, (·.ShowSetup), fun x b => { x with ShowSetup := b }⟩,
  ⟨"show_skew", true, _, boolCodec, (·.ShowSkew), fun x b => { x with ShowSkew := b }⟩,
  ⟨"show_updates", true, _, boolCodec, (·.ShowUpdates), fun x b => { x with ShowUpdates := b }⟩]

/-- Codec of `StatusWidgetAgentStatusSettings`. -/
def StatusWidgetAgentStatusSettings.codec : Codec StatusWidgetAgentStatusSettings :=
  structCodec "api" "StatusWidgetAgentStatusSettings" StatusWidgetAgentStatusSettings.zero StatusWidgetAgentStatusSettings.fields

/-- Go struct `StatusWidgetHostStatusSettings`. -/
structure StatusWidgetHostStatusSettings where
  LayoutStyle  : String
  Search       : String
  SortBy       : String
  TagFilterSet : GoSlice String

/-- The zero value of `StatusWidgetHostStatusSettings`. -/
def StatusWidgetHostStatusSettings.zero : StatusWidgetHostStatusSettings where
  LayoutStyle  := ""
  Search       := ""
  SortBy       := ""
  TagFilterSet := none

/-- The fields of `StatusWidgetHostStatusSettings` with their `json` tags, in the order of declaration. -/
def StatusWidgetHostStatusSettings.fields : List (Field StatusWidgetHostStatusSettings) := [
  ⟨"layout_style", true, _, stringCodec, (·.LayoutStyle), fun x b => { x with LayoutStyle := b }⟩,
  ⟨"search", true, _, stringCodec, (·.Search), fun x b => { x with Search := b }⟩,
  ⟨"sort_by", true, _, stringCodec, (·.SortBy), fun x b => { x with SortBy := b }⟩,
  ⟨"tag_filter_set", true, _, (sliceCodec stringCodec), (·.TagFilterSet), fun x b => { x with TagFilterSet := b }⟩]

/-- Codec of `StatusWidgetHostStatusSettings`. -/
def StatusWidgetHostStatusSettings.codec : Codec StatusWidgetHostStatusSettings :=
  structCodec "api" "StatusWidgetHostStatusSettings" StatusWidgetHostStatusSettings.zero StatusWidgetHostStatusSettings.fields

/-- Go struct `DashboardWidgetSettings`. -/
structure DashboardWidgetSettings where
  AccountID           : String
  Acknowledged        : String
  AgentStatusSettings : StatusWidgetAgentStatusSettings
  Algorithm           : String
  Autoformat          : Bool
  BodyFormat          : String
  ChartType           : String
  CheckUUID           : String
  Cleared             : String
  ClusterID           : GoUint
  ClusterName         : String
  ContactGroups       : GoSlice GoUint
  ContentType         : String
  Datapoints          : GoSlice ChartTextWidgetDatapoint
  DateWindow          : String
  Definition          : ChartWidgtDefinition
  Dependents          : String
  DisableAutoformat   : Bool
  Display             : String
  Format              : String
  Formula             : String
  GraphUUID           : String
  HideXAxis           : Bool
  HideYAxis           : Bool
  HostStatusSettings  : StatusWidgetHostStatusSettings
  KeyInline           : Bool
  KeyLoc              : String
  KeySize             : String
  KeyWrap             : Bool
  Label               : String
  Layout              : String
  Limit               : String
  Maintenance         : String
  Markup              : String
  MetricDisplayName   : String
  MetricName          : String
  MinAge              : String
  OffHours            : GoSlice GoUint
  OverlaySetID        : String
  Period              : GoAny
  RangeHigh           : GoInt
  RangeLow            : GoInt
  Realtime            : Bool
  ResourceLimit       : String
  ResourceUsage       : String
  Search              : String
  Severity            : String
  ShowFlags           : Bool
  Size                : String
  TagFilterSet        : GoSlice String
  Threshold           : GoFloat32
  Thresholds          : ForecastGaugeWidgetThresholds
  TimeWindow          : String
  Title               : String
  TitleFormat         : String
  Trend               : String
  «Type»              : String
  UseDefault          : Bool
  ValueType           : String
  WeekDays            : GoSlice String

/-- The zero value of `DashboardWidgetSettings`. -/
def DashboardWidgetSettings.zero : DashboardWidgetSettings where
  AccountID           := ""
  Acknowledged        := ""
  AgentStatusSettings := StatusWidgetAgentStatusSettings.zero
  Algorithm           := ""
  Autoformat          := false
  BodyFormat          := ""
  ChartType           := ""
  CheckUUID           := ""
  Cleared             := ""
  ClusterID           := 0
  ClusterName         := ""
  ContactGroups       := none
  ContentType         := ""
  Datapoints          := none
  DateWindow          := ""
  Definition          := ChartWidgtDefinition.zero
  Dependents          := ""
  DisableAutoformat   := false
  Display             := ""
  Format              := ""
  Formula             := ""
  GraphUUID           := ""
  HideXAxis           := false
  HideYAxis           := false
  HostStatusSettings  := StatusWidgetHostStatusSettings.zero
  KeyInline           := false
  KeyLoc              := ""
  KeySize             := ""
  KeyWrap             := false
  Label               := ""
  Layout              := ""
  Limit               := ""
  Maintenance         := ""
  Markup              := ""
  MetricDisplayName   := ""
  MetricName          := ""
  MinAge              := ""
  OffHours            := none
  OverlaySetID        := ""
  Period              := GoAny.nil
  RangeHigh           := intCodec.zero
  RangeLow            := intCodec.zero
  Realtime            := false
  ResourceLimit       := ""
  ResourceUsage       := ""
  Search              := ""
  Severity            := ""
  ShowFlags           := false
  Size                := ""
  TagFilterSet        := none
  Threshold           := float32Codec.zero
  Thresholds          := ForecastGaugeWidgetThresholds.zero
  TimeWindow          := ""
  Title               := ""
  TitleFormat         := ""
  Trend               := ""
  «Type»              := ""
  UseDefault          := false
  ValueType           := ""
  WeekDays            := none

/-- The fields of `DashboardWidgetSettings` with their `json` tags, in the order of declaration. -/
def DashboardWidgetSettings.fields : List (Field DashboardWidgetSettings) := [
  ⟨"account_id", true, _, stringCodec, (·.AccountID), fun x b => { x with AccountID := b }⟩,
  ⟨"acknowledged", true, _, stringCodec, (·.Acknowledged), fun x b => { x with Acknowledged := b }⟩,
  ⟨"agent_status_settings", true, _, StatusWidgetAgentStatusSettings.codec, (·.AgentStatusSettings), fun x b => { x with AgentStatusSettings := b }⟩,
  ⟨"algorithm", true, _, stringCodec, (·.Algorithm), fun x b => { x with Algorithm := b }⟩,
  ⟨"autoformat", true, _, boolCodec, (·.Autoformat), fun x b => { x with Autoformat := b }⟩,
  ⟨"body_format", true, _, stringCodec, (·.BodyFormat), fun x b => { x with BodyFormat := b }⟩,
  ⟨"chart_type", true, _, stringCodec, (·.ChartType), fun x b => { x with ChartType := b }⟩,
  ⟨"check_uuid", true, _, stringCodec, (·.CheckUUID), fun x b => { x with CheckUUID := b }⟩,
  ⟨"cleared", true, _, stringCodec, (·.Cleared), fun x b => { x with Cleared := b }⟩,
  ⟨"cluster_id", true, _, uintCodec, (·.ClusterID), fun x b => { x with ClusterID := b }⟩,
  ⟨"cluster_name", true, _, stringCodec, (·.ClusterName), fun x b => { x with ClusterName := b }⟩,
  ⟨"contact_groups", true, _, (sliceCodec uintCodec), (·.ContactGroups), fun x b => { x with ContactGroups := b }⟩,
  ⟨"content_type", true, _, stringCodec, (·.ContentType), fun x b => { x with ContentType := b }⟩,
  ⟨"datapoints", true, _, (sliceCodec ChartTextWidgetDatapoint.codec), (·.Datapoints), fun x b => { x with Datapoints := b }⟩,
  ⟨"date_window", true, _, stringCodec, (·.DateWindow), fun x b => { x with DateWindow := b }⟩,
  ⟨"definition", true, _, ChartWidgtDefinition.codec, (·.Definition), fun x b => { x with Definition := b }⟩,
  ⟨"dependents", true, _, stringCodec, (·.Dependents), fun x b => { x with Dependents := b }⟩,
  ⟨"disable_autoformat", true, _, boolCodec, (·.DisableAutoformat), fun x b => { x with DisableAutoformat := b }⟩,
  ⟨"display", true, _, stringCodec, (·.Display), fun x b => { x with Display := b }⟩,
  ⟨"format", true, _, stringCodec, (·.Format), fun x b => { x with Format := b }⟩,
  ⟨"formula", true, _, stringCodec, (·.Formula), fun x b => { x with Formula := b }⟩,
  ⟨"graph_id", true, _, stringCodec, (·.GraphUUID), fun x b => { x with GraphUUID := b }⟩,
  ⟨"hide_xaxis", true, _, boolCodec, (·.HideXAxis), fun x b => { x with HideXAxis := b }⟩,
  ⟨"hide_yaxis", true, _, boolCodec, (·.HideYAxis), fun x b => { x with HideYAxis := b }⟩,
  ⟨"host_status_settings", true, _, StatusWidgetHostStatusSettings.codec, (·.HostStatusSettings), fun x b => { x with HostStatusSettings := b }⟩,
  ⟨"key_inline", true, _, boolCodec, (·.KeyInline), fun x b => { x with KeyInline := b }⟩,
  ⟨"key_loc", true, _, stringCodec, (·.KeyLoc), fun x b => { x with KeyLoc := b }⟩,
  ⟨"key_size", true, _, stringCodec, (·.KeySize), fun x b => { x with KeySize := b }⟩,
  ⟨"key_wrap", true, _, boolCodec, (·.KeyWrap), fun x b => { x with KeyWrap := b }⟩,
  ⟨"label", true, _, stringCodec, (·.Label), fun x b => { x with Label := b }⟩,
  ⟨"layout", true, _, stringCodec, (·.Layout), fun x b => { x with Layout := b }⟩,
  ⟨"limit", true, _, stringCodec, (·.Limit), fun x b => { x with Limit := b }⟩,
  ⟨"maintenance", true, _, stringCodec, (·.Maintenance), fun x b => { x with Maintenance := b }⟩,
  ⟨"markup", true, _, stringCodec, (·.Markup), fun x b => { x with Markup := b }⟩,
  ⟨"metric_display_name", true, _, stringCodec, (·.MetricDisplayName), fun x b => { x with MetricDisplayName := b }⟩,
  ⟨"metric_name", true, _, stringCodec, (·.MetricName), fun x b => { x with MetricName := b }⟩,
  ⟨"min_age", true, _, stringCodec, (·.MinAge), fun x b => { x with MinAge := b }⟩,
  ⟨"off_hours", true, _, (sliceCodec uintCodec), (·.OffHours), fun x b => { x with OffHours := b }⟩,
  ⟨"overlay_set_id", true, _, stringCodec, (·.OverlaySetID), fun x b => { x with OverlaySetID := b }⟩,
  ⟨"period", true, _, anyCodec, (·.Period), fun x b => { x with Period := b }⟩,
  ⟨"range_high", true, _, intCodec, (·.RangeHigh), fun x b => { x with RangeHigh := b }⟩,
  ⟨"range_low", true, _, intCodec, (·.RangeLow), fun x b => { x with RangeLow := b }⟩,
  ⟨"realtime", true, _, boolCodec, (·.Realtime), fun x b => { x with Realtime := b }⟩,
  ⟨"resource_limit", true, _, stringCodec, (·.ResourceLimit), fun x b => { x with ResourceLimit := b }⟩,
  ⟨"resource_usage", true, _, stringCodec, (·.ResourceUsage), fun x b => { x with ResourceUsage := b }⟩,
  ⟨"search", true, _, stringCodec, (·.Search), fun x b => { x with Search := b }⟩,
  ⟨"severity", true, _, stringCodec, (·.Severity), fun x b => { x with Severity := b }⟩,
  ⟨"show_flags", true, _, boolCodec, (·.ShowFlags), fun x b => { x with ShowFlags := b }⟩,
  ⟨"size", true, _, stringCodec, (·.Size), fun x b => { x with Size := b }⟩,
  ⟨"tag_filter_set", true, _, (sliceCodec stringCodec), (·.TagFilterSet), fun x b => { x with TagFilterSet := b }⟩,
  ⟨"threshold", true, _, float32Codec, (·.Threshold), fun x b => { x with Threshold := b }⟩,
  ⟨"thresholds", true, _, ForecastGaugeWidgetThresholds.codec, (·.Thresholds), fun x b => { x with Thresholds := b }⟩,
  ⟨"time_window", true, _, stringCodec, (·.TimeWindow), fun x b => { x with TimeWindow := b }⟩,
  ⟨"title", true, _, stringCodec, (·.Title), fun x b => { x with Title := b }⟩,
  ⟨"title_format", true, _, stringCodec, (·.TitleFormat), fun x b => { x with TitleFormat := b }⟩,
  ⟨"trend", true, _, stringCodec, (·.Trend), fun x b => { x with Trend := b }⟩,
  ⟨"type", true, _, stringCodec, (·.«Type»), fun x b => { x with «Type» := b }⟩,
  ⟨"use_default", true, _, boolCodec, (·.UseDefault), fun x b => { x with UseDefault := b }⟩,
  ⟨"value_type", true, _, stringCodec, (·.ValueType), fun x b => { x with ValueType := b }⟩,
  ⟨"weekdays", true, _, (sliceCodec stringCodec), (·.WeekDays), fun x b => { x with WeekDays := b }⟩]

/-- Codec of `DashboardWidgetSettings`. -/
def DashboardWidgetSettings.codec : Codec DashboardWidgetSettings :=
  structCodec "api" "DashboardWidgetSettings" DashboardWidgetSettings.zero DashboardWidgetSettings.fields

/-- Go struct `DashboardWidget`. -/
structure DashboardWidget where
  Active   : Bool
  Height   : GoUint
  Name     : String
  Origin   : String
  Settings : DashboardWidgetSettings
  «Type»   : String
  WidgetID : String
  Width    : GoUint

/-- The zero value of `DashboardWidget`. -/
def DashboardWidget.zero : DashboardWidget where
  Active   := false
  Height   := 0
  Name     := ""
  Origin   := ""
  Settings := DashboardWidgetSettings.zero
  «Type»   := ""
  WidgetID := ""
  Width    := 0

/-- The fields of `DashboardWidget` with their `json` tags, in the order of declaration. -/
def DashboardWidget.fields : List (Field DashboardWidget) := [
  ⟨"active", false, _, boolCodec, (·.Active), fun x b => { x with Active := b }⟩,
  ⟨"height", false, _, uintCodec, (·.Height), fun x b => { x with Height := b }⟩,
  ⟨"name", false, _, stringCodec, (·.Name), fun x b => { x with Name := b }⟩,
  ⟨"origin", false, _, stringCodec, (·.Origin), fun x b => { x with Origin := b }⟩,
  ⟨"settings", false, _, DashboardWidgetSettings.codec, (·.Settings), fun x b => { x with Settings := b }⟩,
  ⟨"type", false, _, stringCodec, (·.«Type»), fun x b => { x with «Type» := b }⟩,
  ⟨"widget_id", false, _, stringCodec, (·.WidgetID), fun x b => { x with WidgetID := b }⟩,
  ⟨"width", false, _, uintCodec, (·.Width), fun x b => { x with Width := b }⟩]

/-- Codec of `DashboardWidget`. -/
def DashboardWidget.codec : Codec DashboardWidget :=
  structCodec "api" "DashboardWidget" DashboardWidget.zero DashboardWidget.fields

/-- Go struct `Dashboard`. -/
structure Dashboard where
  CID            : String
  Active         : Bool
  Created        : GoUint
  CreatedBy      : String
  UUID           : String
  LastModified   : GoUint
  AccountDefault : Bool
  GridLayout     : DashboardGridLayout
  Options        : DashboardOptions
  Shared         : Bool
  Title          : String
  Widgets        : GoSlice DashboardWidget

/-- The zero value of `Dashboard`. -/
def Dashboard.zero : Dashboard where
  CID            := ""
  Active         := false
  Created        := 0
  CreatedBy      := ""
  UUID           := ""
  LastModified   := 0
  AccountDefault := false
  GridLayout     := DashboardGridLayout.zero
  Options        := DashboardOptions.zero
  Shared         := false
  Title          := ""
  Widgets        := none

/-- The fields of `Dashboard` with their `json` tags, in the order of declaration. -/
def Dashboard.fields : List (Field Dashboard) := [
  ⟨"_cid", true, _, stringCodec, (·.CID), fun x b => { x with CID := b }⟩,
  ⟨"_active", true, _, boolCodec, (·.Active), fun x b => { x with Active := b }⟩,
  ⟨"_created", true, _, uintCodec, (·.Created), fun x b => { x with Created := b }⟩,
  ⟨"_created_by", true, _, stringCodec, (·.CreatedBy), fun x b => { x with CreatedBy := b }⟩,
  ⟨"_dashboard_uuid", true, _, stringCodec, (·.UUID), fun x b => { x with UUID := b }⟩,
  ⟨"_last_modified", true, _, uintCodec, (·.LastModified), fun x b => { x with LastModified := b }⟩,
  ⟨"account_default", false, _, boolCodec, (·.AccountDefault), fun x b => { x with AccountDefault := b }⟩,
  ⟨"grid_layout", false, _, DashboardGridLayout.codec, (·.GridLayout), fun x b => { x with GridLayout := b }⟩,
  ⟨"options", false, _, DashboardOptions.codec, (·.Options), fun x b => { x with Options := b }⟩,
  ⟨"shared", false, _, boolCodec, (·.Shared), fun x b => { x with Shared := b }⟩,
  ⟨"title", false, _, stringCodec, (·.Title), fun x b => { x with Title := b }⟩,
  ⟨"widgets", false, _, (sliceCodec DashboardWidget.codec), (·.Widgets), fun x b => { x with Widgets := b }⟩]

/-- Codec of `Dashboard`. -/
def Dashboard.codec : Codec Dashboard :=
  structCodec "api" "Dashboard" Dashboard.zero Dashboard.fields

/-! ## net/url -/

/-- The escaping modes of `net/url` that the source reaches. -/
inductive Encoding
  | encodePath
  | encodeQueryComponent
  deriving DecidableEq, Repr

/-- Go `url.shouldEscape`, on a byte. -/
def shouldEscape (c : Nat) (mode : Encoding) : Bool :=
  if ('A'.toNat ≤ c ∧ c ≤ 'Z'.toNat) ∨ ('a'.toNat ≤ c ∧ c ≤ 'z'.toNat) ∨
      ('0'.toNat ≤ c ∧ c ≤ '9'.toNat) then false
  else if c ∈ ['-'.toNat, '_'.toNat, '.'.toNat, '~'.toNat] then false
  else if c ∈ ['$'.toNat, '&'.toNat, '+'.toNat, ','.toNat, '/'.toNat, ':'.toNat, ';'.toNat,
      '='.toNat, '?'.toNat, '@'.toNat] then
    match mode with
    | .encodePath => c == '?'.toNat
    | .encodeQueryComponent => true
  else true

/-- The upper-case hexadecimal digit of a value below 16. -/
def hexDigit (n : Nat) : Char := "0123456789ABCDEF".toList.getD n '0'

/-- What `url.escape` writes for one byte. -/
def escapeByte (mode : Encoding) (c : Nat) : List Char :=
  if c = ' '.toNat ∧ mode = .encodeQueryComponent then ['+']
  else if shouldEscape c mode then ['%', hexDigit (c / 16), hexDigit (c % 16)]
  else [Char.ofNat c]

/-- Go `url.escape`. -/
def escape (s : String) (mode : Encoding) : String :=
  String.mk ((goBytes s).flatMap (escapeByte mode))

/-- Go `url.QueryEscape`. -/
def QueryEscape (s : String) : String := escape s .encodeQueryComponent

/-- Go `url.Values`, a `map[string][]string`. -/
abbrev Values := GoMap String (List String)

/-- The value of a key in a map (`nil` when the key is absent). -/
def Values.lookup (v : Values) (key : String) : List String :=
  match v.find? (fun kv => kv.1 == key) with
  | some kv => kv.2
  | none => []

/-- The map assignment `v[key] = vs`. -/
def Values.assign (key : String) (vs : List String) : Values → Values
  | [] => [(key, vs)]
  | (k, old) :: rest =>
    if k = key then (key, vs) :: rest else (k, old) :: Values.assign key vs rest

/-- Go `Values.Set`: `v[key] = []string{value}`. -/
def Values.Set (v : Values) (key value : String) : Values :=
  Values.assign key [value] v

/-- Go `Values.Add`: `v[key] = append(v[key], value)`. -/
def Values.Add (v : Values) (key value : String) : Values :=
  Values.assign key (v.lookup key ++ [value]) v

/-- The pairs `key=value` that `Values.Encode` writes for one key. -/
def encodePairs (k : String) (vs : List String) : List String :=
  vs.map (fun v => QueryEscape k ++ "=" ++ QueryEscape v)

/-- Go `Values.Encode`: the keys in sorted order, for each key its values in order, the
pairs joined by `&`. -/
def Values.Encode (v : Values) : String :=
  "&".intercalate ((sortStrings (v.map Prod.fst)).flatMap
    (fun k => encodePairs k (v.lookup k)))

/-- Go `url.URL`, with the fields the source sets (the others are zero). -/
structure URL where
  Path : String
  RawQuery : String

/-- Go `URL.EscapedPath`, for a URL without `RawPath`. -/
def URL.EscapedPath (u : URL) : String :=
  if u.Path = "*" then "*" else escape u.Path .encodePath

/-- Go `URL.String`, for a URL without scheme, opaque part, host, user and fragment. -/
def URL.String (u : URL) : String :=
  let path := u.EscapedPath
  let seg := path.toList.takeWhile (· ≠ '/')
  (if ':' ∈ seg then "./" else "") ++ path ++
    (if u.RawQuery ≠ "" then "?" ++ u.RawQuery else "")

/-! ## The API client -/

/-- Modelled from the spec: the type `CIDType` is declared outside the files at hand; it
is an optional identifier, which the tests build as `CIDType(&cid)` from a string. -/
abbrev CIDType := Option String

/-- Modelled from the spec: the type `SearchQueryType` is declared outside the files at
hand; it is the free-text search query, a string. -/
abbrev SearchQueryType := String

/-- Modelled from the spec: the type `SearchFilterType` is declared outside the files at
hand; it is the filter map from a field name to its values, `map[string][]string`. -/
abbrev SearchFilterType := GoMap String (List String)

/-- Modelled from the spec: the shared API client `API` is declared outside the files at
hand; it exposes `Get(path)`, `Put(path, body)`, `Post(path, body)` and `Delete(path)`,
each returning the raw response body or an error. -/
structure API where
  Get : String → Except GoError Bytes
  Put : String → Bytes → Except GoError Bytes
  Post : String → Bytes → Except GoError Bytes
  Delete : String → Except GoError Bytes

/-- A call of a method of the API client, with its arguments. -/
inductive Call
  | Get (path : String)
  | Put (path : String) (body : Bytes)
  | Post (path : String) (body : Bytes)
  | Delete (path : String)

/-- What a run of an operation does and returns: the client calls it made, in order,
what it printed on standard output, and the two values of its Go result. -/
structure Run (α : Type) where
  calls : List Call
  stdout : List Bytes
  value : α
  err : Option GoError

/-! ## Constants of `dashboard.go` -/

/-- The constant `baseDashboardPath` of `dashboard.go`. -/
def baseDashboardPath : String := "/dashboard"

/-- The constant `dashboardCIDRegex` of `dashboard.go`. -/
def dashboardCIDRegex : String := "^" ++ baseDashboardPath ++ "/[0-9]+$"

/-! ## Operations of `dashboard.go` -/

/-- Go `(*API).FetchDashboard`. -/
def FetchDashboard (a : API) (cid : CIDType) : Run (Option Dashboard) :=
  match cid with
  | none => ⟨[], [], none, some (fmtErrorf "Invalid dashboard CID [none]" [])⟩
  | some cidStr =>
    if cidStr = "" then ⟨[], [], none, some (fmtErrorf "Invalid dashboard CID [none]" [])⟩
    else
      let dashboardCID := cidStr
      match regexpMatchString dashboardCIDRegex dashboardCID with
      | (_, some err) => ⟨[], [], none, some err⟩
      | (matched, none) =>
        if !matched then
          ⟨[], [], none, some (fmtErrorf "Invalid dashboard CID [%s]" [dashboardCID])⟩
        else
          match a.Get cidStr with
          | .error err => ⟨[.Get cidStr], [], none, some err⟩
          | .ok result =>
            match jsonUnmarshal Dashboard.codec result Dashboard.zero with
            | .error err => ⟨[.Get cidStr], [result], none, some err⟩
            | .ok dashboard => ⟨[.Get cidStr], [result], some dashboard, none⟩

/-- Go `(*API).FetchDashboards`. The result is a pointer to the slice decoded. -/
def FetchDashboards (a : API) : Run (Option (GoSlice Dashboard)) :=
  match a.Get baseDashboardPath with
  | .error err => ⟨[.Get baseDashboardPath], [], none, some err⟩
  | .ok result =>
    match jsonUnmarshal (sliceCodec Dashboard.codec) result none with
    | .error err => ⟨[.Get baseDashboardPath], [], none, some err⟩
    | .ok dashboards => ⟨[.Get baseDashboardPath], [], some dashboards, none⟩

/-- Go `(*API).UpdateDashboard`. -/
def UpdateDashboard (a : API) (config : Option Dashboard) : Run (Option Dashboard) :=
  match config with
  | none => ⟨[], [], none, some (fmtErrorf "Invalid dashboard config [nil]" [])⟩
  | some config =>
    let dashboardCID := config.CID
    match regexpMatchString dashboardCIDRegex dashboardCID with
    | (_, some err) => ⟨[], [], none, some err⟩
    | (matched, none) =>
      if !matched then
        ⟨[], [], none, some (fmtErrorf "Invalid dashboard CID [%s]" [dashboardCID])⟩
      else
        match jsonMarshal Dashboard.codec config with
        | .error err => ⟨[], [], none, some err⟩
        | .ok cfg =>
          match a.Put dashboardCID cfg with
          | .error err => ⟨[.Put dashboardCID cfg], [], none, some err⟩
          | .ok result =>
            match jsonUnmarshal Dashboard.codec result Dashboard.zero with
            | .error err => ⟨[.Put dashboardCID cfg], [], none, some err⟩
            | .ok dashboard => ⟨[.Put dashboardCID cfg], [], some dashboard, none⟩

/-- Go `(*API).CreateDashboard`. -/
def CreateDashboard (a : API) (config : Option Dashboard) : Run (Option Dashboard) :=
  match config with
  | none => ⟨[], [], none, some (fmtErrorf "Invalid dashboard config [nil]" [])⟩
  | some config =>
    match jsonMarshal Dashboard.codec config with
    | .error err => ⟨[], [], none, some err⟩
    | .ok cfg =>
      match a.Post baseDashboardPath cfg with
      | .error err => ⟨[.Post baseDashboardPath cfg], [], none, some err⟩
      | .ok result =>
        match jsonUnmarshal Dashboard.codec result Dashboard.zero with
        | .error err => ⟨[.Post baseDashboardPath cfg], [], none, some err⟩
        | .ok dashboard => ⟨[.Post baseDashboardPath cfg], [], some dashboard, none⟩

/-- Go `(*API).DeleteDashboardByCID`. -/
def DeleteDashboardByCID (a : API) (cid : CIDType) : Run Bool :=
  match cid with
  | none => ⟨[], [], false, some (fmtErrorf "Invalid dashboard CID [none]" [])⟩
  | some cidStr =>
    if cidStr = "" then ⟨[], [], false, some (fmtErrorf "Invalid dashboard CID [none]" [])⟩
    else
      let dashboardCID := cidStr
      match regexpMatchString dashboardCIDRegex dashboardCID with
      | (_, some err) => ⟨[], [], false, some err⟩
      | (matched, none) =>
        if !matched then
          ⟨[], [], false, some (fmtErrorf "Invalid dashboard CID [%s]" [dashboardCID])⟩
        else
          match a.Delete dashboardCID with
          | .error err => ⟨[.Delete dashboardCID], [], false, some err⟩
          | .ok _ => ⟨[.Delete dashboardCID], [], true, none⟩

/-- Go `(*API).DeleteDashboard`. -/
def DeleteDashboard (a : API) (config : Option Dashboard) : Run Bool :=
  match config with
  | none => ⟨[], [], false, some (fmtErrorf "Invalid dashboard config [none]" [])⟩
  | some config => DeleteDashboardByCID a (some config.CID)

/-- The loops of `SearchDashboards` that add the values of one filter to the query. -/
def addCriteria (filter : String) : List String → Values → Values
  | [], q => q
  | val :: criteria, q => addCriteria filter criteria (q.Add filter val)

/-- The loop of `SearchDashboards` over the filter map. -/
def addFilters : SearchFilterType → Values → Values
  | [], q => q
  | (filter, criteria) :: rest, q => addFilters rest (addCriteria filter criteria q)

/-- The query `q` that `SearchDashboards` builds from its arguments. -/
def searchValues (searchCriteria : Option SearchQueryType)
    (filterCriteria : Option SearchFilterType) : Values :=
  let q : Values := []
  let q :=
    match searchCriteria with
    | some sc => if sc ≠ "" then q.Set "search" sc else q
    | none => q
  match filterCriteria with
  | some fc => if fc.length > 0 then addFilters fc q else q
  | none => q

/-- Go `(*API).SearchDashboards`. -/
def SearchDashboards (a : API) (searchCriteria : Option SearchQueryType)
    (filterCriteria : Option SearchFilterType) : Run (Option (GoSlice Dashboard)) :=
  let q := searchValues searchCriteria filterCriteria
  if q.Encode = "" then FetchDashboards a
  else
    let reqURL : URL := { Path := baseDashboardPath, RawQuery := q.Encode }
    match a.Get reqURL.String with
    | .error err =>
      ⟨[.Get reqURL.String], [], none,
        some (fmtErrorf "[ERROR] API call error %+v" [err.Error])⟩
    | .ok result =>
      match jsonUnmarshal (sliceCodec Dashboard.codec) result none with
      | .error err => ⟨[.Get reqURL.String], [], none, some err⟩
      | .ok dashboards => ⟨[.Get reqURL.String], [], some dashboards, none⟩


/-! ## Specification-level notions -/

/-- A dashboard CID in the words of the specification: the literal `/dashboard/`
followed by one or more ASCII digits and nothing else. -/
def WellFormedCID (s : String) : Prop :=
  ∃ d : String, d ≠ "" ∧ (∀ c ∈ d.toList, '0' ≤ c ∧ c ≤ '9') ∧ s = "/dashboard/" ++ d

/-- The rational number that a number literal denotes. -/
def JNumber.toRat (n : JNumber) : ℚ :=
  (if n.isNeg then -1 else 1) * (n.mantissa : ℚ) * (10 : ℚ) ^ n.exponent10

/-- The pieces of the compiled pattern `dashboardCIDRegex` between `^` and `$`. -/
def litPieces (l : List Char) : List Regexp.Piece := l.map (fun c => ⟨.lit c, false⟩)

/-- The digit class of the pattern accepts the ASCII digits. -/
def digitClass (c : Char) : Bool := decide ('0' ≤ c) && decide (c ≤ '9')

/-! ## Test fixtures of `dashboard_test.go` -/

/-- A client in front of the test server `testDashboardServer` of `dashboard_test.go`,
which serves the dashboard `testDashboard` at `/dashboard/1234` and sends back the body
of a `PUT`; a request the server answers with status 404 is an error of the client. -/
def testDashboardClient (testDashboard : Dashboard) : API where
  Get path :=
    if path = "/dashboard/1234" then jsonMarshal Dashboard.codec testDashboard
    else if path = "/dashboard" then
      jsonMarshal (sliceCodec Dashboard.codec) (some [testDashboard])
    else .error (.errorString ("not found: GET " ++ path))
  Put path body :=
    if path = "/dashboard/1234" then .ok body
    else .error (.errorString ("not found: PUT " ++ path))
  Post path _ :=
    if path = "/dashboard" then jsonMarshal Dashboard.codec testDashboard
    else .error (.errorString ("not found: POST " ++ path))
  Delete path :=
    if path = "/dashboard/1234" then .ok (.malformed "" "unexpected end of JSON input")
    else .error (.errorString ("not found: DELETE " ++ path))

/-- A dashboard with the CID the test server knows. -/
def sampleDashboard : Dashboard :=
  { Dashboard.zero with CID := "/dashboard/1234", Title := "sample" }

/-- A dashboard with a valid CID and one widget whose `Threshold` is not a number. -/
def nanDashboard : Dashboard :=
  { Dashboard.zero with
    CID := "/dashboard/1234"
    Widgets := some [{ DashboardWidget.zero with
      Settings := { DashboardWidgetSettings.zero with Threshold := ⟨.nan, rfl⟩ } }] }

/-- A dashboard with a valid CID and one widget whose `Period` holds a channel. -/
def chanDashboard : Dashboard :=
  { Dashboard.zero with
    CID := "/dashboard/1234"
    Widgets := some [{ DashboardWidget.zero with
      Settings := { DashboardWidgetSettings.zero with Period := .unsupported "chan int" } }] }

/-- The pairs of the query string in the words of the specification: `search=<q>`,
URL-escaped, for a non-empty query, and `<field>=<value>`, URL-escaped, for every
value of every field of the filter. -/
def searchPairs (searchCriteria : Option SearchQueryType)
    (filterCriteria : Option SearchFilterType) : List String :=
  (match searchCriteria with
    | some q => if q ≠ "" then ["search=" ++ QueryEscape q] else []
    | none => []) ++
  (filterCriteria.getD []).flatMap
    (fun kv => kv.2.map (fun v => QueryEscape kv.1 ++ "=" ++ QueryEscape v))

/-- The path that `SearchDashboards` requests. -/
def searchPath (searchCriteria : Option SearchQueryType)
    (filterCriteria : Option SearchFilterType) : String :=
  if (searchValues searchCriteria filterCriteria).Encode = "" then baseDashboardPath
  else URL.String
    { Path := baseDashboardPath,
      RawQuery := (searchValues searchCriteria filterCriteria).Encode }

/-- A codec decodes whatever it encodes: the decoder accepts, into any location, every
JSON value that the encoder produces. -/
def Codec.Total {β : Type} (c : Codec β) : Prop :=
  ∀ x j, c.encode x = .ok j → ∀ cur, ∃ y, c.decode j cur = .ok y

/-- A result is all or nothing: a value without error, or an error without value. -/
def Run.AllOrNothing {α : Type} (r : Run (Option α)) : Prop :=
  (r.value ≠ none ↔ r.err = none) ∧ (r.value = none ↔ r.err ≠ none)

/-- Whether `encoding/json` writes a field of a struct value: always, unless the tag
of the field has `omitempty` and the value of the field is empty. -/
def Field.emitted {α : Type} (x : α) (f : Field α) : Bool :=
  !(f.omitEmpty && f.codec.isEmpty (f.get x))

/-- The keys that `encoding/json` writes for a struct value, in order. -/
def emittedKeys {α : Type} (fields : List (Field α)) (x : α) : List String :=
  (fields.filter (Field.emitted x)).map (·.name)

/-- A dashboard as a fetch returns it, with the server-assigned fields set. -/
def fetchedDashboard : Dashboard :=
  { Dashboard.zero with
    CID := "/dashboard/1234"
    Created := 1483033102
    CreatedBy := "/user/1234"
    UUID := "01234567-89ab-cdef-0123-456789abcdef"
    LastModified := 1483639916
    Title := "sample" }

/-- The values that the query of a search holds for a key: the search query under
`search`, then the values of the filter for that key. -/
def searchLookup (searchCriteria : Option SearchQueryType)
    (filterCriteria : Option SearchFilterType) (k : String) : List String :=
  (match searchCriteria with
    | some q => if q ≠ "" ∧ k = "search" then [q] else []
    | none => []) ++ Values.lookup (filterCriteria.getD []) k

/-! ## What a round trip through JSON gives -/

/-- A field of a struct with the value that decoding gives it: `merge cur x` is what
a location holding `cur` holds after the JSON of `x` was decoded into it. -/
structure FieldMerge (α : Type) where
  field : Field α
  merge : field.β → field.β → field.β

/-- What a struct location holding `cur` holds after the JSON of the struct `x` was
decoded into it: field by field, an omitted field keeps what the location held. -/
def structMerge {α : Type} (fms : List (FieldMerge α)) (cur x : α) : α :=
  fms.foldl (fun y fm => fm.field.set y
    (if fm.field.omitEmpty && fm.field.codec.isEmpty (fm.field.get x) then fm.field.get y
      else fm.merge (fm.field.get y) (fm.field.get x))) cur

/-- Elements of a slice after the JSON of `xs` was decoded into a slice holding `cur`. -/
def mergeElems {β : Type} (m : β → β → β) (zero : β) : List β → List β → List β
  | [], _ => []
  | x :: xs, cur => m (cur.headD zero) x :: mergeElems m zero xs cur.tail

/-- A slice after the JSON of the slice `s` was decoded into a location holding `cur`. -/
def sliceMerge {β : Type} (m : β → β → β) (zero : β) (cur s : GoSlice β) : GoSlice β :=
  match s with
  | none => none
  | some xs => some (mergeElems m zero xs (cur.getD []))

/-- The codec decodes the JSON of `x`, into a location holding `cur`, as `m cur x`. -/
def Codec.Decodes {β : Type} (c : Codec β) (m : β → β → β) : Prop :=
  ∀ x j cur, c.encode x = .ok j → c.decode j cur = .ok (m cur x)

/-- The float64 that holds an integer of a 64-bit integer type, kept as the literal of
the integer: the float64 nearest to the integer. -/
def GoFloat64.ofInteger (neg : Bool) (mag : Nat) (h : mag < 18446744073709551616) :
    GoFloat64 :=
  ⟨.finite (.int neg mag), by
    have hlt : ¬ float64Overflow ≤ mag * 10 ^ (0 : Int).toNat := by
      unfold float64Overflow
      simp only [Int.toNat_zero, pow_zero, Nat.mul_one]
      omega
    simp only [GoFloat.below, JNumber.reaches, JNumber.exponent10, JNumber.mantissa,
      le_refl, if_true, hlt, decide_False, Bool.not_false]⟩

mutual
/-- The value that an `interface{}` holds after a round trip through JSON, for a value
that JSON encodes: nil, a boolean and a string come back as they were; a number comes
back as a float64, the one nearest to it; a slice comes back as the slice of what its
elements come back as; a map comes back with its entries in the order of their keys. -/
def GoAny.stored : GoAny → GoAny
  | .nil => .nil
  | .bool b => .bool b
  | .string s => .string s
  | .uint n => .float64 (GoFloat64.ofInteger false n.val n.isLt)
  | .int i => .float64 (GoFloat64.ofInteger (decide (i.val < 0)) i.val.natAbs (by
      have h := i.property
      omega))
  | .float64 f => .float64 f
  | .slice xs => .slice (GoAny.storedList xs)
  | .map m =>
    .map ((sortByKey (GoAny.storedMembers m)).foldl (fun acc kv => mapInsert kv.1 kv.2 acc) [])
  | .unsupported type => .unsupported type
/-- The elements of a `[]interface{}` after a round trip. -/
def GoAny.storedList : List GoAny → List GoAny
  | [] => []
  | x :: xs => GoAny.stored x :: GoAny.storedList xs
/-- The entries of a `map[string]interface{}` with their values after a round trip. -/
def GoAny.storedMembers : List (String × GoAny) → List (String × GoAny)
  | [] => []
  | (k, v) :: m => (k, GoAny.stored v) :: GoAny.storedMembers m
end

/-- A slice after a round trip into a fresh location: the elements after their round
trip; with `omitempty`, an empty slice comes back as the nil slice. -/
def normSlice {β : Type} (norm : β → β) (omitEmpty : Bool) : GoSlice β → GoSlice β
  | none => none
  | some xs => if omitEmpty && xs.isEmpty then none else some (xs.map norm)

/-- A float32 with `omitempty` after a round trip into a fresh location: a zero (`0` or
`-0`) is left out and comes back as `0`. -/
def normFloat (f : GoFloat32) : GoFloat32 := if f.val.isZero32 then float32Codec.zero else f

/-- A property of every element of a list, as a conjunction. -/
def AllOf.{u} {α : Type u} (P : α → Prop) : List α → Prop
  | [] => True
  | a :: l => P a ∧ AllOf P l

/-- The fields of `DashboardGridLayout` with what decoding gives each of them. -/
def DashboardGridLayout.merges : List (FieldMerge DashboardGridLayout) := [
  ⟨⟨"height", false, _, uintCodec, (·.Height), fun x b => { x with Height := b }⟩,
    (fun _ x => x)⟩,
  ⟨⟨"width", false, _, uintCodec, (·.Width), fun x b => { x with Width := b }⟩,
    (fun _ x => x)⟩]

/-- A `DashboardGridLayout` after a round trip through JSON into a fresh location. -/
def DashboardGridLayout.norm (x : DashboardGridLayout) : DashboardGridLayout where
  Height := x.Height
  Width  := x.Width

/-- The fields of `DashboardAccessConfig` with what decoding gives each of them. -/
def DashboardAccessConfig.merges : List (FieldMerge DashboardAccessConfig) := [
  ⟨⟨"black_dash", true, _, boolCodec, (·.BlackDash), fun x b => { x with BlackDash := b }⟩,
    (fun _ x => x)⟩,
  ⟨⟨"enabled", true, _, boolCodec, (·.Enabled), fun x b => { x with Enabled := b }⟩,
    (fun _ x => x)⟩,
  ⟨⟨"fullscreen", true, _, boolCodec, (·.Fullscreen), fun x b => { x with Fullscreen := b }⟩,
    (fun _ x => x)⟩,
  ⟨⟨"fullscreen_hide_title", true, _, boolCodec, (·.FullscreenHideTitle), fun x b => { x with FullscreenHideTitle := b }⟩,
    (fun _ x => x)⟩,
  ⟨⟨"nickname", true, _, stringCodec, (·.Nickname), fun x b => { x with Nickname := b }⟩,
    (fun _ x => x)⟩,
  ⟨⟨"scale_text", true, _, boolCodec, (·.ScaleText), fun x b => { x with ScaleText := b }⟩,
    (fun _ x => x)⟩,
  ⟨⟨"shared_id", true, _, stringCodec, (·.SharedID), fun x b => { x with SharedID := b }⟩,
    (fun _ x => x)⟩,
  ⟨⟨"text_size", true, _, uintCodec, (·.TextSize), fun x b => { x with TextSize := b }⟩,
    (fun _ x => x)⟩]

/-- A `DashboardAccessConfig` after a round trip through JSON into a fresh location. -/
def DashboardAccessConfig.norm (x : DashboardAccessConfig) : DashboardAccessConfig where
  BlackDash           := x.BlackDash
  Enabled             := x.Enabled
  Fullscreen          := x.Fullscreen
  FullscreenHideTitle := x.FullscreenHideTitle
  Nickname            := x.Nickname
  ScaleText           := x.ScaleText
  SharedID            := x.SharedID
  TextSize            := x.TextSize

/-- The fields of `DashboardOptions` with what decoding gives each of them. -/
def DashboardOptions.merges : List (FieldMerge DashboardOptions) := [
  ⟨⟨"access_configs", true, _, (sliceCodec DashboardAccessConfig.codec), (·.AccessConfigs), fun x b => { x with AccessConfigs := b }⟩,
    (sliceMerge (structMerge DashboardAccessConfig.merges) DashboardAccessConfig.zero)⟩,
  ⟨⟨"fullscreen_hide_title", true, _, boolCodec, (·.FullscreenHideTitle), fun x b => { x with FullscreenHideTitle := b }⟩,
    (fun _ x => x)⟩,
  ⟨⟨"hide_grid", true, _, boolCodec, (·.HideGrid), fun x b => { x with HideGrid := b }⟩,
    (fun _ x => x)⟩,
  ⟨⟨"linkages", true, _, (sliceCodec (sliceCodec stringCodec)), (·.Linkages), fun x b => { x with Linkages := b }⟩,
    (sliceMerge (sliceMerge (fun _ x => x) "") none)⟩,
  ⟨⟨"scale_text", true, _, boolCodec, (·.ScaleText), fun x b => { x with ScaleText := b }⟩,
    (fun _ x => x)⟩,
  ⟨⟨"text_size", true, _, uintCodec, (·.TextSize), fun x b => { x with TextSize := b }⟩,
    (fun _ x => x)⟩]

/-- A `DashboardOptions` after a round trip through JSON into a fresh location. -/
def DashboardOptions.norm (x : DashboardOptions) : DashboardOptions where
  AccessConfigs       := normSlice DashboardAccessConfig.norm true x.AccessConfigs
  FullscreenHideTitle := x.FullscreenHideTitle
  HideGrid            := x.HideGrid
  Linkages            := normSlice (normSlice (fun b => b) false) true x.Linkages
  ScaleText           := x.ScaleText
  TextSize            := x.TextSize

/-- The fields of `ChartTextWidgetDatapoint` with what decoding gives each of them. -/
def ChartTextWidgetDatapoint.merges : List (FieldMerge ChartTextWidgetDatapoint) := [
  ⟨⟨"_cluster_title", true, _, stringCodec, (·.ClusterTitle), fun x b => { x with ClusterTitle := b }⟩,
    (fun _ x => x)⟩,
  ⟨⟨"_label", true, _, stringCodec, (·.Label2), fun x b => { x with Label2 := b }⟩,
    (fun _ x => x)⟩,
  ⟨⟨"numeric_only", true, _, boolCodec, (·.NumericOnly), fun x b => { x with NumericOnly := b }⟩,
    (fun _ x => x)⟩,
  ⟨⟨"cluster_id", true, _, uintCodec, (·.ClusterID), fun x b => { x with ClusterID := b }⟩,
    (fun _ x => x)⟩,
  ⟨⟨"account_id", true, _, stringCodec, (·.AccountID), fun x b => { x with AccountID := b }⟩,
    (fun _ x => x)⟩,
  ⟨⟨"label", true, _, stringCodec, (·.Label), fun x b => { x with Label := b }⟩,
    (fun _ x => x)⟩,
  ⟨⟨"metric", true, _, stringCodec, (·.Metric), fun x b => { x with Metric := b }⟩,
    (fun _ x => x)⟩,
  ⟨⟨"_metric_type", true, _, stringCodec, (·.MetricType), fun x b => { x with MetricType := b }⟩,
    (fun _ x => x)⟩,
  ⟨⟨"_check_id", true, _, uintCodec, (·.CheckID), fun x b => { x with CheckID := b }⟩,
    (fun _ x => x)⟩]

/-- A `ChartTextWidgetDatapoint` after a round trip through JSON into a fresh location. -/
def ChartTextWidgetDatapoint.norm (x : ChartTextWidgetDatapoint) : ChartTextWidgetDatapoint where
  ClusterTitle := x.ClusterTitle
  Label2       := x.Label2
  NumericOnly  := x.NumericOnly
  ClusterID    := x.ClusterID
  AccountID    := x.AccountID
  Label        := x.Label
  Metric       := x.Metric
  MetricType   := x.MetricType
  CheckID      := x.CheckID

/-- The fields of `ChartWidgetDefinitionLegend` with what decoding gives each of them. -/
def ChartWidgetDefinitionLegend.merges : List (FieldMerge ChartWidgetDefinitionLegend) := [
  ⟨⟨"show", true, _, boolCodec, (·.Show), fun x b => { x with Show := b }⟩,
    (fun _ x => x)⟩,
  ⟨⟨"type", true, _, stringCodec, (·.«Type»), fun x b => { x with «Type» := b }⟩,
    (fun _ x => x)⟩]

/-- A `ChartWidgetDefinitionLegend` after a round trip through JSON into a fresh location. -/
def ChartWidgetDefinitionLegend.norm (x : ChartWidgetDefinitionLegend) : ChartWidgetDefinitionLegend where
  Show   := x.Show
  «Type» := x.«Type»

/-- The fields of `ChartWidgetWedgeLabels` with what decoding gives each of them. -/
def ChartWidgetWedgeLabels.merges : List (FieldMerge ChartWidgetWedgeLabels) := [
  ⟨⟨"on_chart", true, _, boolCodec, (·.OnChart), fun x b => { x with OnChart := b }⟩,
    (fun _ x => x)⟩,
  ⟨⟨"tooltips", true, _, boolCodec, (·.ToolTips), fun x b => { x with ToolTips := b }⟩,
    (fun _ x => x)⟩]

/-- A `ChartWidgetWedgeLabels` after a round trip through JSON into a fresh location. -/
def ChartWidgetWedgeLabels.norm (x : ChartWidgetWedgeLabels) : ChartWidgetWedgeLabels where
  OnChart  := x.OnChart
  ToolTips := x.ToolTips

/-- The fields of `ChartWidgetWedgeValues` with what decoding gives each of them. -/
def ChartWidgetWedgeValues.merges : List (FieldMerge ChartWidgetWedgeValues) := [
  ⟨⟨"angle", true, _, stringCodec, (·.Angle), fun x b => { x with Angle := b }⟩,
    (fun _ x => x)⟩,
  ⟨⟨"color", true, _, stringCodec, (·.Color), fun x b => { x with Color := b }⟩,
    (fun _ x => x)⟩,
  ⟨⟨"show", true, _, boolCodec, (·.Show), fun x b => { x with Show := b }⟩,
    (fun _ x => x)⟩]

/-- A `ChartWidgetWedgeValues` after a round trip through JSON into a fresh location. -/
def ChartWidgetWedgeValues.norm (x : ChartWidgetWedgeValues) : ChartWidgetWedgeValues where
  Angle := x.Angle
  Color := x.Color
  Show  := x.Show

/-- The fields of `ChartWidgtDefinition` with what decoding gives each of them. -/
def ChartWidgtDefinition.merges : List (FieldMerge ChartWidgtDefinition) := [
  ⟨⟨"datasource", true, _, stringCodec, (·.Datasource), fun x b => { x with Datasource := b }⟩,
    (fun _ x => x)⟩,
  ⟨⟨"derive", true, _, stringCodec, (·.Derive), fun x b => { x with Derive := b }⟩,
    (fun _ x => x)⟩,
  ⟨⟨"disable_autoformat", true, _, boolCodec, (·.DisableAutoformat), fun x b => { x with DisableAutoformat := b }⟩,
    (fun _ x => x)⟩,
  ⟨⟨"formula", true, _, stringCodec, (·.Formula), fun x b => { x with Formula := b }⟩,
    (fun _ x => x)⟩,
  ⟨⟨"legend", true, _, ChartWidgetDefinitionLegend.codec, (·.Legend), fun x b => { x with Legend := b }⟩,
    (structMerge ChartWidgetDefinitionLegend.merges)⟩,
  ⟨⟨"period", true, _, uintCodec, (·.Period), fun x b => { x with Period := b }⟩,
    (fun _ x => x)⟩,
  ⟨⟨"pop_onhover", true, _, boolCodec, (·.PopOnHover), fun x b => { x with PopOnHover := b }⟩,
    (fun _ x => x)⟩,
  ⟨⟨"wedge_labels", true, _, ChartWidgetWedgeLabels.codec, (·.WedgeLabels), fun x b => { x with WedgeLabels := b }⟩,
    (structMerge ChartWidgetWedgeLabels.merges)⟩,
  ⟨⟨"wedge_values", true, _, ChartWidgetWedgeValues.codec, (·.WedgeValues), fun x b => { x with WedgeValues := b }⟩,
    (structMerge ChartWidgetWedgeValues.merges)⟩]

/-- A `ChartWidgtDefinition` after a round trip through JSON into a fresh location. -/
def ChartWidgtDefinition.norm (x : ChartWidgtDefinition) : ChartWidgtDefinition where
  Datasource        := x.Datasource
  Derive            := x.Derive
  DisableAutoformat := x.DisableAutoformat
  Formula           := x.Formula
  Legend            := ChartWidgetDefinitionLegend.norm x.Legend
  Period            := x.Period
  PopOnHover        := x.PopOnHover
  WedgeLabels       := ChartWidgetWedgeLabels.norm x.WedgeLabels
  WedgeValues       := ChartWidgetWedgeValues.norm x.WedgeValues

/-- The fields of `ForecastGaugeWidgetThresholds` with what decoding gives each of them. -/
def ForecastGaugeWidgetThresholds.merges : List (FieldMerge ForecastGaugeWidgetThresholds) := [
  ⟨⟨"colors", true, _, (sliceCodec stringCodec), (·.Colors), fun x b => { x with Colors := b }⟩,
    (sliceMerge (fun _ x => x) "")⟩,
  ⟨⟨"values", true, _, (sliceCodec stringCodec), (·.Values), fun x b => { x with Values := b }⟩,
    (sliceMerge (fun _ x => x) "")⟩,
  ⟨⟨"flip", true, _, boolCodec, (·.Flip), fun x b => { x with Flip := b }⟩,
    (fun _ x => x)⟩]

/-- A `ForecastGaugeWidgetThresholds` after a round trip through JSON into a fresh location. -/
def ForecastGaugeWidgetThresholds.norm (x : ForecastGaugeWidgetThresholds) : ForecastGaugeWidgetThresholds where
  Colors := normSlice (fun b => b) true x.Colors
  Values := normSlice (fun b => b) true x.Values
  Flip   := x.Flip

/-- The fields of `StatusWidgetAgentStatusSettings` with what decoding gives each of them. -/
def StatusWidgetAgentStatusSettings.merges : List (FieldMerge StatusWidgetAgentStatusSettings) := [
  ⟨⟨"search", true, _, stringCodec, (·.Search), fun x b => { x with Search := b }⟩,
    (fun _ x => x)⟩,
  ⟨⟨"show_agent_types", true, _, stringCodec, (·.ShowAgentTypes), fun x b => { x with ShowAgentTypes := b }⟩,
    (fun _ x => x)⟩,
  ⟨⟨"show_contact", true, _, boolCodec, (·.ShowContact), fun x b => { x with ShowContact := b }⟩,
    (fun _ x => x)⟩,
  ⟨⟨"show_feeds", true, _, boolCodec, (·.ShowFeeds), fun x b => { x with ShowFeeds := b }⟩,
    (fun _ x => x)⟩,
  ⟨⟨"show_setup", true, _, boolCodec, (·.ShowSetup), fun x b => { x with ShowSetup := b }⟩,
    (fun _ x => x)⟩,
  ⟨⟨"show_skew", true, _, boolCodec, (·.ShowSkew), fun x b => { x with ShowSkew := b }⟩,
    (fun _ x => x)⟩,
  ⟨⟨"show_updates", true, _, boolCodec, (·.ShowUpdates), fun x b => { x with ShowUpdates := b }⟩,
    (fun _ x => x)⟩]

/-- A `StatusWidgetAgentStatusSettings` after a round trip through JSON into a fresh location. -/
def StatusWidgetAgentStatusSettings.norm (x : StatusWidgetAgentStatusSettings) : StatusWidgetAgentStatusSettings where
  Search         := x.Search
  ShowAgentTypes := x.ShowAgentTypes
  ShowContact    := x.ShowContact
  ShowFeeds      := x.ShowFeeds
  ShowSetup      := x.ShowSetup
  ShowSkew       := x.ShowSkew
  ShowUpdates    := x.ShowUpdates

/-- The fields of `StatusWidgetHostStatusSettings` with what decoding gives each of them. -/
def StatusWidgetHostStatusSettings.merges : List (FieldMerge StatusWidgetHostStatusSettings) := [
  ⟨⟨"layout_style", true, _, stringCodec, (·.LayoutStyle), fun x b => { x with LayoutStyle := b }⟩,
    (fun _ x => x)⟩,
  ⟨⟨"search", true, _, stringCodec, (·.Search), fun x b => { x with Search := b }⟩,
    (fun _ x => x)⟩,
  ⟨⟨"sort_by", true, _, stringCodec, (·.SortBy), fun x b => { x with SortBy := b }⟩,
    (fun _ x => x)⟩,
  ⟨⟨"tag_filter_set", true, _, (sliceCodec stringCodec), (·.TagFilterSet), fun x b => { x with TagFilterSet := b }⟩,
    (sliceMerge (fun _ x => x) "")⟩]

/-- A `StatusWidgetHostStatusSettings` after a round trip through JSON into a fresh location. -/
def StatusWidgetHostStatusSettings.norm (x : StatusWidgetHostStatusSettings) : StatusWidgetHostStatusSettings where
  LayoutStyle  := x.LayoutStyle
  Search       := x.Search
  SortBy       := x.SortBy
  TagFilterSet := normSlice (fun b => b) true x.TagFilterSet

/-- The fields of `DashboardWidgetSettings` with what decoding gives each of them. -/
def DashboardWidgetSettings.merges : List (FieldMerge DashboardWidgetSettings) := [
  ⟨⟨"account_id", true, _, stringCodec, (·.AccountID), fun x b => { x with AccountID := b }⟩,
    (fun _ x => x)⟩,
  ⟨⟨"acknowledged", true, _, stringCodec, (·.Acknowledged), fun x b => { x with Acknowledged := b }⟩,
    (fun _ x => x)⟩,
  ⟨⟨"agent_status_settings", true, _, StatusWidgetAgentStatusSettings.codec, (·.AgentStatusSettings), fun x b => { x with AgentStatusSettings := b }⟩,
    (structMerge StatusWidgetAgentStatusSettings.merges)⟩,
  ⟨⟨"algorithm", true, _, stringCodec, (·.Algorithm), fun x b => { x with Algorithm := b }⟩,
    (fun _ x => x)⟩,
  ⟨⟨"autoformat", true, _, boolCodec, (·.Autoformat), fun x b => { x with Autoformat := b }⟩,
    (fun _ x => x)⟩,
  ⟨⟨"body_format", true, _, stringCodec, (·.BodyFormat), fun x b => { x with BodyFormat := b }⟩,
    (fun _ x => x)⟩,
  ⟨⟨"chart_type", true, _, stringCodec, (·.ChartType), fun x b => { x with ChartType := b }⟩,
    (fun _ x => x)⟩,
  ⟨⟨"check_uuid", true, _, stringCodec, (·.CheckUUID), fun x b => { x with CheckUUID := b }⟩,
    (fun _ x => x)⟩,
  ⟨⟨"cleared", true, _, stringCodec, (·.Cleared), fun x b => { x with Cleared := b }⟩,
    (fun _ x => x)⟩,
  ⟨⟨"cluster_id", true, _, uintCodec, (·.ClusterID), fun x b => { x with ClusterID := b }⟩,
    (fun _ x => x)⟩,
  ⟨⟨"cluster_name", true, _, stringCodec, (·.ClusterName), fun x b => { x with ClusterName := b }⟩,
    (fun _ x => x)⟩,
  ⟨⟨"contact_groups", true, _, (sliceCodec uintCodec), (·.ContactGroups), fun x b => { x with ContactGroups := b }⟩,
    (sliceMerge (fun _ x => x) 0)⟩,
  ⟨⟨"content_type", true, _, stringCodec, (·.ContentType), fun x b => { x with ContentType := b }⟩,
    (fun _ x => x)⟩,
  ⟨⟨"datapoints", true, _, (sliceCodec ChartTextWidgetDatapoint.codec), (·.Datapoints), fun x b => { x with Datapoints := b }⟩,
    (sliceMerge (structMerge ChartTextWidgetDatapoint.merges) ChartTextWidgetDatapoint.zero)⟩,
  ⟨⟨"date_window", true, _, stringCodec, (·.DateWindow), fun x b => { x with DateWindow := b }⟩,
    (fun _ x => x)⟩,
  ⟨⟨"definition", true, _, ChartWidgtDefinition.codec, (·.Definition), fun x b => { x with Definition := b }⟩,
    (structMerge ChartWidgtDefinition.merges)⟩,
  ⟨⟨"dependents", true, _, stringCodec, (·.Dependents), fun x b => { x with Dependents := b }⟩,
    (fun _ x => x)⟩,
  ⟨⟨"disable_autoformat", true, _, boolCodec, (·.DisableAutoformat), fun x b => { x with DisableAutoformat := b }⟩,
    (fun _ x => x)⟩,
  ⟨⟨"display", true, _, stringCodec, (·.Display), fun x b => { x with Display := b }⟩,
    (fun _ x => x)⟩,
  ⟨⟨"format", true, _, stringCodec, (·.Format), fun x b => { x with Format := b }⟩,
    (fun _ x => x)⟩,
  ⟨⟨"formula", true, _, stringCodec, (·.Formula), fun x b => { x with Formula := b }⟩,
    (fun _ x => x)⟩,
  ⟨⟨"graph_id", true, _, stringCodec, (·.GraphUUID), fun x b => { x with GraphUUID := b }⟩,
    (fun _ x => x)⟩,
  ⟨⟨"hide_xaxis", true, _, boolCodec, (·.HideXAxis), fun x b => { x with HideXAxis := b }⟩,
    (fun _ x => x)⟩,
  ⟨⟨"hide_yaxis", true, _, boolCodec, (·.HideYAxis), fun x b => { x with HideYAxis := b }⟩,
    (fun _ x => x)⟩,
  ⟨⟨"host_status_settings", true, _, StatusWidgetHostStatusSettings.codec, (·.HostStatusSettings), fun x b => { x with HostStatusSettings := b }⟩,
    (structMerge StatusWidgetHostStatusSettings.merges)⟩,
  ⟨⟨"key_inline", true, _, boolCodec, (·.KeyInline), fun x b => { x with KeyInline := b }⟩,
    (fun _ x => x)⟩,
  ⟨⟨"key_loc", true, _, stringCodec, (·.KeyLoc), fun x b => { x with KeyLoc := b }⟩,
    (fun _ x => x)⟩,
  ⟨⟨"key_size", true, _, stringCodec, (·.KeySize), fun x b => { x with KeySize := b }⟩,
    (fun _ x => x)⟩,
  ⟨⟨"key_wrap", true, _, boolCodec, (·.KeyWrap), fun x b => { x with KeyWrap := b }⟩,
    (fun _ x => x)⟩,
  ⟨⟨"label", true, _, stringCodec, (·.Label), fun x b => { x with Label := b }⟩,
    (fun _ x => x)⟩,
  ⟨⟨"layout", true, _, stringCodec, (·.Layout), fun x b => { x with Layout := b }⟩,
    (fun _ x => x)⟩,
  ⟨⟨"limit", true, _, stringCodec, (·.Limit), fun x b => { x with Limit := b }⟩,
    (fun _ x => x)⟩,
  ⟨⟨"maintenance", true, _, stringCodec, (·.Maintenance), fun x b => { x with Maintenance := b }⟩,
    (fun _ x => x)⟩,
  ⟨⟨"markup", true, _, stringCodec, (·.Markup), fun x b => { x with Markup := b }⟩,
    (fun _ x => x)⟩,
  ⟨⟨"metric_display_name", true, _, stringCodec, (·.MetricDisplayName), fun x b => { x with MetricDisplayName := b }⟩,
    (fun _ x => x)⟩,
  ⟨⟨"metric_name", true, _, stringCodec, (·.MetricName), fun x b => { x with MetricName := b }⟩,
    (fun _ x => x)⟩,
  ⟨⟨"min_age", true, _, stringCodec, (·.MinAge), fun x b => { x with MinAge := b }⟩,
    (fun _ x => x)⟩,
  ⟨⟨"off_hours", true, _, (sliceCodec uintCodec), (·.OffHours), fun x b => { x with OffHours := b }⟩,
    (sliceMerge (fun _ x => x) 0)⟩,
  ⟨⟨"overlay_set_id", true, _, stringCodec, (·.OverlaySetID), fun x b => { x with OverlaySetID := b }⟩,
    (fun _ x => x)⟩,
  ⟨⟨"period", true, _, anyCodec, (·.Period), fun x b => { x with Period := b }⟩,
    (fun _ x => x.stored)⟩,
  ⟨⟨"range_high", true, _, intCodec, (·.RangeHigh), fun x b => { x with RangeHigh := b }⟩,
    (fun _ x => x)⟩,
  ⟨⟨"range_low", true, _, intCodec, (·.RangeLow), fun x b => { x with RangeLow := b }⟩,
    (fun _ x => x)⟩,
  ⟨⟨"realtime", true, _, boolCodec, (·.Realtime), fun x b => { x with Realtime := b }⟩,
    (fun _ x => x)⟩,
  ⟨⟨"resource_limit", true, _, stringCodec, (·.ResourceLimit), fun x b => { x with ResourceLimit := b }⟩,
    (fun _ x => x)⟩,
  ⟨⟨"resource_usage", true, _, stringCodec, (·.ResourceUsage), fun x b => { x with ResourceUsage := b }⟩,
    (fun _ x => x)⟩,
  ⟨⟨"search", true, _, stringCodec, (·.Search), fun x b => { x with Search := b }⟩,
    (fun _ x => x)⟩,
  ⟨⟨"severity", true, _, stringCodec, (·.Severity), fun x b => { x with Severity := b }⟩,
    (fun _ x => x)⟩,
  ⟨⟨"show_flags", true, _, boolCodec, (·.ShowFlags), fun x b => { x with ShowFlags := b }⟩,
    (fun _ x => x)⟩,
  ⟨⟨"size", true, _, stringCodec, (·.Size), fun x b => { x with Size := b }⟩,
    (fun _ x => x)⟩,
  ⟨⟨"tag_filter_set", true, _, (sliceCodec stringCodec), (·.TagFilterSet), fun x b => { x with TagFilterSet := b }⟩,
    (sliceMerge (fun _ x => x) "")⟩,
  ⟨⟨"threshold", true, _, float32Codec, (·.Threshold), fun x b => { x with Threshold := b }⟩,
    (fun _ x => x)⟩,
  ⟨⟨"thresholds", true, _, ForecastGaugeWidgetThresholds.codec, (·.Thresholds), fun x b => { x with Thresholds := b }⟩,
    (structMerge ForecastGaugeWidgetThresholds.merges)⟩,
  ⟨⟨"time_window", true, _, stringCodec, (·.TimeWindow), fun x b => { x with TimeWindow := b }⟩,
    (fun _ x => x)⟩,
  ⟨⟨"title", true, _, stringCodec, (·.Title), fun x b => { x with Title := b }⟩,
    (fun _ x => x)⟩,
  ⟨⟨"title_format", true, _, stringCodec, (·.TitleFormat), fun x b => { x with TitleFormat := b }⟩,
    (fun _ x => x)⟩,
  ⟨⟨"trend", true, _, stringCodec, (·.Trend), fun x b => { x with Trend := b }⟩,
    (fun _ x => x)⟩,
  ⟨⟨"type", true, _, stringCodec, (·.«Type»), fun x b => { x with «Type» := b }⟩,
    (fun _ x => x)⟩,
  ⟨⟨"use_default", true, _, boolCodec, (·.UseDefault), fun x b => { x with UseDefault := b }⟩,
    (fun _ x => x)⟩,
  ⟨⟨"value_type", true, _, stringCodec, (·.ValueType), fun x b => { x with ValueType := b }⟩,
    (fun _ x => x)⟩,
  ⟨⟨"weekdays", true, _, (sliceCodec stringCodec), (·.WeekDays), fun x b => { x with WeekDays := b }⟩,
    (sliceMerge (fun _ x => x) "")⟩]

/-- A `DashboardWidgetSettings` after a round trip through JSON into a fresh location. -/
def DashboardWidgetSettings.norm (x : DashboardWidgetSettings) : DashboardWidgetSettings where
  AccountID           := x.AccountID
  Acknowledged        := x.Acknowledged
  AgentStatusSettings := StatusWidgetAgentStatusSettings.norm x.AgentStatusSettings
  Algorithm           := x.Algorithm
  Autoformat          := x.Autoformat
  BodyFormat          := x.BodyFormat
  ChartType           := x.ChartType
  CheckUUID           := x.CheckUUID
  Cleared             := x.Cleared
  ClusterID           := x.ClusterID
  ClusterName         := x.ClusterName
  ContactGroups       := normSlice (fun b => b) true x.ContactGroups
  ContentType         := x.ContentType
  Datapoints          := normSlice ChartTextWidgetDatapoint.norm true x.Datapoints
  DateWindow          := x.DateWindow
  Definition          := ChartWidgtDefinition.norm x.Definition
  Dependents          := x.Dependents
  DisableAutoformat   := x.DisableAutoformat
  Display             := x.Display
  Format              := x.Format
  Formula             := x.Formula
  GraphUUID           := x.GraphUUID
  HideXAxis           := x.HideXAxis
  HideYAxis           := x.HideYAxis
  HostStatusSettings  := StatusWidgetHostStatusSettings.norm x.HostStatusSettings
  KeyInline           := x.KeyInline
  KeyLoc              := x.KeyLoc
  KeySize             := x.KeySize
  KeyWrap             := x.KeyWrap
  Label               := x.Label
  Layout              := x.Layout
  Limit               := x.Limit
  Maintenance         := x.Maintenance
  Markup              := x.Markup
  MetricDisplayName   := x.MetricDisplayName
  MetricName          := x.MetricName
  MinAge              := x.MinAge
  OffHours            := normSlice (fun b => b) true x.OffHours
  OverlaySetID        := x.OverlaySetID
  Period              := x.Period.stored
  RangeHigh           := x.RangeHigh
  RangeLow            := x.RangeLow
  Realtime            := x.Realtime
  ResourceLimit       := x.ResourceLimit
  ResourceUsage       := x.ResourceUsage
  Search              := x.Search
  Severity            := x.Severity
  ShowFlags           := x.ShowFlags
  Size                := x.Size
  TagFilterSet        := normSlice (fun b => b) true x.TagFilterSet
  Threshold           := normFloat x.Threshold
  Thresholds          := ForecastGaugeWidgetThresholds.norm x.Thresholds
  TimeWindow          := x.TimeWindow
  Title               := x.Title
  TitleFormat         := x.TitleFormat
  Trend               := x.Trend
  «Type»              := x.«Type»
  UseDefault          := x.UseDefault
  ValueType           := x.ValueType
  WeekDays            := normSlice (fun b => b) true x.WeekDays

/-- The fields of `DashboardWidget` with what decoding gives each of them. -/
def DashboardWidget.merges : List (FieldMerge DashboardWidget) := [
  ⟨⟨"active", false, _, boolCodec, (·.Active), fun x b => { x with Active := b }⟩,
    (fun _ x => x)⟩,
  ⟨⟨"height", false, _, uintCodec, (·.Height), fun x b => { x with Height := b }⟩,
    (fun _ x => x)⟩,
  ⟨⟨"name", false, _, stringCodec, (·.Name), fun x b => { x with Name := b }⟩,
    (fun _ x => x)⟩,
  ⟨⟨"origin", false, _, stringCodec, (·.Origin), fun x b => { x with Origin := b }⟩,
    (fun _ x => x)⟩,
  ⟨⟨"settings", false, _, DashboardWidgetSettings.codec, (·.Settings), fun x b => { x with Settings := b }⟩,
    (structMerge DashboardWidgetSettings.merges)⟩,
  ⟨⟨"type", false, _, stringCodec, (·.«Type»), fun x b => { x with «Type» := b }⟩,
    (fun _ x => x)⟩,
  ⟨⟨"widget_id", false, _, stringCodec, (·.WidgetID), fun x b => { x with WidgetID := b }⟩,
    (fun _ x => x)⟩,
  ⟨⟨"width", false, _, uintCodec, (·.Width), fun x b => { x with Width := b }⟩,
    (fun _ x => x)⟩]

/-- A `DashboardWidget` after a round trip through JSON into a fresh location. -/
def DashboardWidget.norm (x : DashboardWidget) : DashboardWidget where
  Active   := x.Active
  Height   := x.Height
  Name     := x.Name
  Origin   := x.Origin
  Settings := DashboardWidgetSettings.norm x.Settings
  «Type»   := x.«Type»
  WidgetID := x.WidgetID
  Width    := x.Width

/-- The fields of `Dashboard` with what decoding gives each of them. -/
def Dashboard.merges : List (FieldMerge Dashboard) := [
  ⟨⟨"_cid", true, _, stringCodec, (·.CID), fun x b => { x with CID := b }⟩,
    (fun _ x => x)⟩,
  ⟨⟨"_active", true, _, boolCodec, (·.Active), fun x b => { x with Active := b }⟩,
    (fun _ x => x)⟩,
  ⟨⟨"_created", true, _, uintCodec, (·.Created), fun x b => { x with Created := b }⟩,
    (fun _ x => x)⟩,
  ⟨⟨"_created_by", true, _, stringCodec, (·.CreatedBy), fun x b => { x with CreatedBy := b }⟩,
    (fun _ x => x)⟩,
  ⟨⟨"_dashboard_uuid", true, _, stringCodec, (·.UUID), fun x b => { x with UUID := b }⟩,
    (fun _ x => x)⟩,
  ⟨⟨"_last_modified", true, _, uintCodec, (·.LastModified), fun x b => { x with LastModified := b }⟩,
    (fun _ x => x)⟩,
  ⟨⟨"account_default", false, _, boolCodec, (·.AccountDefault), fun x b => { x with AccountDefault := b }⟩,
    (fun _ x => x)⟩,
  ⟨⟨"grid_layout", false, _, DashboardGridLayout.codec, (·.GridLayout), fun x b => { x with GridLayout := b }⟩,
    (structMerge DashboardGridLayout.merges)⟩,
  ⟨⟨"options", false, _, DashboardOptions.codec, (·.Options), fun x b => { x with Options := b }⟩,
    (structMerge DashboardOptions.merges)⟩,
  ⟨⟨"shared", false, _, boolCodec, (·.Shared), fun x b => { x with Shared := b }⟩,
    (fun _ x => x)⟩,
  ⟨⟨"title", false, _, stringCodec, (·.Title), fun x b => { x with Title := b }⟩,
    (fun _ x => x)⟩,
  ⟨⟨"widgets", false, _, (sliceCodec DashboardWidget.codec), (·.Widgets), fun x b => { x with Widgets := b }⟩,
    (sliceMerge (structMerge DashboardWidget.merges) DashboardWidget.zero)⟩]

/-- A `Dashboard` after a round trip through JSON into a fresh location. -/
def Dashboard.norm (x : Dashboard) : Dashboard where
  CID            := x.CID
  Active         := x.Active
  Created        := x.Created
  CreatedBy      := x.CreatedBy
  UUID           := x.UUID
  LastModified   := x.LastModified
  AccountDefault := x.AccountDefault
  GridLayout     := DashboardGridLayout.norm x.GridLayout
  Options        := DashboardOptions.norm x.Options
  Shared         := x.Shared
  Title          := x.Title
  Widgets        := normSlice DashboardWidget.norm false x.Widgets


/-- The number of binary digits of a natural number (`fuel` bounds the recursion). -/
def bitLengthAux : Nat → Nat → Nat
  | 0, _ => 0
  | fuel + 1, n => if n = 0 then 0 else bitLengthAux fuel (n / 2) + 1

/-- The number of binary digits of a natural number. -/
def bitLength (n : Nat) : Nat := bitLengthAux n n

/-- The float64 nearest to a natural number, ties going to the even mantissa of 53 bits:
the value `strconv.ParseFloat(s, 64)` gives for an integer literal (below the range
where it overflows). The result is an integer, given as such. -/
def float64OfNat (n : Nat) : Nat :=
  if n < 9007199254740992 then n
  else
    let e := bitLength n - 53
    let q := n / 2 ^ e
    let r := n % 2 ^ e
    let half := 2 ^ e / 2
    (if r > half ∨ (r = half ∧ q % 2 = 1) then q + 1 else q) * 2 ^ e

/-- The integer that a value of an `interface{}` holds, when it holds one: the value of
a `uint` or an `int`, and for a `float64` read from an integer literal the float64
nearest to the literal. -/
def GoAny.integerValue : GoAny → Option Int
  | .uint n => some n.val
  | .int i => some i.val
  | .float64 ⟨.finite (.int neg mag), _⟩ => some (JNumber.intValue neg (float64OfNat mag))
  | _ => none

/-- Whether a value of an `interface{}` is a number. -/
def GoAny.isNumber : GoAny → Bool
  | .uint _ => true
  | .int _ => true
  | .float64 _ => true
  | _ => false

/-- Whether a value of an `interface{}` is a string. -/
def GoAny.isString : GoAny → Bool
  | .string _ => true
  | _ => false

/-- A dashboard with four widgets whose `Period` holds a string, a small unsigned
integer, a small negative integer and nothing. -/
def periodDashboard : Dashboard :=
  { Dashboard.zero with
    CID := "/dashboard/1234"
    Widgets := some [
      { DashboardWidget.zero with
        Name := "Graph"
        Settings := { DashboardWidgetSettings.zero with Period := .string "2h" } },
      { DashboardWidget.zero with
        Name := "Gauge"
        Settings := { DashboardWidgetSettings.zero with Period := .uint 300 } },
      { DashboardWidget.zero with
        Name := "Text"
        Settings := { DashboardWidgetSettings.zero with Period := .int ⟨-60, by decide⟩ } },
      DashboardWidget.zero] }

/-- A widget whose `Period` holds an unsigned integer that float64 does not represent,
2^53 + 1. -/
def bigPeriodWidget : DashboardWidget :=
  { DashboardWidget.zero with
    Name := "Gauge"
    Settings := { DashboardWidgetSettings.zero with Period := .uint 9007199254740993 } }

/-- A dashboard with the widget `bigPeriodWidget`. -/
def bigPeriodDashboard : Dashboard :=
  { Dashboard.zero with CID := "/dashboard/1234", Widgets := some [bigPeriodWidget] }

/-- Whether an `interface{}` is nil. -/
def GoAny.isNil : GoAny → Bool
  | .nil => true
  | _ => false

/-- The names of the fields that are written, in order. -/
def writtenKeys (l : List (String × Bool)) : List String := (l.filter (·.2)).map (·.1)

/-- In the words of the specification, the fields of a `DashboardWidgetSettings` in the
order of declaration, each with whether it is written: a field whose tag has
`omitempty` is written unless it is empty (false, 0, the empty string, a nil interface,
a slice of length zero; a struct is never empty), and every other field always. -/
def DashboardWidgetSettings.written (x : DashboardWidgetSettings) : List (String × Bool) := [
  ("account_id", x.AccountID != ""),
  ("acknowledged", x.Acknowledged != ""),
  ("agent_status_settings", true),
  ("algorithm", x.Algorithm != ""),
  ("autoformat", x.Autoformat),
  ("body_format", x.BodyFormat != ""),
  ("chart_type", x.ChartType != ""),
  ("check_uuid", x.CheckUUID != ""),
  ("cleared", x.Cleared != ""),
  ("cluster_id", x.ClusterID != 0),
  ("cluster_name", x.ClusterName != ""),
  ("contact_groups", (x.ContactGroups.getD []).length != 0),
  ("content_type", x.ContentType != ""),
  ("datapoints", (x.Datapoints.getD []).length != 0),
  ("date_window", x.DateWindow != ""),
  ("definition", true),
  ("dependents", x.Dependents != ""),
  ("disable_autoformat", x.DisableAutoformat),
  ("display", x.Display != ""),
  ("format", x.Format != ""),
  ("formula", x.Formula != ""),
  ("graph_id", x.GraphUUID != ""),
  ("hide_xaxis", x.HideXAxis),
  ("hide_yaxis", x.HideYAxis),
  ("host_status_settings", true),
  ("key_inline", x.KeyInline),
  ("key_loc", x.KeyLoc != ""),
  ("key_size", x.KeySize != ""),
  ("key_wrap", x.KeyWrap),
  ("label", x.Label != ""),
  ("layout", x.Layout != ""),
  ("limit", x.Limit != ""),
  ("maintenance", x.Maintenance != ""),
  ("markup", x.Markup != ""),
  ("metric_display_name", x.MetricDisplayName != ""),
  ("metric_name", x.MetricName != ""),
  ("min_age", x.MinAge != ""),
  ("off_hours", (x.OffHours.getD []).length != 0),
  ("overlay_set_id", x.OverlaySetID != ""),
  ("period", !x.Period.isNil),
  ("range_high", x.RangeHigh.val != 0),
  ("range_low", x.RangeLow.val != 0),
  ("realtime", x.Realtime),
  ("resource_limit", x.ResourceLimit != ""),
  ("resource_usage", x.ResourceUsage != ""),
  ("search", x.Search != ""),
  ("severity", x.Severity != ""),
  ("show_flags", x.ShowFlags),
  ("size", x.Size != ""),
  ("tag_filter_set", (x.TagFilterSet.getD []).length != 0),
  ("threshold", !x.Threshold.val.isZero32),
  ("thresholds", true),
  ("time_window", x.TimeWindow != ""),
  ("title", x.Title != ""),
  ("title_format", x.TitleFormat != ""),
  ("trend", x.Trend != ""),
  ("type", x.«Type» != ""),
  ("use_default", x.UseDefault),
  ("value_type", x.ValueType != ""),
  ("weekdays", (x.WeekDays.getD []).length != 0)]

/-- In the words of the specification, the fields of a `DashboardWidget` in the
order of declaration, each with whether it is written: a field whose tag has
`omitempty` is written unless it is empty (false, 0, the empty string, a nil interface,
a slice of length zero; a struct is never empty), and every other field always. -/
def DashboardWidget.written (_x : DashboardWidget) : List (String × Bool) := [
  ("active", true),
  ("height", true),
  ("name", true),
  ("origin", true),
  ("settings", true),
  ("type", true),
  ("widget_id", true),
  ("width", true)]

/-- In the words of the specification, the fields of a `Dashboard` in the
order of declaration, each with whether it is written: a field whose tag has
`omitempty` is written unless it is empty (false, 0, the empty string, a nil interface,
a slice of length zero; a struct is never empty), and every other field always. -/
def Dashboard.written (x : Dashboard) : List (String × Bool) := [
  ("_cid", x.CID != ""),
  ("_active", x.Active),
  ("_created", x.Created != 0),
  ("_created_by", x.CreatedBy != ""),
  ("_dashboard_uuid", x.UUID != ""),
  ("_last_modified", x.LastModified != 0),
  ("account_default", true),
  ("grid_layout", true),
  ("options", true),
  ("shared", true),
  ("title", true),
  ("widgets", true)]

/-- A response body that holds a dashboard whose widget has the threshold `1e40`, more
than a float32 can hold. -/
def overflowThresholdBody : Bytes :=
  .json (.object [("_cid", .string "/dashboard/1234"),
    ("widgets", .array [.object [("settings", .object
      [("threshold", .number (.exp false 1 ⟨false, none, ⟨4, [0]⟩⟩))])]])])

/-- A response body that holds a dashboard whose widget has the period `1e400`, more
than a float64 can hold. -/
def overflowPeriodBody : Bytes :=
  .json (.object [("_cid", .string "/dashboard/1234"),
    ("widgets", .array [.object [("settings", .object
      [("period", .number (.exp false 1 ⟨false, none, ⟨4, [0, 0]⟩⟩))])]])])

/-! ## Facts about the library models -/

theorem compile_dashboardCIDRegex :
    Regexp.compile dashboardCIDRegex =
      .ok (⟨.beginText, false⟩ :: (litPieces "/dashboard/".toList ++
        [⟨.cls [('0', '9')], true⟩, ⟨.endText, false⟩])) := by
  rfl

theorem plusLoop_end (p : Char → Bool) (s : List Char) :
    Regexp.plusLoop p (fun rest => rest.isEmpty) s = (!s.isEmpty && s.all p) := by
  induction s with
  | nil => rfl
  | cons c rest ih =>
    rw [Regexp.plusLoop, ih]
    cases rest <;> simp

theorem matchHere_lits (tail : List Regexp.Piece) (f : List Char → Bool)
    (htail : ∀ b s, Regexp.matchHere tail b s = f s) (l : List Char) :
    ∀ b s, Regexp.matchHere (litPieces l ++ tail) b s =
      (l.isPrefixOf s && f (s.drop l.length)) := by
  induction l with
  | nil => intro b s; simp [litPieces, htail]
  | cons c l ih =>
    intro b s
    cases s with
    | nil => simp [litPieces, Regexp.matchHere]
    | cons x r =>
      have := ih false r
      simp only [litPieces] at this
      simp only [litPieces, List.map_cons, List.cons_append, Regexp.matchHere, this,
        Bool.false_eq_true, if_false, Regexp.Atom.accepts, List.isPrefixOf, List.length_cons,
        List.drop_succ_cons]
      rw [Bool.and_assoc]
      congr 1
      exact Bool.beq_comm

theorem search_beginText_false (ps : List Regexp.Piece) (s : List Char) :
    Regexp.search (⟨.beginText, false⟩ :: ps) false s = false := by
  induction s with
  | nil => simp [Regexp.search, Regexp.matchHere]
  | cons c rest ih => simp [Regexp.search, Regexp.matchHere, ih]

theorem search_beginText_true (ps : List Regexp.Piece) (s : List Char) :
    Regexp.search (⟨.beginText, false⟩ :: ps) true s = Regexp.matchHere ps true s := by
  cases s with
  | nil => simp [Regexp.search, Regexp.matchHere]
  | cons c rest => simp [Regexp.search, Regexp.matchHere, search_beginText_false]

theorem regexpMatchString_dashboardCIDRegex (s : String) :
    regexpMatchString dashboardCIDRegex s =
      ("/dashboard/".toList.isPrefixOf s.toList &&
        (!(s.toList.drop 11).isEmpty && (s.toList.drop 11).all digitClass), none) := by
  unfold regexpMatchString
  rw [compile_dashboardCIDRegex]
  simp only [search_beginText_true]
  rw [matchHere_lits _ (fun s => !s.isEmpty && s.all digitClass)]
  · rfl
  · intro b s
    simp only [Regexp.matchHere, if_true, Bool.and_true]
    rw [plusLoop_end]
    congr 2
    funext c
    simp [Regexp.Atom.accepts, digitClass]

theorem wellFormedCID_iff (s : String) :
    WellFormedCID s ↔
      ("/dashboard/".toList.isPrefixOf s.toList &&
        (!(s.toList.drop 11).isEmpty && (s.toList.drop 11).all digitClass)) = true := by
  constructor
  · rintro ⟨d, hd, hdig, rfl⟩
    have hne : d.toList ≠ [] := by
      intro h; apply hd; cases d; simp_all
    have hdrop : ("/dashboard/" ++ d).toList.drop 11 = d.toList := by
      simp [String.toList, String.data_append]
    rw [hdrop]
    simp only [Bool.and_eq_true, Bool.not_eq_true', List.isEmpty_eq_false, List.all_eq_true]
    refine ⟨?_, ?_, ?_⟩
    · simp only [String.toList, String.data_append]
      exact List.isPrefixOf_iff_prefix.mpr (List.prefix_append _ _)
    · cases h : d.toList with
      | nil => exact absurd h hne
      | cons _ _ => simp
    · intro c hc
      simp [digitClass, hdig c hc]
  · intro h
    simp only [Bool.and_eq_true, Bool.not_eq_true', List.all_eq_true] at h
    obtain ⟨hp, hne, hdig⟩ := h
    obtain ⟨t, ht⟩ := List.isPrefixOf_iff_prefix.mp hp
    have hdrop : s.toList.drop 11 = t := by rw [← ht]; rfl
    rw [hdrop] at hne hdig
    refine ⟨String.mk t, ?_, ?_, ?_⟩
    · intro h0
      have : t = [] := by simpa using congrArg String.toList h0
      subst this; simp at hne
    · intro c hc
      have := hdig c hc
      simpa [digitClass] using this
    · apply String.ext
      rw [String.data_append]
      exact ht.symm

theorem regexpMatchString_of_wellFormed {s : String} (h : WellFormedCID s) :
    regexpMatchString dashboardCIDRegex s = (true, none) := by
  rw [regexpMatchString_dashboardCIDRegex, (wellFormedCID_iff s).mp h]

theorem regexpMatchString_of_not_wellFormed {s : String} (h : ¬ WellFormedCID s) :
    regexpMatchString dashboardCIDRegex s = (false, none) := by
  rw [regexpMatchString_dashboardCIDRegex]
  rw [wellFormedCID_iff, Bool.not_eq_true] at h
  rw [h]

theorem not_wellFormedCID_empty : ¬ WellFormedCID "" := by
  rw [wellFormedCID_iff]; decide

theorem fmtErrorf_none :
    fmtErrorf "Invalid dashboard CID [none]" [] =
      .errorString "Invalid dashboard CID [none]" := by
  rfl

theorem fmtErrorf_cid (s : String) :
    fmtErrorf "Invalid dashboard CID [%s]" [s] =
      .errorString ("Invalid dashboard CID [" ++ s ++ "]") := by
  rfl

/-! ## The operations, by the outcome of the CID check -/

theorem FetchDashboard_rejects (a : API) {s : String} (hs : s ≠ "")
    (h : ¬ WellFormedCID s) :
    FetchDashboard a (some s) =
      ⟨[], [], none, some (.errorString ("Invalid dashboard CID [" ++ s ++ "]"))⟩ := by
  simp [FetchDashboard, hs, regexpMatchString_of_not_wellFormed h, fmtErrorf_cid]

theorem FetchDashboard_accepts (a : API) {s : String} (h : WellFormedCID s) :
    FetchDashboard a (some s) =
      match a.Get s with
      | .error err => ⟨[.Get s], [], none, some err⟩
      | .ok result =>
        match jsonUnmarshal Dashboard.codec result Dashboard.zero with
        | .error err => ⟨[.Get s], [result], none, some err⟩
        | .ok dashboard => ⟨[.Get s], [result], some dashboard, none⟩ := by
  have hs : s ≠ "" := fun h0 => not_wellFormedCID_empty (h0 ▸ h)
  simp [FetchDashboard, hs, regexpMatchString_of_wellFormed h]

theorem DeleteDashboardByCID_rejects (a : API) {s : String} (hs : s ≠ "")
    (h : ¬ WellFormedCID s) :
    DeleteDashboardByCID a (some s) =
      ⟨[], [], false, some (.errorString ("Invalid dashboard CID [" ++ s ++ "]"))⟩ := by
  simp [DeleteDashboardByCID, hs, regexpMatchString_of_not_wellFormed h, fmtErrorf_cid]

theorem DeleteDashboardByCID_accepts (a : API) {s : String} (h : WellFormedCID s) :
    DeleteDashboardByCID a (some s) =
      match a.Delete s with
      | .error err => ⟨[.Delete s], [], false, some err⟩
      | .ok _ => ⟨[.Delete s], [], true, none⟩ := by
  have hs : s ≠ "" := fun h0 => not_wellFormedCID_empty (h0 ▸ h)
  simp [DeleteDashboardByCID, hs, regexpMatchString_of_wellFormed h]

theorem UpdateDashboard_rejects (a : API) {config : Dashboard}
    (h : ¬ WellFormedCID config.CID) :
    UpdateDashboard a (some config) =
      ⟨[], [], none, some (.errorString ("Invalid dashboard CID [" ++ config.CID ++ "]"))⟩ := by
  simp [UpdateDashboard, regexpMatchString_of_not_wellFormed h, fmtErrorf_cid]

theorem UpdateDashboard_accepts (a : API) {config : Dashboard}
    (h : WellFormedCID config.CID) :
    UpdateDashboard a (some config) =
      match jsonMarshal Dashboard.codec config with
      | .error err => ⟨[], [], none, some err⟩
      | .ok cfg =>
        match a.Put config.CID cfg with
        | .error err => ⟨[.Put config.CID cfg], [], none, some err⟩
        | .ok result =>
          match jsonUnmarshal Dashboard.codec result Dashboard.zero with
          | .error err => ⟨[.Put config.CID cfg], [], none, some err⟩
          | .ok dashboard => ⟨[.Put config.CID cfg], [], some dashboard, none⟩ := by
  simp [UpdateDashboard, regexpMatchString_of_wellFormed h]

theorem wellFormedCID_sample : WellFormedCID "/dashboard/1234" := by
  rw [wellFormedCID_iff]; decide

theorem not_wellFormedCID_invalid : ¬ WellFormedCID "/invalid" := by
  rw [wellFormedCID_iff]; decide

/-! ## Decoding what was encoded -/

theorem boolCodec_total : boolCodec.Total := by
  intro x j h cur
  cases h
  exact ⟨x, rfl⟩

theorem stringCodec_total : stringCodec.Total := by
  intro x j h cur
  cases h
  exact ⟨x, rfl⟩

theorem uintCodec_total : uintCodec.Total := by
  intro x j h cur
  cases h
  exact ⟨x, by simp [uintCodec]⟩

theorem intValue_natAbs (i : Int) : JNumber.intValue (decide (i < 0)) i.natAbs = i := by
  unfold JNumber.intValue
  by_cases h : i < 0
  · simp only [h, decide_True, if_true]; omega
  · simp only [h, decide_False, Bool.false_eq_true, if_false]; omega

theorem intCodec_total : intCodec.Total := by
  intro x j h cur
  cases h
  refine ⟨x, ?_⟩
  have hx := x.property
  simp only [intCodec]
  rw [dif_pos (by rw [intValue_natAbs]; exact hx)]
  congr 1
  exact Subtype.ext (intValue_natAbs x.val)

theorem orderedInsert_keys {ν μ : Type} (R : ν → μ → Prop) (a : String × ν) (b : String × μ)
    (hab : a.1 = b.1 ∧ R a.2 b.2) :
    ∀ (l1 : List (String × ν)) (l2 : List (String × μ)),
      List.Forall₂ (fun x y => x.1 = y.1 ∧ R x.2 y.2) l1 l2 →
      List.Forall₂ (fun x y => x.1 = y.1 ∧ R x.2 y.2)
        (l1.orderedInsert (fun a b => stringLess b.1 a.1 = false) a)
        (l2.orderedInsert (fun a b => stringLess b.1 a.1 = false) b) := by
  intro l1 l2 h
  induction h with
  | nil => exact List.Forall₂.cons hab List.Forall₂.nil
  | @cons x y xs ys hxy hrest ih =>
    simp only [List.orderedInsert]
    by_cases hc : stringLess x.1 a.1 = false
    · rw [if_pos hc, if_pos (by rw [← hab.1, ← hxy.1]; exact hc)]
      exact List.Forall₂.cons hab (List.Forall₂.cons hxy hrest)
    · rw [if_neg hc, if_neg (by rw [← hab.1, ← hxy.1]; exact hc)]
      exact List.Forall₂.cons hxy ih

theorem sortByKey_keys {ν μ : Type} (R : ν → μ → Prop) :
    ∀ (l1 : List (String × ν)) (l2 : List (String × μ)),
      List.Forall₂ (fun x y => x.1 = y.1 ∧ R x.2 y.2) l1 l2 →
      List.Forall₂ (fun x y => x.1 = y.1 ∧ R x.2 y.2) (sortByKey l1) (sortByKey l2) := by
  intro l1 l2 h
  induction h with
  | nil => exact List.Forall₂.nil
  | @cons x y xs ys hxy _ ih =>
    exact orderedInsert_keys R x y hxy _ _ ih

theorem ofJSONMembers_fold :
    ∀ (l1 : List (String × JSON)) (l2 : List (String × GoAny)),
      List.Forall₂ (fun x y => x.1 = y.1 ∧ GoAny.ofJSON x.2 = .ok y.2) l1 l2 →
      ∀ acc, GoAny.ofJSONMembers l1 acc =
        .ok (l2.foldl (fun acc kv => mapInsert kv.1 kv.2 acc) acc) := by
  intro l1 l2 h
  induction h with
  | nil => intro acc; rfl
  | @cons x y xs ys hxy _ ih =>
    intro acc
    obtain ⟨k, j⟩ := x
    rw [GoAny.ofJSONMembers]
    simp only [] at hxy
    rw [hxy.2]
    simp only []
    rw [ih, hxy.1]
    rfl

mutual
theorem ofJSON_encode : ∀ (v : GoAny) (j : JSON), v.encode = .ok j →
    GoAny.ofJSON j = .ok v.stored
  | .nil, j, h => by
    rw [GoAny.encode] at h; cases h; rfl
  | .bool b, j, h => by
    rw [GoAny.encode] at h; cases h; rfl
  | .string s, j, h => by
    rw [GoAny.encode] at h; cases h; rfl
  | .uint n, j, h => by
    rw [GoAny.encode] at h; cases h
    have hp : GoFloat.below float64Overflow (.finite (.int false n.val)) = true :=
      (GoFloat64.ofInteger false n.val n.isLt).property
    rw [GoAny.ofJSON, dif_pos hp]
    rfl
  | .int i, j, h => by
    rw [GoAny.encode] at h; cases h
    have hi : i.val.natAbs < 18446744073709551616 := by
      have h := i.property
      omega
    have hp : GoFloat.below float64Overflow
        (.finite (.int (decide (i.val < 0)) i.val.natAbs)) = true :=
      (GoFloat64.ofInteger (decide (i.val < 0)) i.val.natAbs hi).property
    rw [GoAny.ofJSON, dif_pos hp]
    rfl
  | .float64 f, j, h => by
    rw [GoAny.encode] at h
    obtain ⟨fv, hf⟩ := f
    cases fv with
    | finite n =>
      cases h
      rw [GoAny.ofJSON, dif_pos hf]
      rfl
    | nan => cases h
    | inf neg => cases h
  | .slice xs, j, h => by
    rw [GoAny.encode] at h
    cases hxs : GoAny.encodeList xs with
    | error e => rw [hxs] at h; cases h
    | ok js =>
      rw [hxs] at h
      cases h
      rw [GoAny.ofJSON, ofJSONList_encodeList xs js hxs]
      rfl
  | .map m, j, h => by
    rw [GoAny.encode] at h
    cases hm : GoAny.encodeMembers m with
    | error e => rw [hm] at h; cases h
    | ok kvs =>
      rw [hm] at h
      cases h
      rw [GoAny.ofJSON, ofJSONMembers_fold _ _
        (sortByKey_keys (fun j w => GoAny.ofJSON j = .ok w) _ _
          (ofJSONMembers_encodeMembers m kvs hm))]
      rfl
  | .unsupported t, j, h => by
    rw [GoAny.encode] at h; cases h
theorem ofJSONList_encodeList : ∀ (xs : List GoAny) (js : List JSON),
    GoAny.encodeList xs = .ok js → GoAny.ofJSONList js = .ok (GoAny.storedList xs)
  | [], js, h => by
    rw [GoAny.encodeList] at h; cases h; rfl
  | x :: xs, js, h => by
    rw [GoAny.encodeList] at h
    cases hx : GoAny.encode x with
    | error e => rw [hx] at h; cases h
    | ok j =>
      rw [hx] at h
      simp only [] at h
      cases hxs : GoAny.encodeList xs with
      | error e => rw [hxs] at h; cases h
      | ok js2 =>
        rw [hxs] at h
        cases h
        rw [GoAny.ofJSONList, ofJSON_encode x j hx]
        simp only []
        rw [ofJSONList_encodeList xs js2 hxs]
        rfl
theorem ofJSONMembers_encodeMembers : ∀ (m : List (String × GoAny))
    (kvs : List (String × JSON)), GoAny.encodeMembers m = .ok kvs →
    List.Forall₂ (fun x y => x.1 = y.1 ∧ GoAny.ofJSON x.2 = .ok y.2) kvs
      (GoAny.storedMembers m)
  | [], kvs, h => by
    rw [GoAny.encodeMembers] at h; cases h
    exact List.Forall₂.nil
  | (k, v) :: m, kvs, h => by
    rw [GoAny.encodeMembers] at h
    cases hv : GoAny.encode v with
    | error e => rw [hv] at h; cases h
    | ok j =>
      rw [hv] at h
      simp only [] at h
      cases hm : GoAny.encodeMembers m with
      | error e => rw [hm] at h; cases h
      | ok kvs2 =>
        rw [hm] at h
        cases h
        rw [GoAny.storedMembers]
        exact List.Forall₂.cons ⟨rfl, ofJSON_encode v j hv⟩
          (ofJSONMembers_encodeMembers m kvs2 hm)
end

theorem float32Codec_total : float32Codec.Total := by
  intro x j h cur
  obtain ⟨fv, hf⟩ := x
  cases fv with
  | finite n => cases h; exact ⟨⟨.finite n, hf⟩, dif_pos hf⟩
  | nan => cases h
  | inf neg => cases h

theorem anyCodec_total : anyCodec.Total := by
  intro x j h cur
  exact ⟨x.stored, ofJSON_encode x j h⟩

theorem decodeElems_encodeElems {β : Type} (c : Codec β) (hc : c.Total) :
    ∀ (bs : List β) (js : List JSON), encodeElems c bs = .ok js →
      ∀ cur, ∃ ys, decodeElems c js cur = .ok ys := by
  intro bs
  induction bs with
  | nil =>
    intro js h cur
    cases h
    exact ⟨[], rfl⟩
  | cons b bs ih =>
    intro js h cur
    simp only [encodeElems] at h
    cases hb : c.encode b with
    | error e => rw [hb] at h; cases h
    | ok j =>
      rw [hb] at h
      cases hbs : encodeElems c bs with
      | error e => rw [hbs] at h; cases h
      | ok js2 =>
        rw [hbs] at h
        cases h
        obtain ⟨y, hy⟩ := hc b j hb (cur.headD c.zero)
        obtain ⟨ys, hys⟩ := ih js2 hbs cur.tail
        exact ⟨y :: ys, by simp only [decodeElems, hy, hys]⟩

theorem sliceCodec_total {β : Type} (c : Codec β) (hc : c.Total) : (sliceCodec c).Total := by
  intro x j h cur
  cases x with
  | none => cases h; exact ⟨none, rfl⟩
  | some bs =>
    simp only [sliceCodec] at h
    cases hbs : encodeElems c bs with
    | error e => rw [hbs] at h; cases h
    | ok js =>
      rw [hbs] at h
      cases h
      obtain ⟨ys, hys⟩ := decodeElems_encodeElems c hc bs js hbs (cur.getD [])
      exact ⟨some ys, by simp [sliceCodec, hys]⟩

theorem find_name_of_nodup {α : Type} (fields : List (Field α))
    (hnodup : (fields.map (·.name)).Nodup) (f : Field α) (hf : f ∈ fields) :
    fields.find? (fun g => g.name == f.name) = some f := by
  induction fields with
  | nil => cases hf
  | cons g gs ih =>
    rw [List.map_cons, List.nodup_cons] at hnodup
    rcases List.mem_cons.mp hf with rfl | hmem
    · simp [List.find?]
    · have hne : g.name ≠ f.name := by
        intro h
        exact hnodup.1 (h ▸ List.mem_map_of_mem (·.name) hmem)
      rw [List.find?_cons_of_neg _ (by simpa using hne)]
      exact ih hnodup.2 hmem

theorem findField_of_nodup {α : Type} (fields : List (Field α))
    (hnodup : (fields.map (·.name)).Nodup) (f : Field α) (hf : f ∈ fields) :
    findField fields f.name = some f := by
  unfold findField
  rw [find_name_of_nodup fields hnodup f hf]

/-- Decoding the members that `encodeFields` wrote for the fields `fs` succeeds, and it
keeps every property of the location that setting a field of `fs` keeps. -/
theorem decodeMembers_encodeFields {α : Type} (name : String) (fields : List (Field α))
    (hnodup : (fields.map (·.name)).Nodup) (htotal : ∀ f ∈ fields, f.codec.Total)
    (P : α → Prop) (x : α) :
    ∀ (fs : List (Field α)), (∀ f ∈ fs, f ∈ fields) →
      (∀ f ∈ fs, ∀ y b, P y → P (f.set y b)) →
      ∀ kvs, encodeFields fs x = .ok kvs →
      ∀ cur, P cur → ∃ y, decodeMembers name fields kvs cur = .ok y ∧ P y := by
  intro fs
  induction fs with
  | nil =>
    intro _ _ kvs h cur hcur
    cases h
    exact ⟨cur, rfl, hcur⟩
  | cons f fs ih =>
    intro hsub hP kvs h cur hcur
    have hsub2 : ∀ g ∈ fs, g ∈ fields := fun g hg => hsub g (List.mem_cons_of_mem _ hg)
    have hP2 : ∀ g ∈ fs, ∀ y b, P y → P (g.set y b) :=
      fun g hg => hP g (List.mem_cons_of_mem _ hg)
    simp only [encodeFields] at h
    split at h
    · exact ih hsub2 hP2 kvs h cur hcur
    · cases hb : f.codec.encode (f.get x) with
      | error e => rw [hb] at h; cases h
      | ok j =>
        rw [hb] at h
        cases hfs : encodeFields fs x with
        | error e => rw [hfs] at h; cases h
        | ok kvs2 =>
          rw [hfs] at h
          cases h
          have hfmem : f ∈ fields := hsub f (List.mem_cons_self _ _)
          obtain ⟨b, hdec⟩ := htotal f hfmem (f.get x) j hb (f.get cur)
          obtain ⟨y, hy, hPy⟩ := ih hsub2 hP2 kvs2 hfs (f.set cur b)
            (hP f (List.mem_cons_self _ _) cur b hcur)
          refine ⟨y, ?_, hPy⟩
          simp only [decodeMembers, decodeMember, findField_of_nodup fields hnodup f hfmem,
            hdec]
          exact hy

theorem structCodec_total {α : Type} (pkg name : String) (zero : α)
    (fields : List (Field α))
    (hnodup : (fields.map (·.name)).Nodup) (htotal : ∀ f ∈ fields, f.codec.Total) :
    (structCodec pkg name zero fields).Total := by
  intro x j h cur
  simp only [structCodec] at h
  cases hfs : encodeFields fields x with
  | error e => rw [hfs] at h; cases h
  | ok kvs =>
    rw [hfs] at h
    cases h
    obtain ⟨y, hy, _⟩ := decodeMembers_encodeFields name fields hnodup htotal (fun _ => True) x
      fields (fun _ h => h) (fun _ _ _ _ _ => trivial) kvs hfs cur trivial
    exact ⟨y, hy⟩

theorem DashboardGridLayout_codec_total : DashboardGridLayout.codec.Total :=
  structCodec_total _ _ _ _ (by decide)
    (by simp [DashboardGridLayout.fields, boolCodec_total, stringCodec_total, uintCodec_total, intCodec_total, float32Codec_total, anyCodec_total, sliceCodec_total])

theorem DashboardAccessConfig_codec_total : DashboardAccessConfig.codec.Total :=
  structCodec_total _ _ _ _ (by decide)
    (by simp [DashboardAccessConfig.fields, boolCodec_total, stringCodec_total, uintCodec_total, intCodec_total, float32Codec_total, anyCodec_total, sliceCodec_total, DashboardGridLayout_codec_total])

theorem DashboardOptions_codec_total : DashboardOptions.codec.Total :=
  structCodec_total _ _ _ _ (by decide)
    (by simp [DashboardOptions.fields, boolCodec_total, stringCodec_total, uintCodec_total, intCodec_total, float32Codec_total, anyCodec_total, sliceCodec_total, DashboardGridLayout_codec_total, DashboardAccessConfig_codec_total])

theorem ChartTextWidgetDatapoint_codec_total : ChartTextWidgetDatapoint.codec.Total :=
  structCodec_total _ _ _ _ (by decide)
    (by simp [ChartTextWidgetDatapoint.fields, boolCodec_total, stringCodec_total, uintCodec_total, intCodec_total, float32Codec_total, anyCodec_total, sliceCodec_total, DashboardGridLayout_codec_total, DashboardAccessConfig_codec_total, DashboardOptions_codec_total])

theorem ChartWidgetDefinitionLegend_codec_total : ChartWidgetDefinitionLegend.codec.Total :=
  structCodec_total _ _ _ _ (by decide)
    (by simp [ChartWidgetDefinitionLegend.fields, boolCodec_total, stringCodec_total, uintCodec_total, intCodec_total, float32Codec_total, anyCodec_total, sliceCodec_total, DashboardGridLayout_codec_total, DashboardAccessConfig_codec_total, DashboardOptions_codec_total, ChartTextWidgetDatapoint_codec_total])

theorem ChartWidgetWedgeLabels_codec_total : ChartWidgetWedgeLabels.codec.Total :=
  structCodec_total _ _ _ _ (by decide)
    (by simp [ChartWidgetWedgeLabels.fields, boolCodec_total, stringCodec_total, uintCodec_total, intCodec_total, float32Codec_total, anyCodec_total, sliceCodec_total, DashboardGridLayout_codec_total, DashboardAccessConfig_codec_total, DashboardOptions_codec_total, ChartTextWidgetDatapoint_codec_total, ChartWidgetDefinitionLegend_codec_total])

theorem ChartWidgetWedgeValues_codec_total : ChartWidgetWedgeValues.codec.Total :=
  structCodec_total _ _ _ _ (by decide)
    (by simp [ChartWidgetWedgeValues.fields, boolCodec_total, stringCodec_total, uintCodec_total, intCodec_total, float32Codec_total, anyCodec_total, sliceCodec_total, DashboardGridLayout_codec_total, DashboardAccessConfig_codec_total, DashboardOptions_codec_total, ChartTextWidgetDatapoint_codec_total, ChartWidgetDefinitionLegend_codec_total, ChartWidgetWedgeLabels_codec_total])

theorem ChartWidgtDefinition_codec_total : ChartWidgtDefinition.codec.Total :=
  structCodec_total _ _ _ _ (by decide)
    (by simp [ChartWidgtDefinition.fields, boolCodec_total, stringCodec_total, uintCodec_total, intCodec_total, float32Codec_total, anyCodec_total, sliceCodec_total, DashboardGridLayout_codec_total, DashboardAccessConfig_codec_total, DashboardOptions_codec_total, ChartTextWidgetDatapoint_codec_total, ChartWidgetDefinitionLegend_codec_total, ChartWidgetWedgeLabels_codec_total, ChartWidgetWedgeValues_codec_total])

theorem ForecastGaugeWidgetThresholds_codec_total : ForecastGaugeWidgetThresholds.codec.Total :=
  structCodec_total _ _ _ _ (by decide)
    (by simp [ForecastGaugeWidgetThresholds.fields, boolCodec_total, stringCodec_total, uintCodec_total, intCodec_total, float32Codec_total, anyCodec_total, sliceCodec_total, DashboardGridLayout_codec_total, DashboardAccessConfig_codec_total, DashboardOptions_codec_total, ChartTextWidgetDatapoint_codec_total, ChartWidgetDefinitionLegend_codec_total, ChartWidgetWedgeLabels_codec_total, ChartWidgetWedgeValues_codec_total, ChartWidgtDefinition_codec_total])

theorem StatusWidgetAgentStatusSettings_codec_total : StatusWidgetAgentStatusSettings.codec.Total :=
  structCodec_total _ _ _ _ (by decide)
    (by simp [StatusWidgetAgentStatusSettings.fields, boolCodec_total, stringCodec_total, uintCodec_total, intCodec_total, float32Codec_total, anyCodec_total, sliceCodec_total, DashboardGridLayout_codec_total, DashboardAccessConfig_codec_total, DashboardOptions_codec_total, ChartTextWidgetDatapoint_codec_total, ChartWidgetDefinitionLegend_codec_total, ChartWidgetWedgeLabels_codec_total, ChartWidgetWedgeValues_codec_total, ChartWidgtDefinition_codec_total, ForecastGaugeWidgetThresholds_codec_total])

theorem StatusWidgetHostStatusSettings_codec_total : StatusWidgetHostStatusSettings.codec.Total :=
  structCodec_total _ _ _ _ (by decide)
    (by simp [StatusWidgetHostStatusSettings.fields, boolCodec_total, stringCodec_total, uintCodec_total, intCodec_total, float32Codec_total, anyCodec_total, sliceCodec_total, DashboardGridLayout_codec_total, DashboardAccessConfig_codec_total, DashboardOptions_codec_total, ChartTextWidgetDatapoint_codec_total, ChartWidgetDefinitionLegend_codec_total, ChartWidgetWedgeLabels_codec_total, ChartWidgetWedgeValues_codec_total, ChartWidgtDefinition_codec_total, ForecastGaugeWidgetThresholds_codec_total, StatusWidgetAgentStatusSettings_codec_total])

theorem DashboardWidgetSettings_codec_total : DashboardWidgetSettings.codec.Total :=
  structCodec_total _ _ _ _ (by decide)
    (by simp [DashboardWidgetSettings.fields, boolCodec_total, stringCodec_total, uintCodec_total, intCodec_total, float32Codec_total, anyCodec_total, sliceCodec_total, DashboardGridLayout_codec_total, DashboardAccessConfig_codec_total, DashboardOptions_codec_total, ChartTextWidgetDatapoint_codec_total, ChartWidgetDefinitionLegend_codec_total, ChartWidgetWedgeLabels_codec_total, ChartWidgetWedgeValues_codec_total, ChartWidgtDefinition_codec_total, ForecastGaugeWidgetThresholds_codec_total, StatusWidgetAgentStatusSettings_codec_total, StatusWidgetHostStatusSettings_codec_total])

theorem DashboardWidget_codec_total : DashboardWidget.codec.Total :=
  structCodec_total _ _ _ _ (by decide)
    (by simp [DashboardWidget.fields, boolCodec_total, stringCodec_total, uintCodec_total, intCodec_total, float32Codec_total, anyCodec_total, sliceCodec_total, DashboardGridLayout_codec_total, DashboardAccessConfig_codec_total, DashboardOptions_codec_total, ChartTextWidgetDatapoint_codec_total, ChartWidgetDefinitionLegend_codec_total, ChartWidgetWedgeLabels_codec_total, ChartWidgetWedgeValues_codec_total, ChartWidgtDefinition_codec_total, ForecastGaugeWidgetThresholds_codec_total, StatusWidgetAgentStatusSettings_codec_total, StatusWidgetHostStatusSettings_codec_total, DashboardWidgetSettings_codec_total])

theorem Dashboard_codec_total : Dashboard.codec.Total :=
  structCodec_total _ _ _ _ (by decide)
    (by simp [Dashboard.fields, boolCodec_total, stringCodec_total, uintCodec_total, intCodec_total, float32Codec_total, anyCodec_total, sliceCodec_total, DashboardGridLayout_codec_total, DashboardAccessConfig_codec_total, DashboardOptions_codec_total, ChartTextWidgetDatapoint_codec_total, ChartWidgetDefinitionLegend_codec_total, ChartWidgetWedgeLabels_codec_total, ChartWidgetWedgeValues_codec_total, ChartWidgtDefinition_codec_total, ForecastGaugeWidgetThresholds_codec_total, StatusWidgetAgentStatusSettings_codec_total, StatusWidgetHostStatusSettings_codec_total, DashboardWidgetSettings_codec_total, DashboardWidget_codec_total])

theorem Dashboard_fields_nodup : (Dashboard.fields.map (·.name)).Nodup := by decide

theorem Dashboard_fields_total : ∀ f ∈ Dashboard.fields, f.codec.Total := by
  simp [Dashboard.fields, boolCodec_total, stringCodec_total, uintCodec_total,
    sliceCodec_total, DashboardGridLayout_codec_total, DashboardOptions_codec_total,
    DashboardWidget_codec_total]

/-- Decoding the serialization of a dashboard into a fresh `Dashboard` succeeds and gives
a dashboard with the same CID. -/
theorem unmarshal_marshal_cid (d : Dashboard) (body : Bytes)
    (h : jsonMarshal Dashboard.codec d = .ok body) :
    ∃ d2, jsonUnmarshal Dashboard.codec body Dashboard.zero = .ok d2 ∧ d2.CID = d.CID := by
  unfold jsonMarshal at h
  cases henc : Dashboard.codec.encode d with
  | error e => rw [henc] at h; cases h
  | ok j =>
    rw [henc] at h
    cases h
    simp only [Dashboard.codec, structCodec] at henc
    cases hfs : encodeFields Dashboard.fields d with
    | error e => rw [hfs] at henc; cases henc
    | ok kvs =>
      rw [hfs] at henc
      cases henc
      show ∃ d2, decodeMembers "Dashboard" Dashboard.fields kvs Dashboard.zero = .ok d2 ∧
        d2.CID = d.CID
      have hrest : ∀ f ∈ Dashboard.fields.tail, ∀ (y : Dashboard) b,
          y.CID = d.CID → (f.set y b).CID = d.CID := by
        simp [Dashboard.fields]
      have hsub : ∀ f ∈ Dashboard.fields.tail, f ∈ Dashboard.fields :=
        fun f hf => List.mem_of_mem_tail hf
      have hfields : Dashboard.fields =
          ⟨"_cid", true, _, stringCodec, (·.CID), fun x b => { x with CID := b }⟩ ::
            Dashboard.fields.tail := rfl
      rw [hfields, encodeFields] at hfs
      split at hfs
      · rename_i hempty
        have hcid : d.CID = "" := by
          have hlen : d.CID.length = 0 := by
            simpa only [stringCodec, Bool.true_and, beq_iff_eq] using hempty
          exact String.ext (List.length_eq_zero.mp hlen)
        exact decodeMembers_encodeFields "Dashboard" Dashboard.fields Dashboard_fields_nodup
          Dashboard_fields_total (fun y => y.CID = d.CID) d Dashboard.fields.tail hsub hrest
          kvs hfs Dashboard.zero hcid.symm
      · cases hfs2 : encodeFields Dashboard.fields.tail d with
        | error e => simp only [stringCodec, hfs2] at hfs; cases hfs
        | ok kvs2 =>
          simp only [stringCodec, hfs2] at hfs
          cases hfs
          obtain ⟨y, hy, hcid⟩ := decodeMembers_encodeFields "Dashboard" Dashboard.fields
            Dashboard_fields_nodup Dashboard_fields_total (fun y => y.CID = d.CID) d
            Dashboard.fields.tail hsub hrest kvs2 hfs2
            { Dashboard.zero with CID := d.CID } rfl
          refine ⟨y, ?_, hcid⟩
          rw [← hy]
          rfl

/-! ## The query of a search -/

theorem Values.lookup_of_not_mem (q : Values) (k : String) (h : k ∉ q.map Prod.fst) :
    Values.lookup q k = [] := by
  unfold Values.lookup
  have : q.find? (fun kv => kv.1 == k) = none := by
    rw [List.find?_eq_none]
    intro kv hkv hk
    exact h (List.mem_map.mpr ⟨kv, hkv, by simpa using hk⟩)
  rw [this]

theorem Values.lookup_of_mem (q : Values) (hq : (q.map Prod.fst).Nodup)
    (kv : String × List String) (h : kv ∈ q) : Values.lookup q kv.1 = kv.2 := by
  induction q with
  | nil => cases h
  | cons x q ih =>
    rw [List.map_cons, List.nodup_cons] at hq
    rcases List.mem_cons.mp h with rfl | hmem
    · simp [Values.lookup, List.find?]
    · have hne : x.1 ≠ kv.1 := by
        intro heq
        exact hq.1 (heq ▸ List.mem_map_of_mem Prod.fst hmem)
      have := ih hq.2 hmem
      unfold Values.lookup at this ⊢
      rw [List.find?_cons_of_neg _ (by simpa using hne)]
      exact this

theorem Values.assign_of_not_mem (q : Values) (k : String) (l : List String)
    (h : k ∉ q.map Prod.fst) : Values.assign k l q = q ++ [(k, l)] := by
  induction q with
  | nil => rfl
  | cons x q ih =>
    obtain ⟨k2, old⟩ := x
    simp only [List.map_cons, List.mem_cons, not_or] at h
    simp only [Values.assign, Ne.symm h.1, if_false, ih h.2, List.cons_append]

theorem Values.assign_append (q : Values) (k : String) (l l2 : List String)
    (h : k ∉ q.map Prod.fst) : Values.assign k l2 (q ++ [(k, l)]) = q ++ [(k, l2)] := by
  induction q with
  | nil => simp [Values.assign]
  | cons x q ih =>
    obtain ⟨k2, old⟩ := x
    simp only [List.map_cons, List.mem_cons, not_or] at h
    show Values.assign k l2 ((k2, old) :: (q ++ [(k, l)])) = (k2, old) :: (q ++ [(k, l2)])
    rw [Values.assign, if_neg (Ne.symm h.1), ih h.2]

theorem Values.lookup_append (q : Values) (k : String) (l : List String)
    (h : k ∉ q.map Prod.fst) : Values.lookup (q ++ [(k, l)]) k = l := by
  induction q with
  | nil => simp [Values.lookup, List.find?]
  | cons x q ih =>
    obtain ⟨k2, old⟩ := x
    simp only [List.map_cons, List.mem_cons, not_or] at h
    have := ih h.2
    unfold Values.lookup at this ⊢
    rw [List.cons_append, List.find?_cons_of_neg _ (by simpa using Ne.symm h.1)]
    exact this

theorem addCriteria_append (k : String) (q : Values) (h : k ∉ q.map Prod.fst) :
    ∀ (vs l : List String), addCriteria k vs (q ++ [(k, l)]) = q ++ [(k, l ++ vs)] := by
  intro vs
  induction vs with
  | nil => intro l; simp [addCriteria]
  | cons v vs ih =>
    intro l
    rw [addCriteria, Values.Add, Values.lookup_append q k l h, Values.assign_append q k _ _ h,
      ih, List.append_assoc]
    rfl

theorem addCriteria_new (k : String) (vs : List String) (q : Values)
    (h : k ∉ q.map Prod.fst) :
    addCriteria k vs q = if vs = [] then q else q ++ [(k, vs)] := by
  cases vs with
  | nil => rfl
  | cons v vs =>
    rw [addCriteria, Values.Add, Values.lookup_of_not_mem q k h,
      Values.assign_of_not_mem q k _ h, addCriteria_append k q h]
    simp

theorem addFilters_eq (f : SearchFilterType) :
    ∀ (q : Values), (f.map Prod.fst).Nodup → (∀ k ∈ f.map Prod.fst, k ∉ q.map Prod.fst) →
      addFilters f q = q ++ f.filter (fun kv => !kv.2.isEmpty) := by
  induction f with
  | nil => intro q _ _; simp [addFilters]
  | cons x f ih =>
    obtain ⟨k, vs⟩ := x
    intro q hnodup hdisj
    rw [List.map_cons, List.nodup_cons] at hnodup
    have hk : k ∉ q.map Prod.fst := hdisj k (by simp)
    rw [addFilters, addCriteria_new k vs q hk]
    cases vs with
    | nil =>
      simp only [if_true]
      rw [ih q hnodup.2 (fun k2 hk2 => hdisj k2 (by simp [hk2]))]
      simp
    | cons v vs =>
      simp only [reduceCtorEq, if_false]
      rw [ih _ hnodup.2]
      · simp
      · intro k2 hk2
        have hne : k2 ≠ k := fun heq => hnodup.1 (heq ▸ hk2)
        have := hdisj k2 (by simp [hk2])
        simp only [List.map_append, List.map_cons, List.map_nil, List.mem_append,
          List.mem_singleton, not_or]
        exact ⟨this, hne⟩

theorem encode_pairs_perm (v : Values) (hv : (v.map Prod.fst).Nodup) :
    ((sortStrings (v.map Prod.fst)).flatMap (fun k => encodePairs k (v.lookup k))).Perm
      (v.flatMap (fun kv => encodePairs kv.1 kv.2)) := by
  have h1 := List.Perm.flatMap_right (fun k => encodePairs k (v.lookup k))
    (List.perm_insertionSort (fun a b => stringLess b a = false) (v.map Prod.fst))
  have h2 : (v.map Prod.fst).flatMap (fun k => encodePairs k (v.lookup k)) =
      v.flatMap (fun kv => encodePairs kv.1 kv.2) := by
    rw [List.flatMap_map]
    apply List.flatMap_congr
    intro kv hkv
    rw [Values.lookup_of_mem v hv kv hkv]
  rw [h2] at h1
  exact h1

theorem intercalate_go_ne_empty (sep : String) :
    ∀ (l : List String) (acc : String), acc ≠ "" → String.intercalate.go acc sep l ≠ "" := by
  intro l
  induction l with
  | nil => intro acc h; exact h
  | cons a l ih =>
    intro acc h
    apply ih
    intro h0
    apply h
    have := congrArg String.data h0
    simp only [String.data_append, List.append_eq_nil] at this
    exact String.ext this.1.1

theorem intercalate_ne_empty (sep : String) (l : List String) (hl : l ≠ [])
    (h : ∀ x ∈ l, x ≠ "") : sep.intercalate l ≠ "" := by
  cases l with
  | nil => exact absurd rfl hl
  | cons a l => exact intercalate_go_ne_empty sep l a (h a (by simp))

theorem encodePairs_ne_empty (k : String) (vs : List String) :
    ∀ x ∈ encodePairs k vs, x ≠ "" := by
  intro x hx h0
  simp only [encodePairs, List.mem_map] at hx
  obtain ⟨v, _, rfl⟩ := hx
  have := congrArg String.data h0
  simp [String.data_append] at this

theorem URL_String_query (qs : String) (h : qs ≠ "") :
    URL.String { Path := baseDashboardPath, RawQuery := qs } = "/dashboard?" ++ qs := by
  unfold URL.String
  have hp : URL.EscapedPath { Path := baseDashboardPath, RawQuery := qs } = "/dashboard" := by
    rfl
  simp only [hp, h, ne_eq, not_false_eq_true, if_true]
  rfl

theorem FetchDashboards_calls (a : API) :
    (FetchDashboards a).calls = [.Get "/dashboard"] := by
  unfold FetchDashboards
  cases a.Get baseDashboardPath with
  | error e => rfl
  | ok r => simp only []; cases jsonUnmarshal (sliceCodec Dashboard.codec) r none <;> rfl

theorem SearchDashboards_calls (a : API) (searchCriteria : Option SearchQueryType)
    (filterCriteria : Option SearchFilterType) :
    (SearchDashboards a searchCriteria filterCriteria).calls =
      [.Get (searchPath searchCriteria filterCriteria)] := by
  unfold SearchDashboards searchPath
  simp only []
  split
  · exact FetchDashboards_calls a
  · cases a.Get _ with
    | error e => rfl
    | ok r => simp only []; cases jsonUnmarshal (sliceCodec Dashboard.codec) r none <;> rfl

/-- The query that `SearchDashboards` builds, for a filter map without the key `search`:
the search entry, then the fields of the filter that have a value. -/
theorem searchValues_eq (searchCriteria : Option SearchQueryType)
    (filterCriteria : Option SearchFilterType)
    (hnodup : ((filterCriteria.getD []).map Prod.fst).Nodup)
    (hsearch : "search" ∉ (filterCriteria.getD []).map Prod.fst) :
    searchValues searchCriteria filterCriteria =
      (match searchCriteria with
        | some q => if q ≠ "" then [("search", [q])] else []
        | none => []) ++
      (filterCriteria.getD []).filter (fun kv => !kv.2.isEmpty) := by
  cases filterCriteria with
  | none =>
    cases searchCriteria with
    | none => rfl
    | some q => by_cases hq : q = "" <;> simp [searchValues, hq, Values.Set, Values.assign]
  | some fc =>
    simp only [Option.getD_some] at hnodup hsearch ⊢
    have hfc : ∀ q0 : Values, (∀ k ∈ fc.map Prod.fst, k ∉ q0.map Prod.fst) →
        (if fc.length > 0 then addFilters fc q0 else q0) =
          q0 ++ fc.filter (fun kv => !kv.2.isEmpty) := by
      intro q0 hdisj
      split
      · exact addFilters_eq fc q0 hnodup hdisj
      · rename_i hlen
        have : fc = [] := by
          cases fc with
          | nil => rfl
          | cons _ _ => simp at hlen
        subst this; simp
    cases searchCriteria with
    | none => exact hfc [] (by simp)
    | some q =>
      by_cases hq : q = ""
      · simp only [searchValues, hq, ne_eq, not_true_eq_false, if_false]
        exact hfc [] (by simp)
      · simp only [searchValues, hq, ne_eq, not_false_eq_true, if_true]
        apply hfc
        intro k hk
        simp only [Values.Set, Values.assign, List.map_cons, List.map_nil,
          List.mem_singleton]
        intro heq
        exact hsearch (heq ▸ hk)

theorem flatMap_filter_nonempty (f : SearchFilterType) :
    (f.filter (fun kv => !kv.2.isEmpty)).flatMap (fun kv => encodePairs kv.1 kv.2) =
      f.flatMap (fun kv => encodePairs kv.1 kv.2) := by
  induction f with
  | nil => rfl
  | cons x f ih =>
    obtain ⟨k, vs⟩ := x
    cases vs with
    | nil => simpa [encodePairs] using ih
    | cons v vs => simp [List.filter, ih]

theorem searchValues_pairs (searchCriteria : Option SearchQueryType)
    (filterCriteria : Option SearchFilterType)
    (hnodup : ((filterCriteria.getD []).map Prod.fst).Nodup)
    (hsearch : "search" ∉ (filterCriteria.getD []).map Prod.fst) :
    (searchValues searchCriteria filterCriteria).flatMap (fun kv => encodePairs kv.1 kv.2) =
      searchPairs searchCriteria filterCriteria := by
  rw [searchValues_eq searchCriteria filterCriteria hnodup hsearch, List.flatMap_append,
    flatMap_filter_nonempty]
  unfold searchPairs
  congr 1
  cases searchCriteria with
  | none => rfl
  | some q =>
    by_cases hq : q = ""
    · simp [hq]
    · simp only [ne_eq, hq, not_false_eq_true, if_true, List.flatMap_cons, List.flatMap_nil,
        List.append_nil, encodePairs, List.map_cons, List.map_nil]
      rfl

theorem searchValues_nodup (searchCriteria : Option SearchQueryType)
    (filterCriteria : Option SearchFilterType)
    (hnodup : ((filterCriteria.getD []).map Prod.fst).Nodup)
    (hsearch : "search" ∉ (filterCriteria.getD []).map Prod.fst) :
    ((searchValues searchCriteria filterCriteria).map Prod.fst).Nodup := by
  rw [searchValues_eq searchCriteria filterCriteria hnodup hsearch, List.map_append]
  have hsub : (((filterCriteria.getD []).filter (fun kv => !kv.2.isEmpty)).map Prod.fst).Sublist
      ((filterCriteria.getD []).map Prod.fst) :=
    List.Sublist.map _ (List.filter_sublist _)
  have hF := hnodup.sublist hsub
  cases searchCriteria with
  | none => simpa using hF
  | some q =>
    by_cases hq : q = ""
    · simpa [hq] using hF
    · simp only [ne_eq, hq, not_false_eq_true, if_true, List.map_cons, List.map_nil,
        List.singleton_append, List.nodup_cons]
      exact ⟨fun hmem => hsearch (hsub.subset hmem), hF⟩

/-! ## Results and errors of the operations -/

theorem fmtErrorf_api_call (m : String) :
    fmtErrorf "[ERROR] API call error %+v" [m] =
      .errorString ("[ERROR] API call error " ++ m) := by
  have h : sprintfChars "[ERROR] API call error %+v".toList [m] =
      "[ERROR] API call error ".toList ++ (m.toList ++ []) := rfl
  unfold fmtErrorf fmtSprintf
  rw [h, List.append_nil]
  rfl

theorem FetchDashboards_eq (a : API) :
    FetchDashboards a =
      match a.Get "/dashboard" with
      | .error err => ⟨[.Get "/dashboard"], [], none, some err⟩
      | .ok result =>
        match jsonUnmarshal (sliceCodec Dashboard.codec) result none with
        | .error err => ⟨[.Get "/dashboard"], [], none, some err⟩
        | .ok dashboards => ⟨[.Get "/dashboard"], [], some dashboards, none⟩ := by
  rfl

theorem SearchDashboards_eq (a : API) (searchCriteria : Option SearchQueryType)
    (filterCriteria : Option SearchFilterType)
    (h : (searchValues searchCriteria filterCriteria).Encode ≠ "") :
    SearchDashboards a searchCriteria filterCriteria =
      match a.Get (searchPath searchCriteria filterCriteria) with
      | .error err =>
        ⟨[.Get (searchPath searchCriteria filterCriteria)], [], none,
          some (.errorString ("[ERROR] API call error " ++ err.Error))⟩
      | .ok result =>
        match jsonUnmarshal (sliceCodec Dashboard.codec) result none with
        | .error err => ⟨[.Get (searchPath searchCriteria filterCriteria)], [], none, some err⟩
        | .ok dashboards =>
          ⟨[.Get (searchPath searchCriteria filterCriteria)], [], some dashboards, none⟩ := by
  unfold SearchDashboards searchPath
  simp only [if_neg h, fmtErrorf_api_call]

theorem SearchDashboards_eq_fetch (a : API) (searchCriteria : Option SearchQueryType)
    (filterCriteria : Option SearchFilterType)
    (h : (searchValues searchCriteria filterCriteria).Encode = "") :
    SearchDashboards a searchCriteria filterCriteria = FetchDashboards a := by
  unfold SearchDashboards
  simp only [if_pos h]

theorem CreateDashboard_eq (a : API) (config : Dashboard) :
    CreateDashboard a (some config) =
      match jsonMarshal Dashboard.codec config with
      | .error err => ⟨[], [], none, some err⟩
      | .ok cfg =>
        match a.Post "/dashboard" cfg with
        | .error err => ⟨[.Post "/dashboard" cfg], [], none, some err⟩
        | .ok result =>
          match jsonUnmarshal Dashboard.codec result Dashboard.zero with
          | .error err => ⟨[.Post "/dashboard" cfg], [], none, some err⟩
          | .ok dashboard => ⟨[.Post "/dashboard" cfg], [], some dashboard, none⟩ := by
  rfl

theorem allOrNothing_error {α : Type} (calls : List Call) (stdout : List Bytes) (e : GoError) :
    Run.AllOrNothing (⟨calls, stdout, none, some e⟩ : Run (Option α)) := by
  simp [Run.AllOrNothing]

theorem allOrNothing_value {α : Type} (calls : List Call) (stdout : List Bytes) (v : α) :
    Run.AllOrNothing (⟨calls, stdout, some v, none⟩ : Run (Option α)) := by
  simp [Run.AllOrNothing]

theorem FetchDashboard_allOrNothing (a : API) (cid : CIDType) :
    (FetchDashboard a cid).AllOrNothing := by
  cases cid with
  | none => exact allOrNothing_error _ _ _
  | some s =>
    by_cases h0 : s = ""
    · subst h0; exact allOrNothing_error _ _ _
    · by_cases h : WellFormedCID s
      · rw [FetchDashboard_accepts a h]
        cases a.Get s with
        | error e => exact allOrNothing_error _ _ _
        | ok r =>
          simp only []
          cases jsonUnmarshal Dashboard.codec r Dashboard.zero with
          | error e => exact allOrNothing_error _ _ _
          | ok d => exact allOrNothing_value _ _ _
      · rw [FetchDashboard_rejects a h0 h]; exact allOrNothing_error _ _ _

theorem FetchDashboards_allOrNothing (a : API) : (FetchDashboards a).AllOrNothing := by
  rw [FetchDashboards_eq]
  cases a.Get "/dashboard" with
  | error e => exact allOrNothing_error _ _ _
  | ok r =>
    simp only []
    cases jsonUnmarshal (sliceCodec Dashboard.codec) r none with
    | error e => exact allOrNothing_error _ _ _
    | ok d => exact allOrNothing_value _ _ _

theorem CreateDashboard_allOrNothing (a : API) (config : Option Dashboard) :
    (CreateDashboard a config).AllOrNothing := by
  cases config with
  | none => exact allOrNothing_error _ _ _
  | some config =>
    rw [CreateDashboard_eq]
    cases jsonMarshal Dashboard.codec config with
    | error e => exact allOrNothing_error _ _ _
    | ok cfg =>
      simp only []
      cases a.Post "/dashboard" cfg with
      | error e => exact allOrNothing_error _ _ _
      | ok r =>
        simp only []
        cases jsonUnmarshal Dashboard.codec r Dashboard.zero with
        | error e => exact allOrNothing_error _ _ _
        | ok d => exact allOrNothing_value _ _ _

theorem UpdateDashboard_allOrNothing (a : API) (config : Option Dashboard) :
    (UpdateDashboard a config).AllOrNothing := by
  cases config with
  | none => exact allOrNothing_error _ _ _
  | some config =>
    by_cases h : WellFormedCID config.CID
    · rw [UpdateDashboard_accepts a h]
      cases jsonMarshal Dashboard.codec config with
      | error e => exact allOrNothing_error _ _ _
      | ok cfg =>
        simp only []
        cases a.Put config.CID cfg with
        | error e => exact allOrNothing_error _ _ _
        | ok r =>
          simp only []
          cases jsonUnmarshal Dashboard.codec r Dashboard.zero with
          | error e => exact allOrNothing_error _ _ _
          | ok d => exact allOrNothing_value _ _ _
    · rw [UpdateDashboard_rejects a h]; exact allOrNothing_error _ _ _

theorem SearchDashboards_allOrNothing (a : API) (searchCriteria : Option SearchQueryType)
    (filterCriteria : Option SearchFilterType) :
    (SearchDashboards a searchCriteria filterCriteria).AllOrNothing := by
  by_cases h : (searchValues searchCriteria filterCriteria).Encode = ""
  · rw [SearchDashboards_eq_fetch a _ _ h]; exact FetchDashboards_allOrNothing a
  · rw [SearchDashboards_eq a _ _ h]
    cases a.Get (searchPath searchCriteria filterCriteria) with
    | error e => exact allOrNothing_error _ _ _
    | ok r =>
      simp only []
      cases jsonUnmarshal (sliceCodec Dashboard.codec) r none with
      | error e => exact allOrNothing_error _ _ _
      | ok d => exact allOrNothing_value _ _ _

theorem DeleteDashboardByCID_true_iff (a : API) (cid : CIDType) :
    ((DeleteDashboardByCID a cid).value = true ↔ (DeleteDashboardByCID a cid).err = none) := by
  cases cid with
  | none => simp [DeleteDashboardByCID]
  | some s =>
    by_cases h0 : s = ""
    · subst h0; simp [DeleteDashboardByCID]
    · by_cases h : WellFormedCID s
      · rw [DeleteDashboardByCID_accepts a h]
        cases a.Delete s <;> simp
      · rw [DeleteDashboardByCID_rejects a h0 h]; simp

/-! ## The members of an encoded struct -/

theorem encodeFields_keys {α : Type} (x : α) :
    ∀ (fs : List (Field α)) (kvs : List (String × JSON)), encodeFields fs x = .ok kvs →
      kvs.map Prod.fst = emittedKeys fs x := by
  intro fs
  induction fs with
  | nil => intro kvs h; cases h; rfl
  | cons f fs ih =>
    intro kvs h
    rw [encodeFields] at h
    split at h
    · rename_i hc
      rw [ih kvs h]
      simp [emittedKeys, List.filter, Field.emitted, hc]
    · rename_i hc
      cases hb : f.codec.encode (f.get x) with
      | error e => rw [hb] at h; cases h
      | ok j =>
        rw [hb] at h
        cases hfs : encodeFields fs x with
        | error e => rw [hfs] at h; cases h
        | ok kvs2 =>
          rw [hfs] at h
          cases h
          rw [List.map_cons, ih kvs2 hfs]
          simp [emittedKeys, List.filter, Field.emitted, hc]

theorem structCodec_encode_keys {α : Type} (pkg name : String) (zero : α)
    (fields : List (Field α)) (x : α) (j : JSON)
    (h : (structCodec pkg name zero fields).encode x = .ok j) :
    ∃ kvs, j = .object kvs ∧ kvs.map Prod.fst = emittedKeys fields x := by
  simp only [structCodec] at h
  cases hfs : encodeFields fields x with
  | error e => rw [hfs] at h; cases h
  | ok kvs =>
    rw [hfs] at h
    cases h
    exact ⟨kvs, rfl, encodeFields_keys x fields kvs hfs⟩

theorem jsonMarshal_dashboard_keys (config : Dashboard) (cfg : Bytes)
    (h : jsonMarshal Dashboard.codec config = .ok cfg) :
    ∃ kvs, cfg = .json (.object kvs) ∧ kvs.map Prod.fst = emittedKeys Dashboard.fields config := by
  unfold jsonMarshal at h
  cases henc : Dashboard.codec.encode config with
  | error e => rw [henc] at h; cases h
  | ok j =>
    rw [henc] at h
    cases h
    obtain ⟨kvs, rfl, hk⟩ := structCodec_encode_keys _ _ _ _ config j henc
    exact ⟨kvs, rfl, hk⟩

theorem field_eq_of_name_eq {α : Type} (fields : List (Field α))
    (hnodup : (fields.map (·.name)).Nodup) (f g : Field α) (hf : f ∈ fields)
    (hg : g ∈ fields) (h : g.name = f.name) : g = f := by
  have h1 := find_name_of_nodup fields hnodup f hf
  have h2 := find_name_of_nodup fields hnodup g hg
  rw [h] at h2
  exact Option.some.inj (h2.symm.trans h1)

theorem mem_emittedKeys_iff {α : Type} (fields : List (Field α))
    (hnodup : (fields.map (·.name)).Nodup) (x : α) (f : Field α) (hf : f ∈ fields) :
    f.name ∈ emittedKeys fields x ↔ f.emitted x = true := by
  unfold emittedKeys
  rw [List.mem_map]
  constructor
  · rintro ⟨g, hg, hname⟩
    rw [List.mem_filter] at hg
    rw [← field_eq_of_name_eq fields hnodup f g hf hg.1 hname]
    exact hg.2
  · intro h
    exact ⟨f, List.mem_filter.mpr ⟨hf, h⟩, rfl⟩

/-! ## The order of Go strings -/

theorem bytesLess_cons (x y : Nat) (xs ys : List Nat) :
    bytesLess (x :: xs) (y :: ys) = true ↔ x < y ∨ (x = y ∧ bytesLess xs ys = true) := by
  simp [bytesLess]

theorem bytesLess_antisymm : ∀ xs ys : List Nat,
    bytesLess xs ys = false → bytesLess ys xs = false → xs = ys := by
  intro xs
  induction xs with
  | nil =>
    intro ys h1 h2
    cases ys with
    | nil => rfl
    | cons y ys => simp [bytesLess] at h1
  | cons x xs ih =>
    intro ys h1 h2
    cases ys with
    | nil => simp [bytesLess] at h2
    | cons y ys =>
      rw [Bool.eq_false_iff, Ne, bytesLess_cons] at h1 h2
      have hxy : x = y := by omega
      subst hxy
      have h3 : bytesLess xs ys = false := by
        rw [Bool.eq_false_iff]; intro h; exact h1 (Or.inr ⟨rfl, h⟩)
      have h4 : bytesLess ys xs = false := by
        rw [Bool.eq_false_iff]; intro h; exact h2 (Or.inr ⟨rfl, h⟩)
      rw [ih ys h3 h4]

theorem bytesLess_total : ∀ xs ys : List Nat,
    bytesLess ys xs = false ∨ bytesLess xs ys = false := by
  intro xs
  induction xs with
  | nil => intro ys; left; cases ys <;> rfl
  | cons x xs ih =>
    intro ys
    cases ys with
    | nil => right; rfl
    | cons y ys =>
      simp only [Bool.eq_false_iff, Ne, bytesLess_cons]
      rcases ih ys with h | h
      · rw [Bool.eq_false_iff] at h
        by_cases hxy : x < y
        · left; omega
        · by_cases hyx : y < x
          · right; omega
          · left; rintro (h1 | ⟨_, h1⟩)
            · exact hyx h1
            · exact h h1
      · rw [Bool.eq_false_iff] at h
        by_cases hxy : x < y
        · left; omega
        · by_cases hyx : y < x
          · right; omega
          · right; rintro (h1 | ⟨_, h1⟩)
            · exact hxy h1
            · exact h h1

theorem bytesLess_le_trans : ∀ xs ys zs : List Nat,
    bytesLess ys xs = false → bytesLess zs ys = false → bytesLess zs xs = false := by
  intro xs
  induction xs with
  | nil =>
    intro ys zs h1 h2
    cases zs with
    | nil => rfl
    | cons z zs => rfl
  | cons x xs ih =>
    intro ys zs h1 h2
    cases ys with
    | nil => simp [bytesLess] at h1
    | cons y ys =>
      cases zs with
      | nil => simp [bytesLess] at h2
      | cons z zs =>
        rw [Bool.eq_false_iff, Ne, bytesLess_cons] at h1 h2 ⊢
        rintro (h | ⟨rfl, h⟩)
        · by_cases hyx : y < x
          · exact h1 (Or.inl hyx)
          · by_cases hzy : z < y
            · exact h2 (Or.inl hzy)
            · have e1 : y = x := by omega
              have e2 : z = y := by omega
              omega
        · by_cases hyz : y < z
          · exact h1 (Or.inl hyz)
          · by_cases hzy : z < y
            · exact h2 (Or.inl hzy)
            · have e : z = y := by omega
              subst e
              have h3 : bytesLess ys xs = false := by
                rw [Bool.eq_false_iff]; intro h'; exact h1 (Or.inr ⟨rfl, h'⟩)
              have h4 : bytesLess zs ys = false := by
                rw [Bool.eq_false_iff]; intro h'; exact h2 (Or.inr ⟨rfl, h'⟩)
              have := ih ys zs h3 h4
              rw [h] at this
              cases this

theorem utf8Bytes_append_inj (c d : Char) (r1 r2 : List Nat)
    (h : utf8Bytes c ++ r1 = utf8Bytes d ++ r2) : c = d ∧ r1 = r2 := by
  have hc : c.toNat < 1114112 := by
    have := c.valid
    rcases this with h1 | ⟨_, h2⟩
    · exact Nat.lt_trans h1 (by decide)
    · exact h2
  have hd : d.toNat < 1114112 := by
    have := d.valid
    rcases this with h1 | ⟨_, h2⟩
    · exact Nat.lt_trans h1 (by decide)
    · exact h2
  have key : c.toNat = d.toNat ∧ r1 = r2 := by
    unfold utf8Bytes at h
    simp only [] at h
    split_ifs at h <;>
      simp only [List.cons_append, List.nil_append, List.cons.injEq] at h <;>
      first
      | (exfalso; omega)
      | (constructor <;> first | omega | tauto)
  refine ⟨?_, key.2⟩
  apply Char.ext
  apply UInt32.eq_of_val_eq
  apply Fin.ext
  exact key.1

theorem utf8Bytes_ne_nil (c : Char) : utf8Bytes c ≠ [] := by
  unfold utf8Bytes
  simp only []
  split_ifs <;> simp

theorem goBytes_inj_list : ∀ l1 l2 : List Char,
    l1.flatMap utf8Bytes = l2.flatMap utf8Bytes → l1 = l2 := by
  intro l1
  induction l1 with
  | nil =>
    intro l2 h
    cases l2 with
    | nil => rfl
    | cons d ds =>
      simp only [List.flatMap_nil, List.flatMap_cons] at h
      exact absurd (List.append_eq_nil.mp h.symm).1 (utf8Bytes_ne_nil d)
  | cons c cs ih =>
    intro l2 h
    cases l2 with
    | nil =>
      simp only [List.flatMap_nil, List.flatMap_cons] at h
      exact absurd (List.append_eq_nil.mp h).1 (utf8Bytes_ne_nil c)
    | cons d ds =>
      simp only [List.flatMap_cons] at h
      obtain ⟨rfl, h2⟩ := utf8Bytes_append_inj c d _ _ h
      rw [ih ds h2]

theorem goBytes_inj (a b : String) (h : goBytes a = goBytes b) : a = b :=
  String.ext (goBytes_inj_list a.toList b.toList h)

theorem stringLess_antisymm (a b : String) (h1 : stringLess b a = false)
    (h2 : stringLess a b = false) : a = b :=
  goBytes_inj a b (bytesLess_antisymm _ _ h2 h1)

theorem stringLess_total (a b : String) :
    stringLess b a = false ∨ stringLess a b = false :=
  bytesLess_total (goBytes a) (goBytes b)

theorem stringLess_le_trans (a b c : String) (h1 : stringLess b a = false)
    (h2 : stringLess c b = false) : stringLess c a = false :=
  bytesLess_le_trans _ _ _ h1 h2

theorem sortStrings_perm (l : List String) : (sortStrings l).Perm l :=
  List.perm_insertionSort _ l

theorem sortStrings_sorted (l : List String) :
    (sortStrings l).Pairwise (fun a b => stringLess b a = false) := by
  haveI : IsTotal String (fun a b => stringLess b a = false) := ⟨stringLess_total⟩
  haveI : IsTrans String (fun a b => stringLess b a = false) := ⟨stringLess_le_trans⟩
  exact List.sorted_insertionSort (fun a b => stringLess b a = false) l

/-- Sorting does not depend on the order of the strings sorted. -/
theorem sortStrings_eq_of_perm {l1 l2 : List String} (h : l1.Perm l2) :
    sortStrings l1 = sortStrings l2 := by
  haveI : IsAntisymm String (fun a b => stringLess b a = false) := ⟨stringLess_antisymm⟩
  exact List.eq_of_perm_of_sorted
    ((sortStrings_perm l1).trans (h.trans (sortStrings_perm l2).symm))
    (sortStrings_sorted l1) (sortStrings_sorted l2)

/-- Distinct strings come out of the sort in strictly increasing order. -/
theorem sortStrings_ascending (l : List String) (hl : l.Nodup) :
    (sortStrings l).Pairwise (fun a b => stringLess a b = true) := by
  have hnodup : (sortStrings l).Nodup := (sortStrings_perm l).nodup_iff.mpr hl
  have h := (sortStrings_sorted l).and hnodup
  refine h.imp ?_
  intro a b hab
  obtain ⟨h1, h2⟩ := hab
  cases hlt : stringLess a b with
  | true => rfl
  | false => exact absurd (stringLess_antisymm a b h1 hlt) h2

/-! ## The query of a search, key by key -/

theorem Values.lookup_cons (kv : String × List String) (q : Values) (k : String) :
    Values.lookup (kv :: q) k = if kv.1 = k then kv.2 else Values.lookup q k := by
  unfold Values.lookup
  by_cases h : kv.1 = k
  · simp [List.find?, h]
  · rw [List.find?_cons_of_neg _ (by simpa using h), if_neg h]

theorem Values.lookup_assign (key : String) (vs : List String) (q : Values) (k : String) :
    Values.lookup (Values.assign key vs q) k =
      if k = key then vs else Values.lookup q k := by
  induction q with
  | nil =>
    rw [Values.assign, Values.lookup_cons]
    by_cases h : k = key
    · simp [h]
    · simp [h, Ne.symm h, Values.lookup]
  | cons x q ih =>
    obtain ⟨k2, old⟩ := x
    rw [Values.assign]
    by_cases h2 : k2 = key
    · rw [if_pos h2, Values.lookup_cons, Values.lookup_cons]
      by_cases h : k = key
      · simp [h]
      · have : ¬ key = k := Ne.symm h
        simp [h, this, h2]
    · rw [if_neg h2, Values.lookup_cons, Values.lookup_cons, ih]
      by_cases h : k = key
      · have : ¬ k2 = k := by rw [h]; exact h2
        simp [h, h2]
      · simp [h]

theorem Values.keys_assign (key : String) (vs : List String) (q : Values) :
    (Values.assign key vs q).map Prod.fst =
      if key ∈ q.map Prod.fst then q.map Prod.fst else q.map Prod.fst ++ [key] := by
  induction q with
  | nil => simp [Values.assign]
  | cons x q ih =>
    obtain ⟨k2, old⟩ := x
    rw [Values.assign]
    by_cases h2 : k2 = key
    · simp [h2]
    · rw [if_neg h2, List.map_cons, ih]
      have : ¬ key = k2 := Ne.symm h2
      by_cases hm : key ∈ q.map Prod.fst
      · simp [hm]
      · simp [hm, this]

theorem Values.keys_assign_nodup (key : String) (vs : List String) (q : Values)
    (h : (q.map Prod.fst).Nodup) : ((Values.assign key vs q).map Prod.fst).Nodup := by
  rw [Values.keys_assign]
  split
  · exact h
  · rename_i hm
    rw [List.nodup_append]
    refine ⟨h, List.nodup_singleton _, ?_⟩
    intro a ha hb
    rw [List.mem_singleton] at hb
    exact hm (hb ▸ ha)

theorem Values.mem_keys_assign (key : String) (vs : List String) (q : Values) (k : String) :
    k ∈ (Values.assign key vs q).map Prod.fst ↔ k ∈ q.map Prod.fst ∨ k = key := by
  rw [Values.keys_assign]
  split
  · rename_i hm
    constructor
    · exact Or.inl
    · rintro (h | rfl)
      · exact h
      · exact hm
  · simp

theorem addCriteria_lookup (filter : String) :
    ∀ (criteria : List String) (q : Values) (k : String),
      Values.lookup (addCriteria filter criteria q) k =
        if k = filter then Values.lookup q filter ++ criteria else Values.lookup q k := by
  intro criteria
  induction criteria with
  | nil => intro q k; by_cases h : k = filter <;> simp [addCriteria, h]
  | cons v vs ih =>
    intro q k
    rw [addCriteria, ih, Values.Add, Values.lookup_assign, Values.lookup_assign]
    by_cases h : k = filter
    · simp [h]
    · simp [h]

theorem addCriteria_keys (filter : String) :
    ∀ (criteria : List String) (q : Values), (q.map Prod.fst).Nodup →
      ((addCriteria filter criteria q).map Prod.fst).Nodup ∧
      ∀ k, k ∈ (addCriteria filter criteria q).map Prod.fst ↔
        k ∈ q.map Prod.fst ∨ (k = filter ∧ criteria ≠ []) := by
  intro criteria
  induction criteria with
  | nil => intro q h; exact ⟨h, fun k => by simp [addCriteria]⟩
  | cons v vs ih =>
    intro q h
    rw [addCriteria]
    obtain ⟨h1, h2⟩ := ih (q.Add filter v) (Values.keys_assign_nodup _ _ _ h)
    refine ⟨h1, fun k => ?_⟩
    rw [h2 k, Values.Add, Values.mem_keys_assign]
    constructor
    · rintro ((h | h) | ⟨h, _⟩)
      · exact Or.inl h
      · exact Or.inr ⟨h, by simp⟩
      · exact Or.inr ⟨h, by simp⟩
    · rintro (h | ⟨h, _⟩)
      · exact Or.inl (Or.inl h)
      · exact Or.inl (Or.inr h)

theorem addFilters_lookup (f : SearchFilterType) :
    ∀ (q : Values) (k : String), (f.map Prod.fst).Nodup →
      Values.lookup (addFilters f q) k = Values.lookup q k ++ Values.lookup f k := by
  induction f with
  | nil => intro q k _; simp [addFilters, Values.lookup]
  | cons x f ih =>
    obtain ⟨filter, criteria⟩ := x
    intro q k hnodup
    rw [List.map_cons, List.nodup_cons] at hnodup
    rw [addFilters, ih _ k hnodup.2, addCriteria_lookup, Values.lookup_cons]
    by_cases h : k = filter
    · subst h
      simp [Values.lookup_of_not_mem f k hnodup.1]
    · have : ¬ filter = k := Ne.symm h
      simp [h, this]

theorem addFilters_keys (f : SearchFilterType) :
    ∀ (q : Values), (q.map Prod.fst).Nodup → (f.map Prod.fst).Nodup →
      ((addFilters f q).map Prod.fst).Nodup ∧
      ∀ k, k ∈ (addFilters f q).map Prod.fst ↔
        k ∈ q.map Prod.fst ∨ Values.lookup f k ≠ [] := by
  induction f with
  | nil => intro q h _; exact ⟨h, fun k => by simp [addFilters, Values.lookup]⟩
  | cons x f ih =>
    obtain ⟨filter, criteria⟩ := x
    intro q hq hnodup
    rw [List.map_cons, List.nodup_cons] at hnodup
    rw [addFilters]
    obtain ⟨c1, c2⟩ := addCriteria_keys filter criteria q hq
    obtain ⟨h1, h2⟩ := ih (addCriteria filter criteria q) c1 hnodup.2
    refine ⟨h1, fun k => ?_⟩
    rw [h2 k, c2 k, Values.lookup_cons]
    by_cases h : k = filter
    · subst h
      simp [Values.lookup_of_not_mem f k hnodup.1]
    · have : ¬ filter = k := Ne.symm h
      simp [h, this]

/-- The query of a search, key by key: its keys are distinct, a key is present exactly
when it has a value, and the values of a key are the search query (under `search`)
followed by the values of the filter for that key. -/
theorem searchValues_spec (searchCriteria : Option SearchQueryType)
    (filterCriteria : Option SearchFilterType)
    (hnodup : ((filterCriteria.getD []).map Prod.fst).Nodup) :
    ((searchValues searchCriteria filterCriteria).map Prod.fst).Nodup ∧
    (∀ k, k ∈ (searchValues searchCriteria filterCriteria).map Prod.fst ↔
      searchLookup searchCriteria filterCriteria k ≠ []) ∧
    (∀ k, Values.lookup (searchValues searchCriteria filterCriteria) k =
      searchLookup searchCriteria filterCriteria k) := by
  -- the query after the search criteria
  have hstart : ∀ q0 : Values, (q0.map Prod.fst).Nodup →
      ((match filterCriteria with
        | some fc => if fc.length > 0 then addFilters fc q0 else q0
        | none => q0).map Prod.fst).Nodup ∧
      (∀ k, k ∈ (match filterCriteria with
        | some fc => if fc.length > 0 then addFilters fc q0 else q0
        | none => q0).map Prod.fst ↔
          k ∈ q0.map Prod.fst ∨ Values.lookup (filterCriteria.getD []) k ≠ []) ∧
      (∀ k, Values.lookup (match filterCriteria with
        | some fc => if fc.length > 0 then addFilters fc q0 else q0
        | none => q0) k =
          Values.lookup q0 k ++ Values.lookup (filterCriteria.getD []) k) := by
    intro q0 hq0
    cases filterCriteria with
    | none => exact ⟨hq0, fun k => by simp [Values.lookup], fun k => by simp [Values.lookup]⟩
    | some fc =>
      simp only [Option.getD_some] at hnodup ⊢
      by_cases hlen : fc.length > 0
      · simp only [hlen, if_true]
        obtain ⟨h1, h2⟩ := addFilters_keys fc q0 hq0 hnodup
        exact ⟨h1, h2, fun k => addFilters_lookup fc q0 k hnodup⟩
      · have hfc : fc = [] := by
          cases fc with
          | nil => rfl
          | cons _ _ => simp at hlen
        subst hfc
        simp only [hlen, if_false]
        exact ⟨hq0, fun k => by simp [Values.lookup], fun k => by simp [Values.lookup]⟩
  unfold searchValues searchLookup
  simp only []
  cases searchCriteria with
  | none =>
    obtain ⟨h1, h2, h3⟩ := hstart [] List.nodup_nil
    refine ⟨h1, fun k => ?_, fun k => ?_⟩
    · rw [h2 k]; simp
    · rw [h3 k]; simp [Values.lookup]
  | some q =>
    by_cases hq : q = ""
    · simp only [hq, ne_eq, not_true_eq_false, if_false, false_and]
      obtain ⟨h1, h2, h3⟩ := hstart [] List.nodup_nil
      refine ⟨h1, fun k => ?_, fun k => ?_⟩
      · rw [h2 k]; simp
      · rw [h3 k]; simp [Values.lookup]
    · simp only [ne_eq, hq, not_false_eq_true, if_true, true_and]
      obtain ⟨h1, h2, h3⟩ := hstart (Values.Set [] "search" q) (by simp [Values.Set, Values.assign])
      refine ⟨h1, fun k => ?_, fun k => ?_⟩
      · rw [h2 k]
        by_cases hk : k = "search"
        · simp [hk, Values.Set, Values.assign]
        · simp [hk, Values.Set, Values.assign]
      · have hset : Values.Set [] "search" q = [("search", [q])] := rfl
        rw [h3 k, hset, Values.lookup_cons]
        by_cases hk : k = "search"
        · simp [hk, Values.lookup]
        · have : ¬ "search" = k := Ne.symm hk
          simp [hk, this, Values.lookup]

theorem Values.lookup_perm {f1 f2 : Values} (hperm : f1.Perm f2)
    (hnodup : (f1.map Prod.fst).Nodup) (k : String) :
    Values.lookup f1 k = Values.lookup f2 k := by
  have hnodup2 : (f2.map Prod.fst).Nodup := (hperm.map Prod.fst).nodup_iff.mp hnodup
  by_cases hk : k ∈ f1.map Prod.fst
  · obtain ⟨kv, hkv, rfl⟩ := List.mem_map.mp hk
    rw [Values.lookup_of_mem f1 hnodup kv hkv,
      Values.lookup_of_mem f2 hnodup2 kv (hperm.subset hkv)]
  · have hk2 : k ∉ f2.map Prod.fst := fun h => hk ((hperm.map Prod.fst).symm.subset h)
    rw [Values.lookup_of_not_mem f1 k hk, Values.lookup_of_not_mem f2 k hk2]

theorem searchValues_encode_eq (searchCriteria : Option SearchQueryType)
    (filterCriteria : Option SearchFilterType)
    (hnodup : ((filterCriteria.getD []).map Prod.fst).Nodup) :
    (searchValues searchCriteria filterCriteria).Encode =
      "&".intercalate
        ((sortStrings ((searchValues searchCriteria filterCriteria).map Prod.fst)).flatMap
          (fun k => encodePairs k (searchLookup searchCriteria filterCriteria k))) := by
  unfold Values.Encode
  congr 1
  apply List.flatMap_congr
  intro k _
  rw [(searchValues_spec searchCriteria filterCriteria hnodup).2.2 k]

/-- The query string of a search depends on the filter only through the values it
gives to each key. -/
theorem searchValues_encode_congr (searchCriteria : Option SearchQueryType)
    (f1 f2 : Option SearchFilterType)
    (h1 : ((f1.getD []).map Prod.fst).Nodup) (h2 : ((f2.getD []).map Prod.fst).Nodup)
    (hlookup : ∀ k, Values.lookup (f1.getD []) k = Values.lookup (f2.getD []) k) :
    (searchValues searchCriteria f1).Encode = (searchValues searchCriteria f2).Encode := by
  have hl : ∀ k, searchLookup searchCriteria f1 k = searchLookup searchCriteria f2 k := by
    intro k; unfold searchLookup; rw [hlookup k]
  obtain ⟨n1, m1, _⟩ := searchValues_spec searchCriteria f1 h1
  obtain ⟨n2, m2, _⟩ := searchValues_spec searchCriteria f2 h2
  have hperm : ((searchValues searchCriteria f1).map Prod.fst).Perm
      ((searchValues searchCriteria f2).map Prod.fst) := by
    rw [List.perm_ext_iff_of_nodup n1 n2]
    intro k
    rw [m1 k, m2 k, hl k]
  rw [searchValues_encode_eq searchCriteria f1 h1, searchValues_encode_eq searchCriteria f2 h2,
    sortStrings_eq_of_perm hperm]
  congr 1
  apply List.flatMap_congr
  intro k _
  rw [hl k]

theorem searchPath_eq (searchCriteria : Option SearchQueryType)
    (filterCriteria : Option SearchFilterType) :
    searchPath searchCriteria filterCriteria =
      if (searchValues searchCriteria filterCriteria).Encode = "" then "/dashboard"
      else "/dashboard?" ++ (searchValues searchCriteria filterCriteria).Encode := by
  unfold searchPath
  split
  · rfl
  · rename_i h
    exact URL_String_query _ h

/-! ## The round trip through JSON -/

theorem allOf_mem.{u} {α : Type u} (P : α → Prop) : ∀ (l : List α), AllOf P l → ∀ a ∈ l, P a := by
  intro l
  induction l with
  | nil => intro _ a ha; cases ha
  | cons b l ih =>
    intro h a ha
    rcases List.mem_cons.mp ha with rfl | hmem
    · exact h.1
    · exact ih h.2 a hmem

theorem boolCodec_decodes : boolCodec.Decodes (fun _ x => x) := by
  intro x j cur h; cases h; rfl

theorem stringCodec_decodes : stringCodec.Decodes (fun _ x => x) := by
  intro x j cur h; cases h; rfl

theorem uintCodec_decodes : uintCodec.Decodes (fun _ x => x) := by
  intro x j cur h; cases h; simp [uintCodec]

theorem float32Codec_decodes : float32Codec.Decodes (fun _ x => x) := by
  intro x j cur h
  obtain ⟨fv, hf⟩ := x
  cases fv with
  | finite n => cases h; exact dif_pos hf
  | nan => cases h
  | inf neg => cases h

theorem anyCodec_decodes : anyCodec.Decodes (fun _ x => x.stored) := by
  intro x j cur h
  exact ofJSON_encode x j h

theorem decodeElems_mergeElems {β : Type} (c : Codec β) (m : β → β → β)
    (hc : c.Decodes m) :
    ∀ (bs : List β) (js : List JSON), encodeElems c bs = .ok js →
      ∀ cur, decodeElems c js cur = .ok (mergeElems m c.zero bs cur) := by
  intro bs
  induction bs with
  | nil => intro js h cur; cases h; rfl
  | cons b bs ih =>
    intro js h cur
    simp only [encodeElems] at h
    cases hb : c.encode b with
    | error e => rw [hb] at h; cases h
    | ok j =>
      rw [hb] at h
      cases hbs : encodeElems c bs with
      | error e => rw [hbs] at h; cases h
      | ok js2 =>
        rw [hbs] at h
        cases h
        simp only [decodeElems, hc b j _ hb, ih js2 hbs cur.tail, mergeElems]

theorem sliceCodec_decodes {β : Type} (c : Codec β) (m : β → β → β) (hc : c.Decodes m) :
    (sliceCodec c).Decodes (sliceMerge m c.zero) := by
  intro x j cur h
  cases x with
  | none => cases h; rfl
  | some bs =>
    simp only [sliceCodec] at h
    cases hbs : encodeElems c bs with
    | error e => rw [hbs] at h; cases h
    | ok js =>
      rw [hbs] at h
      cases h
      simp only [sliceCodec, decodeElems_mergeElems c m hc bs js hbs, sliceMerge]

theorem intCodec_decodes : intCodec.Decodes (fun _ x => x) := by
  intro x j cur h
  cases h
  have hx := x.property
  simp only [intCodec]
  rw [dif_pos (by rw [intValue_natAbs]; exact hx)]
  congr 1
  exact Subtype.ext (intValue_natAbs x.val)

theorem decodeMembers_structMerge {α : Type} (name : String) (fms : List (FieldMerge α))
    (hnodup : ((fms.map (·.field)).map (·.name)).Nodup)
    (hdec : ∀ fm ∈ fms, fm.field.codec.Decodes fm.merge)
    (hlens : ∀ fm ∈ fms, ∀ y, fm.field.set y (fm.field.get y) = y) (x : α) :
    ∀ (fs : List (FieldMerge α)), (∀ fm ∈ fs, fm ∈ fms) →
      ∀ kvs, encodeFields (fs.map (·.field)) x = .ok kvs →
      ∀ cur, decodeMembers name (fms.map (·.field)) kvs cur =
        .ok (structMerge fs cur x) := by
  intro fs
  induction fs with
  | nil => intro _ kvs h cur; cases h; rfl
  | cons fm fs ih =>
    intro hsub kvs h cur
    have hsub2 : ∀ g ∈ fs, g ∈ fms := fun g hg => hsub g (List.mem_cons_of_mem _ hg)
    have hmem : fm ∈ fms := hsub fm (List.mem_cons_self _ _)
    rw [List.map_cons, encodeFields] at h
    unfold structMerge
    rw [List.foldl_cons]
    split at h
    · rename_i hc
      rw [if_pos hc, hlens fm hmem cur]
      exact ih hsub2 kvs h cur
    · rename_i hc
      rw [if_neg hc]
      cases hb : fm.field.codec.encode (fm.field.get x) with
      | error e => rw [hb] at h; cases h
      | ok j =>
        rw [hb] at h
        cases hfs : encodeFields (fs.map (·.field)) x with
        | error e => rw [hfs] at h; cases h
        | ok kvs2 =>
          rw [hfs] at h
          cases h
          have hf : fm.field ∈ fms.map (·.field) := List.mem_map_of_mem _ hmem
          simp only [decodeMembers, decodeMember,
            findField_of_nodup (fms.map (·.field)) hnodup fm.field hf,
            hdec fm hmem _ j (fm.field.get cur) hb]
          exact ih hsub2 kvs2 hfs _

theorem structCodec_decodes {α : Type} (pkg name : String) (zero : α)
    (fms : List (FieldMerge α))
    (hnodup : ((fms.map (·.field)).map (·.name)).Nodup)
    (hdec : ∀ fm ∈ fms, fm.field.codec.Decodes fm.merge)
    (hlens : ∀ fm ∈ fms, ∀ y, fm.field.set y (fm.field.get y) = y) :
    (structCodec pkg name zero (fms.map (·.field))).Decodes (structMerge fms) := by
  intro x j cur h
  simp only [structCodec] at h
  cases hfs : encodeFields (fms.map (·.field)) x with
  | error e => rw [hfs] at h; cases h
  | ok kvs =>
    rw [hfs] at h
    cases h
    exact decodeMembers_structMerge name fms hnodup hdec hlens x fms (fun _ h => h) kvs hfs
      cur

theorem omit_bool (b : Bool) :
    (if (boolCodec.isEmpty b) = true then false else b) = b := by
  cases b <;> rfl

theorem omit_string (s : String) :
    (if (stringCodec.isEmpty s) = true then "" else s) = s := by
  by_cases h : stringCodec.isEmpty s = true
  · rw [if_pos h]
    have hlen : s.length = 0 := by simpa [stringCodec] using h
    exact (String.ext (List.length_eq_zero.mp hlen)).symm
  · rw [if_neg h]

theorem omit_uint (n : GoUint) :
    (if (uintCodec.isEmpty n) = true then (0 : GoUint) else n) = n := by
  by_cases h : uintCodec.isEmpty n = true
  · rw [if_pos h]
    have hval : n.val = 0 := by simpa [uintCodec] using h
    exact (Fin.ext hval).symm
  · rw [if_neg h]

theorem omit_int (i : GoInt) :
    (if (intCodec.isEmpty i) = true then intCodec.zero else i) = i := by
  by_cases h : intCodec.isEmpty i = true
  · rw [if_pos h]
    have hval : i.val = 0 := by simpa [intCodec] using h
    exact (Subtype.ext hval).symm
  · rw [if_neg h]

theorem omit_float (f : GoFloat32) :
    (if (float32Codec.isEmpty f) = true then float32Codec.zero else f) = normFloat f := by
  rfl

theorem omit_any (v : GoAny) :
    (if (anyCodec.isEmpty v) = true then GoAny.nil else v.stored) = v.stored := by
  cases v <;> rfl

theorem mergeElems_nil {β : Type} (m : β → β → β) (zero : β) (xs : List β) :
    mergeElems m zero xs [] = xs.map (m zero) := by
  induction xs with
  | nil => rfl
  | cons x xs ih => simp only [mergeElems, List.headD_nil, List.tail_nil, ih, List.map_cons]

theorem sliceMerge_none {β : Type} (m : β → β → β) (zero : β) :
    sliceMerge m zero none = normSlice (m zero) false := by
  funext s
  cases s with
  | none => rfl
  | some xs => simp [sliceMerge, normSlice, mergeElems_nil]

theorem omit_slice {β : Type} (c : Codec β) (norm : β → β) (s : GoSlice β) :
    (if ((sliceCodec c).isEmpty s) = true then none else normSlice norm false s) =
      normSlice norm true s := by
  cases s with
  | none => rfl
  | some xs => cases xs <;> simp [sliceCodec, normSlice]

theorem DashboardGridLayout_decodes : DashboardGridLayout.codec.Decodes (structMerge DashboardGridLayout.merges) :=
  structCodec_decodes "api" "DashboardGridLayout" DashboardGridLayout.zero DashboardGridLayout.merges (by decide)
    (by
      refine @allOf_mem (FieldMerge DashboardGridLayout) (fun fm => fm.field.codec.Decodes fm.merge)
        DashboardGridLayout.merges ?_
      exact ⟨uintCodec_decodes,
        uintCodec_decodes, trivial⟩)
    (by
      refine @allOf_mem (FieldMerge DashboardGridLayout)
        (fun fm => ∀ y, fm.field.set y (fm.field.get y) = y) DashboardGridLayout.merges ?_
      exact ⟨fun _ => rfl,
        fun _ => rfl, trivial⟩)

theorem DashboardGridLayout_isEmpty (x : DashboardGridLayout) : DashboardGridLayout.codec.isEmpty x = false := rfl

theorem DashboardGridLayout_merge_zero (x : DashboardGridLayout) : structMerge DashboardGridLayout.merges DashboardGridLayout.zero x = DashboardGridLayout.norm x := by
  cases x
  rw [structMerge]
  simp only [DashboardGridLayout.merges, List.foldl_cons, List.foldl_nil, DashboardGridLayout.norm, DashboardGridLayout.zero,
    omit_bool, omit_string, omit_uint, omit_int, omit_float, omit_any, omit_slice,
    sliceMerge_none, Bool.false_and, Bool.true_and, Bool.false_eq_true, if_false]

theorem DashboardGridLayout_merge_zero_fun : structMerge DashboardGridLayout.merges DashboardGridLayout.zero = DashboardGridLayout.norm :=
  funext DashboardGridLayout_merge_zero

theorem DashboardAccessConfig_decodes : DashboardAccessConfig.codec.Decodes (structMerge DashboardAccessConfig.merges) :=
  structCodec_decodes "api" "DashboardAccessConfig" DashboardAccessConfig.zero DashboardAccessConfig.merges (by decide)
    (by
      refine @allOf_mem (FieldMerge DashboardAccessConfig) (fun fm => fm.field.codec.Decodes fm.merge)
        DashboardAccessConfig.merges ?_
      exact ⟨boolCodec_decodes,
        boolCodec_decodes,
        boolCodec_decodes,
        boolCodec_decodes,
        stringCodec_decodes,
        boolCodec_decodes,
        stringCodec_decodes,
        uintCodec_decodes, trivial⟩)
    (by
      refine @allOf_mem (FieldMerge DashboardAccessConfig)
        (fun fm => ∀ y, fm.field.set y (fm.field.get y) = y) DashboardAccessConfig.merges ?_
      exact ⟨fun _ => rfl,
        fun _ => rfl,
        fun _ => rfl,
        fun _ => rfl,
        fun _ => rfl,
        fun _ => rfl,
        fun _ => rfl,
        fun _ => rfl, trivial⟩)

theorem DashboardAccessConfig_isEmpty (x : DashboardAccessConfig) : DashboardAccessConfig.codec.isEmpty x = false := rfl

theorem DashboardAccessConfig_merge_zero (x : DashboardAccessConfig) : structMerge DashboardAccessConfig.merges DashboardAccessConfig.zero x = DashboardAccessConfig.norm x := by
  cases x
  rw [structMerge]
  simp only [DashboardAccessConfig.merges, List.foldl_cons, List.foldl_nil, DashboardAccessConfig.norm, DashboardAccessConfig.zero,
    omit_bool, omit_string, omit_uint, omit_int, omit_float, omit_any, omit_slice,
    sliceMerge_none, Bool.false_and, Bool.true_and, Bool.false_eq_true, if_false]

theorem DashboardAccessConfig_merge_zero_fun : structMerge DashboardAccessConfig.merges DashboardAccessConfig.zero = DashboardAccessConfig.norm :=
  funext DashboardAccessConfig_merge_zero

theorem DashboardOptions_decodes : DashboardOptions.codec.Decodes (structMerge DashboardOptions.merges) :=
  structCodec_decodes "api" "DashboardOptions" DashboardOptions.zero DashboardOptions.merges (by decide)
    (by
      refine @allOf_mem (FieldMerge DashboardOptions) (fun fm => fm.field.codec.Decodes fm.merge)
        DashboardOptions.merges ?_
      exact ⟨(sliceCodec_decodes _ _ DashboardAccessConfig_decodes),
        boolCodec_decodes,
        boolCodec_decodes,
        (sliceCodec_decodes _ _ (sliceCodec_decodes _ _ stringCodec_decodes)),
        boolCodec_decodes,
        uintCodec_decodes, trivial⟩)
    (by
      refine @allOf_mem (FieldMerge DashboardOptions)
        (fun fm => ∀ y, fm.field.set y (fm.field.get y) = y) DashboardOptions.merges ?_
      exact ⟨fun _ => rfl,
        fun _ => rfl,
        fun _ => rfl,
        fun _ => rfl,
        fun _ => rfl,
        fun _ => rfl, trivial⟩)

theorem DashboardOptions_isEmpty (x : DashboardOptions) : DashboardOptions.codec.isEmpty x = false := rfl

theorem DashboardOptions_merge_zero (x : DashboardOptions) : structMerge DashboardOptions.merges DashboardOptions.zero x = DashboardOptions.norm x := by
  cases x
  rw [structMerge]
  simp only [DashboardOptions.merges, List.foldl_cons, List.foldl_nil, DashboardOptions.norm, DashboardOptions.zero,
    omit_bool, omit_string, omit_uint, omit_int, omit_float, omit_any, omit_slice,
    sliceMerge_none, Bool.false_and, Bool.true_and, Bool.false_eq_true, if_false,
    DashboardAccessConfig_merge_zero_fun, DashboardAccessConfig_merge_zero, DashboardAccessConfig_isEmpty]

theorem DashboardOptions_merge_zero_fun : structMerge DashboardOptions.merges DashboardOptions.zero = DashboardOptions.norm :=
  funext DashboardOptions_merge_zero

theorem ChartTextWidgetDatapoint_decodes : ChartTextWidgetDatapoint.codec.Decodes (structMerge ChartTextWidgetDatapoint.merges) :=
  structCodec_decodes "api" "ChartTextWidgetDatapoint" ChartTextWidgetDatapoint.zero ChartTextWidgetDatapoint.merges (by decide)
    (by
      refine @allOf_mem (FieldMerge ChartTextWidgetDatapoint) (fun fm => fm.field.codec.Decodes fm.merge)
        ChartTextWidgetDatapoint.merges ?_
      exact ⟨stringCodec_decodes,
        stringCodec_decodes,
        boolCodec_decodes,
        uintCodec_decodes,
        stringCodec_decodes,
        stringCodec_decodes,
        stringCodec_decodes,
        stringCodec_decodes,
        uintCodec_decodes, trivial⟩)
    (by
      refine @allOf_mem (FieldMerge ChartTextWidgetDatapoint)
        (fun fm => ∀ y, fm.field.set y (fm.field.get y) = y) ChartTextWidgetDatapoint.merges ?_
      exact ⟨fun _ => rfl,
        fun _ => rfl,
        fun _ => rfl,
        fun _ => rfl,
        fun _ => rfl,
        fun _ => rfl,
        fun _ => rfl,
        fun _ => rfl,
        fun _ => rfl, trivial⟩)

theorem ChartTextWidgetDatapoint_isEmpty (x : ChartTextWidgetDatapoint) : ChartTextWidgetDatapoint.codec.isEmpty x = false := rfl

theorem ChartTextWidgetDatapoint_merge_zero (x : ChartTextWidgetDatapoint) : structMerge ChartTextWidgetDatapoint.merges ChartTextWidgetDatapoint.zero x = ChartTextWidgetDatapoint.norm x := by
  cases x
  rw [structMerge]
  simp only [ChartTextWidgetDatapoint.merges, List.foldl_cons, List.foldl_nil, ChartTextWidgetDatapoint.norm, ChartTextWidgetDatapoint.zero,
    omit_bool, omit_string, omit_uint, omit_int, omit_float, omit_any, omit_slice,
    sliceMerge_none, Bool.false_and, Bool.true_and, Bool.false_eq_true, if_false]

theorem ChartTextWidgetDatapoint_merge_zero_fun : structMerge ChartTextWidgetDatapoint.merges ChartTextWidgetDatapoint.zero = ChartTextWidgetDatapoint.norm :=
  funext ChartTextWidgetDatapoint_merge_zero

theorem ChartWidgetDefinitionLegend_decodes : ChartWidgetDefinitionLegend.codec.Decodes (structMerge ChartWidgetDefinitionLegend.merges) :=
  structCodec_decodes "api" "ChartWidgetDefinitionLegend" ChartWidgetDefinitionLegend.zero ChartWidgetDefinitionLegend.merges (by decide)
    (by
      refine @allOf_mem (FieldMerge ChartWidgetDefinitionLegend) (fun fm => fm.field.codec.Decodes fm.merge)
        ChartWidgetDefinitionLegend.merges ?_
      exact ⟨boolCodec_decodes,
        stringCodec_decodes, trivial⟩)
    (by
      refine @allOf_mem (FieldMerge ChartWidgetDefinitionLegend)
        (fun fm => ∀ y, fm.field.set y (fm.field.get y) = y) ChartWidgetDefinitionLegend.merges ?_
      exact ⟨fun _ => rfl,
        fun _ => rfl, trivial⟩)

theorem ChartWidgetDefinitionLegend_isEmpty (x : ChartWidgetDefinitionLegend) : ChartWidgetDefinitionLegend.codec.isEmpty x = false := rfl

theorem ChartWidgetDefinitionLegend_merge_zero (x : ChartWidgetDefinitionLegend) : structMerge ChartWidgetDefinitionLegend.merges ChartWidgetDefinitionLegend.zero x = ChartWidgetDefinitionLegend.norm x := by
  cases x
  rw [structMerge]
  simp only [ChartWidgetDefinitionLegend.merges, List.foldl_cons, List.foldl_nil, ChartWidgetDefinitionLegend.norm, ChartWidgetDefinitionLegend.zero,
    omit_bool, omit_string, omit_uint, omit_int, omit_float, omit_any, omit_slice,
    sliceMerge_none, Bool.false_and, Bool.true_and, Bool.false_eq_true, if_false]

theorem ChartWidgetDefinitionLegend_merge_zero_fun : structMerge ChartWidgetDefinitionLegend.merges ChartWidgetDefinitionLegend.zero = ChartWidgetDefinitionLegend.norm :=
  funext ChartWidgetDefinitionLegend_merge_zero

theorem ChartWidgetWedgeLabels_decodes : ChartWidgetWedgeLabels.codec.Decodes (structMerge ChartWidgetWedgeLabels.merges) :=
  structCodec_decodes "api" "ChartWidgetWedgeLabels" ChartWidgetWedgeLabels.zero ChartWidgetWedgeLabels.merges (by decide)
    (by
      refine @allOf_mem (FieldMerge ChartWidgetWedgeLabels) (fun fm => fm.field.codec.Decodes fm.merge)
        ChartWidgetWedgeLabels.merges ?_
      exact ⟨boolCodec_decodes,
        boolCodec_decodes, trivial⟩)
    (by
      refine @allOf_mem (FieldMerge ChartWidgetWedgeLabels)
        (fun fm => ∀ y, fm.field.set y (fm.field.get y) = y) ChartWidgetWedgeLabels.merges ?_
      exact ⟨fun _ => rfl,
        fun _ => rfl, trivial⟩)

theorem ChartWidgetWedgeLabels_isEmpty (x : ChartWidgetWedgeLabels) : ChartWidgetWedgeLabels.codec.isEmpty x = false := rfl

theorem ChartWidgetWedgeLabels_merge_zero (x : ChartWidgetWedgeLabels) : structMerge ChartWidgetWedgeLabels.merges ChartWidgetWedgeLabels.zero x = ChartWidgetWedgeLabels.norm x := by
  cases x
  rw [structMerge]
  simp only [ChartWidgetWedgeLabels.merges, List.foldl_cons, List.foldl_nil, ChartWidgetWedgeLabels.norm, ChartWidgetWedgeLabels.zero,
    omit_bool, omit_string, omit_uint, omit_int, omit_float, omit_any, omit_slice,
    sliceMerge_none, Bool.false_and, Bool.true_and, Bool.false_eq_true, if_false]

theorem ChartWidgetWedgeLabels_merge_zero_fun : structMerge ChartWidgetWedgeLabels.merges ChartWidgetWedgeLabels.zero = ChartWidgetWedgeLabels.norm :=
  funext ChartWidgetWedgeLabels_merge_zero

theorem ChartWidgetWedgeValues_decodes : ChartWidgetWedgeValues.codec.Decodes (structMerge ChartWidgetWedgeValues.merges) :=
  structCodec_decodes "api" "ChartWidgetWedgeValues" ChartWidgetWedgeValues.zero ChartWidgetWedgeValues.merges (by decide)
    (by
      refine @allOf_mem (FieldMerge ChartWidgetWedgeValues) (fun fm => fm.field.codec.Decodes fm.merge)
        ChartWidgetWedgeValues.merges ?_
      exact ⟨stringCodec_decodes,
        stringCodec_decodes,
        boolCodec_decodes, trivial⟩)
    (by
      refine @allOf_mem (FieldMerge ChartWidgetWedgeValues)
        (fun fm => ∀ y, fm.field.set y (fm.field.get y) = y) ChartWidgetWedgeValues.merges ?_
      exact ⟨fun _ => rfl,
        fun _ => rfl,
        fun _ => rfl, trivial⟩)

theorem ChartWidgetWedgeValues_isEmpty (x : ChartWidgetWedgeValues) : ChartWidgetWedgeValues.codec.isEmpty x = false := rfl

theorem ChartWidgetWedgeValues_merge_zero (x : ChartWidgetWedgeValues) : structMerge ChartWidgetWedgeValues.merges ChartWidgetWedgeValues.zero x = ChartWidgetWedgeValues.norm x := by
  cases x
  rw [structMerge]
  simp only [ChartWidgetWedgeValues.merges, List.foldl_cons, List.foldl_nil, ChartWidgetWedgeValues.norm, ChartWidgetWedgeValues.zero,
    omit_bool, omit_string, omit_uint, omit_int, omit_float, omit_any, omit_slice,
    sliceMerge_none, Bool.false_and, Bool.true_and, Bool.false_eq_true, if_false]

theorem ChartWidgetWedgeValues_merge_zero_fun : structMerge ChartWidgetWedgeValues.merges ChartWidgetWedgeValues.zero = ChartWidgetWedgeValues.norm :=
  funext ChartWidgetWedgeValues_merge_zero

theorem ChartWidgtDefinition_decodes : ChartWidgtDefinition.codec.Decodes (structMerge ChartWidgtDefinition.merges) :=
  structCodec_decodes "api" "ChartWidgtDefinition" ChartWidgtDefinition.zero ChartWidgtDefinition.merges (by decide)
    (by
      refine @allOf_mem (FieldMerge ChartWidgtDefinition) (fun fm => fm.field.codec.Decodes fm.merge)
        ChartWidgtDefinition.merges ?_
      exact ⟨stringCodec_decodes,
        stringCodec_decodes,
        boolCodec_decodes,
        stringCodec_decodes,
        ChartWidgetDefinitionLegend_decodes,
        uintCodec_decodes,
        boolCodec_decodes,
        ChartWidgetWedgeLabels_decodes,
        ChartWidgetWedgeValues_decodes, trivial⟩)
    (by
      refine @allOf_mem (FieldMerge ChartWidgtDefinition)
        (fun fm => ∀ y, fm.field.set y (fm.field.get y) = y) ChartWidgtDefinition.merges ?_
      exact ⟨fun _ => rfl,
        fun _ => rfl,
        fun _ => rfl,
        fun _ => rfl,
        fun _ => rfl,
        fun _ => rfl,
        fun _ => rfl,
        fun _ => rfl,
        fun _ => rfl, trivial⟩)

theorem ChartWidgtDefinition_isEmpty (x : ChartWidgtDefinition) : ChartWidgtDefinition.codec.isEmpty x = false := rfl

theorem ChartWidgtDefinition_merge_zero (x : ChartWidgtDefinition) : structMerge ChartWidgtDefinition.merges ChartWidgtDefinition.zero x = ChartWidgtDefinition.norm x := by
  cases x
  rw [structMerge]
  simp only [ChartWidgtDefinition.merges, List.foldl_cons, List.foldl_nil, ChartWidgtDefinition.norm, ChartWidgtDefinition.zero,
    omit_bool, omit_string, omit_uint, omit_int, omit_float, omit_any, omit_slice,
    sliceMerge_none, Bool.false_and, Bool.true_and, Bool.false_eq_true, if_false,
    ChartWidgetDefinitionLegend_merge_zero_fun, ChartWidgetDefinitionLegend_merge_zero, ChartWidgetDefinitionLegend_isEmpty,
    ChartWidgetWedgeLabels_merge_zero_fun, ChartWidgetWedgeLabels_merge_zero, ChartWidgetWedgeLabels_isEmpty,
    ChartWidgetWedgeValues_merge_zero_fun, ChartWidgetWedgeValues_merge_zero, ChartWidgetWedgeValues_isEmpty]

theorem ChartWidgtDefinition_merge_zero_fun : structMerge ChartWidgtDefinition.merges ChartWidgtDefinition.zero = ChartWidgtDefinition.norm :=
  funext ChartWidgtDefinition_merge_zero

theorem ForecastGaugeWidgetThresholds_decodes : ForecastGaugeWidgetThresholds.codec.Decodes (structMerge ForecastGaugeWidgetThresholds.merges) :=
  structCodec_decodes "api" "ForecastGaugeWidgetThresholds" ForecastGaugeWidgetThresholds.zero ForecastGaugeWidgetThresholds.merges (by decide)
    (by
      refine @allOf_mem (FieldMerge ForecastGaugeWidgetThresholds) (fun fm => fm.field.codec.Decodes fm.merge)
        ForecastGaugeWidgetThresholds.merges ?_
      exact ⟨(sliceCodec_decodes _ _ stringCodec_decodes),
        (sliceCodec_decodes _ _ stringCodec_decodes),
        boolCodec_decodes, trivial⟩)
    (by
      refine @allOf_mem (FieldMerge ForecastGaugeWidgetThresholds)
        (fun fm => ∀ y, fm.field.set y (fm.field.get y) = y) ForecastGaugeWidgetThresholds.merges ?_
      exact ⟨fun _ => rfl,
        fun _ => rfl,
        fun _ => rfl, trivial⟩)

theorem ForecastGaugeWidgetThresholds_isEmpty (x : ForecastGaugeWidgetThresholds) : ForecastGaugeWidgetThresholds.codec.isEmpty x = false := rfl

theorem ForecastGaugeWidgetThresholds_merge_zero (x : ForecastGaugeWidgetThresholds) : structMerge ForecastGaugeWidgetThresholds.merges ForecastGaugeWidgetThresholds.zero x = ForecastGaugeWidgetThresholds.norm x := by
  cases x
  rw [structMerge]
  simp only [ForecastGaugeWidgetThresholds.merges, List.foldl_cons, List.foldl_nil, ForecastGaugeWidgetThresholds.norm, ForecastGaugeWidgetThresholds.zero,
    omit_bool, omit_string, omit_uint, omit_int, omit_float, omit_any, omit_slice,
    sliceMerge_none, Bool.false_and, Bool.true_and, Bool.false_eq_true, if_false]

theorem ForecastGaugeWidgetThresholds_merge_zero_fun : structMerge ForecastGaugeWidgetThresholds.merges ForecastGaugeWidgetThresholds.zero = ForecastGaugeWidgetThresholds.norm :=
  funext ForecastGaugeWidgetThresholds_merge_zero

theorem StatusWidgetAgentStatusSettings_decodes : StatusWidgetAgentStatusSettings.codec.Decodes (structMerge StatusWidgetAgentStatusSettings.merges) :=
  structCodec_decodes "api" "StatusWidgetAgentStatusSettings" StatusWidgetAgentStatusSettings.zero StatusWidgetAgentStatusSettings.merges (by decide)
    (by
      refine @allOf_mem (FieldMerge StatusWidgetAgentStatusSettings) (fun fm => fm.field.codec.Decodes fm.merge)
        StatusWidgetAgentStatusSettings.merges ?_
      exact ⟨stringCodec_decodes,
        stringCodec_decodes,
        boolCodec_decodes,
        boolCodec_decodes,
        boolCodec_decodes,
        boolCodec_decodes,
        boolCodec_decodes, trivial⟩)
    (by
      refine @allOf_mem (FieldMerge StatusWidgetAgentStatusSettings)
        (fun fm => ∀ y, fm.field.set y (fm.field.get y) = y) StatusWidgetAgentStatusSettings.merges ?_
      exact ⟨fun _ => rfl,
        fun _ => rfl,
        fun _ => rfl,
        fun _ => rfl,
        fun _ => rfl,
        fun _ => rfl,
        fun _ => rfl, trivial⟩)

theorem StatusWidgetAgentStatusSettings_isEmpty (x : StatusWidgetAgentStatusSettings) : StatusWidgetAgentStatusSettings.codec.isEmpty x = false := rfl

theorem StatusWidgetAgentStatusSettings_merge_zero (x : StatusWidgetAgentStatusSettings) : structMerge StatusWidgetAgentStatusSettings.merges StatusWidgetAgentStatusSettings.zero x = StatusWidgetAgentStatusSettings.norm x := by
  cases x
  rw [structMerge]
  simp only [StatusWidgetAgentStatusSettings.merges, List.foldl_cons, List.foldl_nil, StatusWidgetAgentStatusSettings.norm, StatusWidgetAgentStatusSettings.zero,
    omit_bool, omit_string, omit_uint, omit_int, omit_float, omit_any, omit_slice,
    sliceMerge_none, Bool.false_and, Bool.true_and, Bool.false_eq_true, if_false]

theorem StatusWidgetAgentStatusSettings_merge_zero_fun : structMerge StatusWidgetAgentStatusSettings.merges StatusWidgetAgentStatusSettings.zero = StatusWidgetAgentStatusSettings.norm :=
  funext StatusWidgetAgentStatusSettings_merge_zero

theorem StatusWidgetHostStatusSettings_decodes : StatusWidgetHostStatusSettings.codec.Decodes (structMerge StatusWidgetHostStatusSettings.merges) :=
  structCodec_decodes "api" "StatusWidgetHostStatusSettings" StatusWidgetHostStatusSettings.zero StatusWidgetHostStatusSettings.merges (by decide)
    (by
      refine @allOf_mem (FieldMerge StatusWidgetHostStatusSettings) (fun fm => fm.field.codec.Decodes fm.merge)
        StatusWidgetHostStatusSettings.merges ?_
      exact ⟨stringCodec_decodes,
        stringCodec_decodes,
        stringCodec_decodes,
        (sliceCodec_decodes _ _ stringCodec_decodes), trivial⟩)
    (by
      refine @allOf_mem (FieldMerge StatusWidgetHostStatusSettings)
        (fun fm => ∀ y, fm.field.set y (fm.field.get y) = y) StatusWidgetHostStatusSettings.merges ?_
      exact ⟨fun _ => rfl,
        fun _ => rfl,
        fun _ => rfl,
        fun _ => rfl, trivial⟩)

theorem StatusWidgetHostStatusSettings_isEmpty (x : StatusWidgetHostStatusSettings) : StatusWidgetHostStatusSettings.codec.isEmpty x = false := rfl

theorem StatusWidgetHostStatusSettings_merge_zero (x : StatusWidgetHostStatusSettings) : structMerge StatusWidgetHostStatusSettings.merges StatusWidgetHostStatusSettings.zero x = StatusWidgetHostStatusSettings.norm x := by
  cases x
  rw [structMerge]
  simp only [StatusWidgetHostStatusSettings.merges, List.foldl_cons, List.foldl_nil, StatusWidgetHostStatusSettings.norm, StatusWidgetHostStatusSettings.zero,
    omit_bool, omit_string, omit_uint, omit_int, omit_float, omit_any, omit_slice,
    sliceMerge_none, Bool.false_and, Bool.true_and, Bool.false_eq_true, if_false]

theorem StatusWidgetHostStatusSettings_merge_zero_fun : structMerge StatusWidgetHostStatusSettings.merges StatusWidgetHostStatusSettings.zero = StatusWidgetHostStatusSettings.norm :=
  funext StatusWidgetHostStatusSettings_merge_zero

theorem DashboardWidgetSettings_decodes : DashboardWidgetSettings.codec.Decodes (structMerge DashboardWidgetSettings.merges) :=
  structCodec_decodes "api" "DashboardWidgetSettings" DashboardWidgetSettings.zero DashboardWidgetSettings.merges (by decide)
    (by
      refine @allOf_mem (FieldMerge DashboardWidgetSettings) (fun fm => fm.field.codec.Decodes fm.merge)
        DashboardWidgetSettings.merges ?_
      exact ⟨stringCodec_decodes,
        stringCodec_decodes,
        StatusWidgetAgentStatusSettings_decodes,
        stringCodec_decodes,
        boolCodec_decodes,
        stringCodec_decodes,
        stringCodec_decodes,
        stringCodec_decodes,
        stringCodec_decodes,
        uintCodec_decodes,
        stringCodec_decodes,
        (sliceCodec_decodes _ _ uintCodec_decodes),
        stringCodec_decodes,
        (sliceCodec_decodes _ _ ChartTextWidgetDatapoint_decodes),
        stringCodec_decodes,
        ChartWidgtDefinition_decodes,
        stringCodec_decodes,
        boolCodec_decodes,
        stringCodec_decodes,
        stringCodec_decodes,
        stringCodec_decodes,
        stringCodec_decodes,
        boolCodec_decodes,
        boolCodec_decodes,
        StatusWidgetHostStatusSettings_decodes,
        boolCodec_decodes,
        stringCodec_decodes,
        stringCodec_decodes,
        boolCodec_decodes,
        stringCodec_decodes,
        stringCodec_decodes,
        stringCodec_decodes,
        stringCodec_decodes,
        stringCodec_decodes,
        stringCodec_decodes,
        stringCodec_decodes,
        stringCodec_decodes,
        (sliceCodec_decodes _ _ uintCodec_decodes),
        stringCodec_decodes,
        anyCodec_decodes,
        intCodec_decodes,
        intCodec_decodes,
        boolCodec_decodes,
        stringCodec_decodes,
        stringCodec_decodes,
        stringCodec_decodes,
        stringCodec_decodes,
        boolCodec_decodes,
        stringCodec_decodes,
        (sliceCodec_decodes _ _ stringCodec_decodes),
        float32Codec_decodes,
        ForecastGaugeWidgetThresholds_decodes,
        stringCodec_decodes,
        stringCodec_decodes,
        stringCodec_decodes,
        stringCodec_decodes,
        stringCodec_decodes,
        boolCodec_decodes,
        stringCodec_decodes,
        (sliceCodec_decodes _ _ stringCodec_decodes), trivial⟩)
    (by
      refine @allOf_mem (FieldMerge DashboardWidgetSettings)
        (fun fm => ∀ y, fm.field.set y (fm.field.get y) = y) DashboardWidgetSettings.merges ?_
      exact ⟨fun _ => rfl,
        fun _ => rfl,
        fun _ => rfl,
        fun _ => rfl,
        fun _ => rfl,
        fun _ => rfl,
        fun _ => rfl,
        fun _ => rfl,
        fun _ => rfl,
        fun _ => rfl,
        fun _ => rfl,
        fun _ => rfl,
        fun _ => rfl,
        fun _ => rfl,
        fun _ => rfl,
        fun _ => rfl,
        fun _ => rfl,
        fun _ => rfl,
        fun _ => rfl,
        fun _ => rfl,
        fun _ => rfl,
        fun _ => rfl,
        fun _ => rfl,
        fun _ => rfl,
        fun _ => rfl,
        fun _ => rfl,
        fun _ => rfl,
        fun _ => rfl,
        fun _ => rfl,
        fun _ => rfl,
        fun _ => rfl,
        fun _ => rfl,
        fun _ => rfl,
        fun _ => rfl,
        fun _ => rfl,
        fun _ => rfl,
        fun _ => rfl,
        fun _ => rfl,
        fun _ => rfl,
        fun _ => rfl,
        fun _ => rfl,
        fun _ => rfl,
        fun _ => rfl,
        fun _ => rfl,
        fun _ => rfl,
        fun _ => rfl,
        fun _ => rfl,
        fun _ => rfl,
        fun _ => rfl,
        fun _ => rfl,
        fun _ => rfl,
        fun _ => rfl,
        fun _ => rfl,
        fun _ => rfl,
        fun _ => rfl,
        fun _ => rfl,
        fun _ => rfl,
        fun _ => rfl,
        fun _ => rfl,
        fun _ => rfl, trivial⟩)

theorem DashboardWidgetSettings_isEmpty (x : DashboardWidgetSettings) : DashboardWidgetSettings.codec.isEmpty x = false := rfl

theorem DashboardWidgetSettings_merge_zero (x : DashboardWidgetSettings) : structMerge DashboardWidgetSettings.merges DashboardWidgetSettings.zero x = DashboardWidgetSettings.norm x := by
  cases x
  rw [structMerge]
  simp only [DashboardWidgetSettings.merges, List.foldl_cons, List.foldl_nil, DashboardWidgetSettings.norm, DashboardWidgetSettings.zero,
    omit_bool, omit_string, omit_uint, omit_int, omit_float, omit_any, omit_slice,
    sliceMerge_none, Bool.false_and, Bool.true_and, Bool.false_eq_true, if_false,
    ChartTextWidgetDatapoint_merge_zero_fun, ChartTextWidgetDatapoint_merge_zero, ChartTextWidgetDatapoint_isEmpty,
    ChartWidgtDefinition_merge_zero_fun, ChartWidgtDefinition_merge_zero, ChartWidgtDefinition_isEmpty,
    ForecastGaugeWidgetThresholds_merge_zero_fun, ForecastGaugeWidgetThresholds_merge_zero, ForecastGaugeWidgetThresholds_isEmpty,
    StatusWidgetAgentStatusSettings_merge_zero_fun, StatusWidgetAgentStatusSettings_merge_zero, StatusWidgetAgentStatusSettings_isEmpty,
    StatusWidgetHostStatusSettings_merge_zero_fun, StatusWidgetHostStatusSettings_merge_zero, StatusWidgetHostStatusSettings_isEmpty]

theorem DashboardWidgetSettings_merge_zero_fun : structMerge DashboardWidgetSettings.merges DashboardWidgetSettings.zero = DashboardWidgetSettings.norm :=
  funext DashboardWidgetSettings_merge_zero

theorem DashboardWidget_decodes : DashboardWidget.codec.Decodes (structMerge DashboardWidget.merges) :=
  structCodec_decodes "api" "DashboardWidget" DashboardWidget.zero DashboardWidget.merges (by decide)
    (by
      refine @allOf_mem (FieldMerge DashboardWidget) (fun fm => fm.field.codec.Decodes fm.merge)
        DashboardWidget.merges ?_
      exact ⟨boolCodec_decodes,
        uintCodec_decodes,
        stringCodec_decodes,
        stringCodec_decodes,
        DashboardWidgetSettings_decodes,
        stringCodec_decodes,
        stringCodec_decodes,
        uintCodec_decodes, trivial⟩)
    (by
      refine @allOf_mem (FieldMerge DashboardWidget)
        (fun fm => ∀ y, fm.field.set y (fm.field.get y) = y) DashboardWidget.merges ?_
      exact ⟨fun _ => rfl,
        fun _ => rfl,
        fun _ => rfl,
        fun _ => rfl,
        fun _ => rfl,
        fun _ => rfl,
        fun _ => rfl,
        fun _ => rfl, trivial⟩)

theorem DashboardWidget_isEmpty (x : DashboardWidget) : DashboardWidget.codec.isEmpty x = false := rfl

theorem DashboardWidget_merge_zero (x : DashboardWidget) : structMerge DashboardWidget.merges DashboardWidget.zero x = DashboardWidget.norm x := by
  cases x
  rw [structMerge]
  simp only [DashboardWidget.merges, List.foldl_cons, List.foldl_nil, DashboardWidget.norm, DashboardWidget.zero,
    omit_bool, omit_string, omit_uint, omit_int, omit_float, omit_any, omit_slice,
    sliceMerge_none, Bool.false_and, Bool.true_and, Bool.false_eq_true, if_false,
    DashboardWidgetSettings_merge_zero_fun, DashboardWidgetSettings_merge_zero, DashboardWidgetSettings_isEmpty]

theorem DashboardWidget_merge_zero_fun : structMerge DashboardWidget.merges DashboardWidget.zero = DashboardWidget.norm :=
  funext DashboardWidget_merge_zero

theorem Dashboard_decodes : Dashboard.codec.Decodes (structMerge Dashboard.merges) :=
  structCodec_decodes "api" "Dashboard" Dashboard.zero Dashboard.merges (by decide)
    (by
      refine @allOf_mem (FieldMerge Dashboard) (fun fm => fm.field.codec.Decodes fm.merge)
        Dashboard.merges ?_
      exact ⟨stringCodec_decodes,
        boolCodec_decodes,
        uintCodec_decodes,
        stringCodec_decodes,
        stringCodec_decodes,
        uintCodec_decodes,
        boolCodec_decodes,
        DashboardGridLayout_decodes,
        DashboardOptions_decodes,
        boolCodec_decodes,
        stringCodec_decodes,
        (sliceCodec_decodes _ _ DashboardWidget_decodes), trivial⟩)
    (by
      refine @allOf_mem (FieldMerge Dashboard)
        (fun fm => ∀ y, fm.field.set y (fm.field.get y) = y) Dashboard.merges ?_
      exact ⟨fun _ => rfl,
        fun _ => rfl,
        fun _ => rfl,
        fun _ => rfl,
        fun _ => rfl,
        fun _ => rfl,
        fun _ => rfl,
        fun _ => rfl,
        fun _ => rfl,
        fun _ => rfl,
        fun _ => rfl,
        fun _ => rfl, trivial⟩)

theorem Dashboard_isEmpty (x : Dashboard) : Dashboard.codec.isEmpty x = false := rfl

theorem Dashboard_merge_zero (x : Dashboard) : structMerge Dashboard.merges Dashboard.zero x = Dashboard.norm x := by
  cases x
  rw [structMerge]
  simp only [Dashboard.merges, List.foldl_cons, List.foldl_nil, Dashboard.norm, Dashboard.zero,
    omit_bool, omit_string, omit_uint, omit_int, omit_float, omit_any, omit_slice,
    sliceMerge_none, Bool.false_and, Bool.true_and, Bool.false_eq_true, if_false,
    DashboardGridLayout_merge_zero_fun, DashboardGridLayout_merge_zero, DashboardGridLayout_isEmpty,
    DashboardOptions_merge_zero_fun, DashboardOptions_merge_zero, DashboardOptions_isEmpty,
    DashboardWidget_merge_zero_fun, DashboardWidget_merge_zero, DashboardWidget_isEmpty]

theorem Dashboard_merge_zero_fun : structMerge Dashboard.merges Dashboard.zero = Dashboard.norm :=
  funext Dashboard_merge_zero


/-- Decoding the serialization of a dashboard into a fresh `Dashboard` gives the
dashboard `d.norm`. -/
theorem unmarshal_marshal_norm (d : Dashboard) (body : Bytes)
    (h : jsonMarshal Dashboard.codec d = .ok body) :
    jsonUnmarshal Dashboard.codec body Dashboard.zero = .ok d.norm := by
  unfold jsonMarshal at h
  cases henc : Dashboard.codec.encode d with
  | error e => rw [henc] at h; cases h
  | ok j =>
    rw [henc] at h
    cases h
    show Dashboard.codec.decode j Dashboard.zero = .ok d.norm
    rw [Dashboard_decodes d j Dashboard.zero henc, Dashboard_merge_zero]

theorem stored_kind (v : GoAny) :
    v.stored.isNumber = v.isNumber ∧ v.stored.isString = v.isString := by
  cases v <;> rw [GoAny.stored] <;> exact ⟨rfl, rfl⟩

theorem float64OfNat_exact (n : Nat) (h : n ≤ 9007199254740992) : float64OfNat n = n := by
  rcases Nat.lt_or_eq_of_le h with hlt | rfl
  · unfold float64OfNat
    rw [if_pos hlt]
  · decide

/-! ## What an interface holds after a round trip -/

theorem storedList_eq_map (xs : List GoAny) : GoAny.storedList xs = xs.map GoAny.stored := by
  induction xs with
  | nil => rw [GoAny.storedList]; rfl
  | cons x xs ih => rw [GoAny.storedList, ih]; rfl

theorem storedMembers_eq_map (m : List (String × GoAny)) :
    GoAny.storedMembers m = m.map (fun kv => (kv.1, kv.2.stored)) := by
  induction m with
  | nil => rw [GoAny.storedMembers]; rfl
  | cons kv m ih =>
    obtain ⟨k, v⟩ := kv
    rw [GoAny.storedMembers, ih]; rfl

theorem mapInsert_of_not_mem (k : String) (v : GoAny) :
    ∀ (acc : List (String × GoAny)), k ∉ acc.map Prod.fst → mapInsert k v acc = acc ++ [(k, v)] := by
  intro acc
  induction acc with
  | nil => intro _; rfl
  | cons a acc ih =>
    intro h
    obtain ⟨k2, v2⟩ := a
    simp only [List.map_cons, List.mem_cons, not_or] at h
    rw [mapInsert, if_neg (fun hk => h.1 hk.symm), ih h.2]
    rfl

theorem foldl_mapInsert_of_nodup :
    ∀ (l acc : List (String × GoAny)), ((acc ++ l).map Prod.fst).Nodup →
      l.foldl (fun acc kv => mapInsert kv.1 kv.2 acc) acc = acc ++ l := by
  intro l
  induction l with
  | nil => intro acc _; simp
  | cons a l ih =>
    intro acc h
    rw [List.foldl_cons]
    have hnot : a.1 ∉ acc.map Prod.fst := by
      rw [List.map_append, List.nodup_append] at h
      intro hmem
      exact h.2.2 hmem (by simp)
    rw [mapInsert_of_not_mem a.1 a.2 acc hnot]
    have h2 : ((acc ++ [(a.1, a.2)] ++ l).map Prod.fst).Nodup := by
      simpa using h
    rw [ih _ h2]
    simp

theorem sortByKey_perm {ν : Type} (m : List (String × ν)) : (sortByKey m).Perm m :=
  List.perm_insertionSort _ m

theorem stored_map_of_nodup (m : List (String × GoAny)) (h : (m.map Prod.fst).Nodup) :
    (GoAny.map m).stored = .map (sortByKey (m.map (fun kv => (kv.1, kv.2.stored)))) := by
  rw [GoAny.stored, storedMembers_eq_map]
  congr 1
  have hp := sortByKey_perm (m.map (fun kv => (kv.1, kv.2.stored)))
  have hn : ((sortByKey (m.map (fun kv => (kv.1, kv.2.stored)))).map Prod.fst).Nodup := by
    refine (List.Perm.nodup_iff (hp.map Prod.fst)).mpr ?_
    rw [List.map_map]
    exact h
  have := foldl_mapInsert_of_nodup _ [] (by simpa using hn)
  simpa using this

theorem stored_slice (xs : List GoAny) : (GoAny.slice xs).stored = .slice (xs.map GoAny.stored) := by
  rw [GoAny.stored, storedList_eq_map]

/-! ## The value of a number literal -/

theorem abs_toRat (n : JNumber) :
    |n.toRat| = (n.mantissa : ℚ) * (10 : ℚ) ^ n.exponent10 := by
  unfold JNumber.toRat
  have h10 : (0 : ℚ) ≤ (10 : ℚ) ^ n.exponent10 := by positivity
  have hm : (0 : ℚ) ≤ (n.mantissa : ℚ) := Nat.cast_nonneg _
  rw [abs_mul, abs_mul, abs_of_nonneg h10, abs_of_nonneg hm]
  split <;> simp

theorem zpow_exponent_nonneg (e : Int) (h : 0 ≤ e) : (10 : ℚ) ^ e = ((10 ^ e.toNat : Nat) : ℚ) := by
  obtain ⟨k, rfl⟩ := Int.eq_ofNat_of_zero_le h
  simp

theorem zpow_exponent_neg (e : Int) (h : ¬ 0 ≤ e) :
    (10 : ℚ) ^ e = 1 / ((10 ^ (-e).toNat : Nat) : ℚ) := by
  have h2 : e = -((-e).toNat : Int) := by
    rw [Int.toNat_of_nonneg (by omega)]; omega
  conv_lhs => rw [h2]
  rw [zpow_neg, zpow_natCast]
  simp

theorem reaches_iff (n : JNumber) (bound : Nat) :
    n.reaches bound = true ↔ (bound : ℚ) ≤ |n.toRat| := by
  rw [abs_toRat]
  unfold JNumber.reaches
  by_cases h : 0 ≤ n.exponent10
  · rw [if_pos h, decide_eq_true_eq, zpow_exponent_nonneg _ h, ← Nat.cast_mul, Nat.cast_le]
  · rw [if_neg h, decide_eq_true_eq, zpow_exponent_neg _ h, mul_one_div,
      le_div_iff₀ (by positivity), ← Nat.cast_mul, Nat.cast_le]

theorem vanishes_iff (n : JNumber) (k : Nat) :
    n.vanishes k = true ↔ |n.toRat| ≤ 1 / 2 ^ k := by
  rw [abs_toRat]
  unfold JNumber.vanishes
  by_cases h : 0 ≤ n.exponent10
  · rw [if_pos h, decide_eq_true_eq, zpow_exponent_nonneg _ h, le_div_iff₀ (by positivity)]
    rw [← Nat.cast_mul]
    have : ((2 : ℚ) ^ k) = ((2 ^ k : Nat) : ℚ) := by push_cast; rfl
    rw [this, ← Nat.cast_mul]
    exact Nat.cast_le_one.symm
  · rw [if_neg h, decide_eq_true_eq, zpow_exponent_neg _ h, mul_one_div,
      div_le_div_iff₀ (by positivity) (by positivity), one_mul]
    have : ((2 : ℚ) ^ k) = ((2 ^ k : Nat) : ℚ) := by push_cast; rfl
    rw [this, ← Nat.cast_mul, Nat.cast_le]

/-! ## The fields that are written -/

theorem written_bool (b : Bool) : (!boolCodec.isEmpty b) = b := by cases b <;> rfl

theorem written_string (s : String) : (!stringCodec.isEmpty s) = (s != "") := by
  show (!(s.length == 0)) = !(s == "")
  congr 1
  rw [Bool.eq_iff_iff, beq_iff_eq, beq_iff_eq]
  constructor
  · intro h; exact String.ext (List.length_eq_zero.mp h)
  · intro h; rw [h]; rfl

theorem written_uint (n : GoUint) : (!uintCodec.isEmpty n) = (n != 0) := by
  show (!(n.val == 0)) = !(n == 0)
  congr 1
  rw [Bool.eq_iff_iff, beq_iff_eq, beq_iff_eq]
  constructor
  · intro h; exact Fin.ext h
  · intro h; rw [h]; rfl

theorem written_int (i : GoInt) : (!intCodec.isEmpty i) = (i.val != 0) := rfl

theorem written_float32 (f : GoFloat32) : (!float32Codec.isEmpty f) = !f.val.isZero32 := rfl

theorem written_any (v : GoAny) : (!anyCodec.isEmpty v) = !v.isNil := by cases v <;> rfl

theorem written_slice {β : Type} (c : Codec β) (s : GoSlice β) :
    (!(sliceCodec c).isEmpty s) = ((s.getD []).length != 0) := rfl

theorem written_struct {α : Type} (pkg name : String) (zero : α) (fields : List (Field α))
    (y : α) : (!(structCodec pkg name zero fields).isEmpty y) = true := rfl

theorem DashboardWidgetSettings_written (x : DashboardWidgetSettings) :
    DashboardWidgetSettings.fields.map (fun f => (f.name, f.emitted x)) =
      DashboardWidgetSettings.written x := by
  simp only [DashboardWidgetSettings.fields, DashboardWidgetSettings.written, List.map_cons,
    List.map_nil, Field.emitted, Bool.true_and, Bool.false_and, Bool.not_false, written_bool,
    written_string, written_uint, written_int, written_float32, written_any, written_slice,
    written_struct]
  rfl

theorem DashboardWidget_written (x : DashboardWidget) :
    DashboardWidget.fields.map (fun f => (f.name, f.emitted x)) =
      DashboardWidget.written x := by
  simp only [DashboardWidget.fields, DashboardWidget.written, List.map_cons,
    List.map_nil, Field.emitted, Bool.true_and, Bool.false_and, Bool.not_false, written_bool,
    written_string, written_uint, written_int, written_float32, written_any, written_slice,
    written_struct]

theorem Dashboard_written (x : Dashboard) :
    Dashboard.fields.map (fun f => (f.name, f.emitted x)) =
      Dashboard.written x := by
  simp only [Dashboard.fields, Dashboard.written, List.map_cons,
    List.map_nil, Field.emitted, Bool.true_and, Bool.false_and, Bool.not_false, written_bool,
    written_string, written_uint, written_int, written_float32, written_any, written_slice,
    written_struct]

theorem emittedKeys_eq_writtenKeys {α : Type} (fields : List (Field α)) (x : α) :
    emittedKeys fields x = writtenKeys (fields.map (fun f => (f.name, f.emitted x))) := by
  unfold emittedKeys writtenKeys
  induction fields with
  | nil => rfl
  | cons f fs ih =>
    simp only [List.filter_cons, List.map_cons]
    cases h : Field.emitted x f
    · simpa using ih
    · simpa using ih


theorem mem_writtenKeys_iff (l : List (String × Bool)) (k : String) :
    k ∈ writtenKeys l ↔ (k, true) ∈ l := by
  unfold writtenKeys
  simp only [List.mem_map, List.mem_filter]
  constructor
  · rintro ⟨⟨k2, b⟩, ⟨hmem, hb⟩, rfl⟩
    simp only [] at hb
    rw [hb] at hmem
    exact hmem
  · intro h
    exact ⟨(k, true), ⟨h, rfl⟩, rfl⟩

theorem encode_writtenKeys {α : Type} (pkg name : String) (zero : α)
    (fields : List (Field α)) (written : α → List (String × Bool))
    (hw : ∀ x, fields.map (fun f => (f.name, f.emitted x)) = written x) (x : α) (j : JSON)
    (h : (structCodec pkg name zero fields).encode x = .ok j) :
    ∃ kvs, j = .object kvs ∧ kvs.map Prod.fst = writtenKeys (written x) := by
  obtain ⟨kvs, hj, hk⟩ := structCodec_encode_keys pkg name zero fields x j h
  exact ⟨kvs, hj, by rw [hk, emittedKeys_eq_writtenKeys, hw]⟩

theorem isZero32_iff (f : GoFloat) :
    f.isZero32 = true ↔ ∃ n, f = .finite n ∧ |n.toRat| ≤ 1 / 2 ^ 150 := by
  cases f with
  | finite n =>
    show n.vanishes 150 = true ↔ _
    rw [vanishes_iff]
    constructor
    · intro h; exact ⟨n, rfl, h⟩
    · rintro ⟨n2, h2, h⟩; cases h2; exact h
  | nan =>
    constructor
    · intro h; cases h
    · rintro ⟨n, h, _⟩; cases h
  | inf neg =>
    constructor
    · intro h; cases h
    · rintro ⟨n, h, _⟩; cases h

theorem below_iff (f : GoFloat) (bound : Nat) :
    f.below bound = true ↔ ∀ n, f = .finite n → |n.toRat| < bound := by
  cases f with
  | finite n =>
    show (!n.reaches bound) = true ↔ _
    rw [Bool.not_eq_true', ← Bool.not_eq_true, reaches_iff, not_le]
    constructor
    · intro h n2 h2; cases h2; exact h
    · intro h; exact h n rfl
  | nan =>
    constructor
    · intro _ n h; cases h
    · intro _; rfl
  | inf neg =>
    constructor
    · intro _ n h; cases h
    · intro _; rfl

theorem float32_decodes_iff (n : JNumber) (cur : GoFloat32) :
    (∃ f, float32Codec.decode (.number n) cur = .ok f) ↔
      |n.toRat| < (2 ^ 25 - 1) * 2 ^ 103 := by
  have hb : ((float32Overflow : Nat) : ℚ) = (2 ^ 25 - 1) * 2 ^ 103 := by
    unfold float32Overflow; norm_num
  rw [← hb]
  show (∃ f, (if h : (GoFloat.finite n).below float32Overflow = true then
      Except.ok (⟨.finite n, h⟩ : GoFloat32)
    else Except.error _) = Except.ok f) ↔ _
  by_cases hbel : (GoFloat.finite n).below float32Overflow = true
  · rw [dif_pos hbel]
    exact ⟨fun _ => (below_iff _ _).mp hbel n rfl, fun _ => ⟨_, rfl⟩⟩
  · rw [dif_neg hbel]
    constructor
    · rintro ⟨f, hf⟩; cases hf
    · intro h
      exact absurd ((below_iff _ _).mpr (fun n2 h2 => by cases h2; exact h)) hbel

theorem interface_decodes_iff (n : JNumber) (cur : GoAny) :
    (∃ v, anyCodec.decode (.number n) cur = .ok v) ↔
      |n.toRat| < (2 ^ 54 - 1) * 2 ^ 970 := by
  have hb : ((float64Overflow : Nat) : ℚ) = (2 ^ 54 - 1) * 2 ^ 970 := by
    unfold float64Overflow; norm_num
  rw [← hb]
  show (∃ v, GoAny.ofJSON (.number n) = .ok v) ↔ _
  rw [GoAny.ofJSON]
  by_cases hbel : (GoFloat.finite n).below float64Overflow = true
  · rw [dif_pos hbel]
    exact ⟨fun _ => (below_iff _ _).mp hbel n rfl, fun _ => ⟨_, rfl⟩⟩
  · rw [dif_neg hbel]
    constructor
    · rintro ⟨f, hf⟩; cases hf
    · intro h
      exact absurd ((below_iff _ _).mpr (fun n2 h2 => by cases h2; exact h)) hbel

theorem overflowThresholdBody_rejected :
    jsonUnmarshal Dashboard.codec overflowThresholdBody Dashboard.zero =
      .error (.unmarshalTypeError "number 1e40" "float32" "DashboardWidgetSettings"
        "widgets.settings.threshold") := by
  rfl

set_option exponentiation.threshold 500 in
theorem overflowPeriodBody_rejected :
    jsonUnmarshal Dashboard.codec overflowPeriodBody Dashboard.zero =
      .error (.unmarshalTypeError "number 1e400" "float64" "DashboardWidgetSettings"
        "widgets.settings.period") := by
  rfl

/-! ## The claims -/

/-- C1: for a CID that is nil, empty, or not of the form `/dashboard/<digits>`,
`FetchDashboard`, `DeleteDashboardByCID` and `UpdateDashboard` (with the CID taken from
the config) return a non-nil error and make no call to the client. -/
theorem invalid_cid_fails_before_any_call (a : API) (cid : CIDType)
    (h : cid = none ∨ cid = some "" ∨ ∃ s, cid = some s ∧ ¬ WellFormedCID s) :
    ((FetchDashboard a cid).err ≠ none ∧ (FetchDashboard a cid).calls = []) ∧
    ((DeleteDashboardByCID a cid).err ≠ none ∧ (DeleteDashboardByCID a cid).calls = []) ∧
    (∀ config : Dashboard, cid = some config.CID →
      (UpdateDashboard a (some config)).err ≠ none ∧
      (UpdateDashboard a (some config)).calls = []) := by
  rcases h with rfl | rfl | ⟨s, rfl, hs⟩
  · refine ⟨⟨by simp [FetchDashboard], rfl⟩, ⟨by simp [DeleteDashboardByCID], rfl⟩, ?_⟩
    intro config h; cases h
  · refine ⟨⟨by simp [FetchDashboard], rfl⟩, ⟨by simp [DeleteDashboardByCID], rfl⟩, ?_⟩
    intro config h
    have hc : ¬ WellFormedCID config.CID := by
      rw [← Option.some.inj h]; exact not_wellFormedCID_empty
    rw [UpdateDashboard_rejects a hc]; simp
  · refine ⟨?_, ?_, ?_⟩
    · by_cases h0 : s = ""
      · subst h0; exact ⟨by simp [FetchDashboard], rfl⟩
      · rw [FetchDashboard_rejects a h0 hs]; simp
    · by_cases h0 : s = ""
      · subst h0; exact ⟨by simp [DeleteDashboardByCID], rfl⟩
      · rw [DeleteDashboardByCID_rejects a h0 hs]; simp
    · intro config h
      have hc : ¬ WellFormedCID config.CID := by
        rw [← Option.some.inj h]; exact hs
      rw [UpdateDashboard_rejects a hc]; simp

theorem invalid_cid_fails_before_any_call_witness :
    (some "/invalid" = none ∨ some "/invalid" = some "" ∨
      ∃ s, some "/invalid" = some s ∧ ¬ WellFormedCID s) ∧
    (((FetchDashboard (testDashboardClient sampleDashboard) (some "/invalid")).err ≠ none ∧
      (FetchDashboard (testDashboardClient sampleDashboard) (some "/invalid")).calls = []) ∧
    ((DeleteDashboardByCID (testDashboardClient sampleDashboard) (some "/invalid")).err
        ≠ none ∧
      (DeleteDashboardByCID (testDashboardClient sampleDashboard) (some "/invalid")).calls
        = []) ∧
    (∀ config : Dashboard, some "/invalid" = some config.CID →
      (UpdateDashboard (testDashboardClient sampleDashboard) (some config)).err ≠ none ∧
      (UpdateDashboard (testDashboardClient sampleDashboard) (some config)).calls = [])) :=
  ⟨Or.inr (Or.inr ⟨"/invalid", rfl, not_wellFormedCID_invalid⟩),
    invalid_cid_fails_before_any_call (testDashboardClient sampleDashboard) (some "/invalid")
      (Or.inr (Or.inr ⟨"/invalid", rfl, not_wellFormedCID_invalid⟩))⟩

/-- C2: the CID check of `FetchDashboard`, `UpdateDashboard` and `DeleteDashboardByCID`,
`regexp.MatchString(dashboardCIDRegex, s)`, never fails and accepts `s` exactly when `s`
is `/dashboard/` followed by one or more ASCII digits and nothing else; the operations
reach the client exactly for such a CID, and a CID with a character before or after
(a trailing newline included) is rejected. -/
theorem cid_check_accepts_iff_wellFormed (s : String) :
    (regexpMatchString dashboardCIDRegex s).2 = none ∧
    ((regexpMatchString dashboardCIDRegex s).1 = true ↔ WellFormedCID s) ∧
    (∀ a : API, (FetchDashboard a (some s)).calls = [.Get s] ↔ WellFormedCID s) ∧
    (∀ a : API, (DeleteDashboardByCID a (some s)).calls = [.Delete s] ↔ WellFormedCID s) ∧
    (∀ (a : API) (config : Dashboard) (cfg : Bytes), config.CID = s →
      jsonMarshal Dashboard.codec config = .ok cfg →
      ((UpdateDashboard a (some config)).calls = [.Put s cfg] ↔ WellFormedCID s)) ∧
    (∀ c : Char, WellFormedCID s → ¬ ('0' ≤ c ∧ c ≤ '9') → ¬ WellFormedCID (s.push c)) ∧
    (∀ c : Char, WellFormedCID s → ¬ WellFormedCID (String.mk (c :: s.toList))) ∧
    ¬ WellFormedCID "/dashboard/1234\n" ∧ ¬ WellFormedCID " /dashboard/1234" := by
  refine ⟨?_, ?_, ?_, ?_, ?_, ?_, ?_, ?_, ?_⟩
  · rw [regexpMatchString_dashboardCIDRegex]
  · rw [regexpMatchString_dashboardCIDRegex, wellFormedCID_iff]
  · intro a
    by_cases h : WellFormedCID s
    · simp only [h, iff_true]
      rw [FetchDashboard_accepts a h]
      cases a.Get s with
      | error e => rfl
      | ok r => simp only []; cases jsonUnmarshal Dashboard.codec r Dashboard.zero <;> rfl
    · simp only [h, iff_false]
      by_cases h0 : s = ""
      · subst h0; simp [FetchDashboard]
      · rw [FetchDashboard_rejects a h0 h]; simp
  · intro a
    by_cases h : WellFormedCID s
    · simp only [h, iff_true]
      rw [DeleteDashboardByCID_accepts a h]
      cases a.Delete s <;> rfl
    · simp only [h, iff_false]
      by_cases h0 : s = ""
      · subst h0; simp [DeleteDashboardByCID]
      · rw [DeleteDashboardByCID_rejects a h0 h]; simp
  · intro a config cfg hcid hm
    subst hcid
    by_cases h : WellFormedCID config.CID
    · simp only [h, iff_true]
      rw [UpdateDashboard_accepts a h, hm]
      simp only []
      cases a.Put config.CID cfg with
      | error e => rfl
      | ok r => simp only []; cases jsonUnmarshal Dashboard.codec r Dashboard.zero <;> rfl
    · simp only [h, iff_false]
      rw [UpdateDashboard_rejects a h]; simp
  · rintro c ⟨d2, _, _, rfl⟩ hc ⟨d, _, hdig, hd⟩
    apply hc
    apply hdig
    have hl := congrArg String.data hd
    simp only [String.data_push, String.data_append, List.append_assoc] at hl
    have hl2 := List.append_cancel_left hl
    show c ∈ d.data
    rw [← hl2]; simp
  · rintro c ⟨d2, _, _, rfl⟩ ⟨d, _, _, hd⟩
    have hl := congrArg String.data hd
    simp only [String.data_append, String.toList] at hl
    simp only [List.cons_append, List.cons.injEq] at hl
    exact absurd hl.2.1 (by decide)
  · rw [wellFormedCID_iff]; decide
  · rw [wellFormedCID_iff]; decide

theorem cid_check_accepts_iff_wellFormed_witness :
    sampleDashboard.CID = "/dashboard/1234" ∧
    jsonMarshal Dashboard.codec sampleDashboard =
      .ok (.json (.object [("_cid", .string "/dashboard/1234"),
        ("account_default", .bool false),
        ("grid_layout", .object [("height", .number (.int false 0)),
          ("width", .number (.int false 0))]),
        ("options", .object []), ("shared", .bool false),
        ("title", .string "sample"), ("widgets", .null)])) ∧
    ((UpdateDashboard (testDashboardClient sampleDashboard) (some sampleDashboard)).calls =
        [.Put "/dashboard/1234" (.json (.object [("_cid", .string "/dashboard/1234"),
          ("account_default", .bool false),
          ("grid_layout", .object [("height", .number (.int false 0)),
            ("width", .number (.int false 0))]),
          ("options", .object []), ("shared", .bool false),
          ("title", .string "sample"), ("widgets", .null)]))] ↔
      WellFormedCID "/dashboard/1234") :=
  ⟨rfl, rfl,
    (cid_check_accepts_iff_wellFormed "/dashboard/1234").2.2.2.2.1
      (testDashboardClient sampleDashboard) sampleDashboard _ rfl rfl⟩

/-- C3: `FetchDashboard` and `DeleteDashboardByCID` answer a nil or empty CID with the
message `Invalid dashboard CID [none]` and a non-empty CID `s` that fails the check with
`Invalid dashboard CID [s]` (so `/invalid` gives `Invalid dashboard CID [/invalid]`); for
such an `s` the two messages are the same only when `s` is `none`. -/
theorem invalid_cid_messages (a : API) :
    (FetchDashboard a none).err = some (.errorString "Invalid dashboard CID [none]") ∧
    (FetchDashboard a (some "")).err = some (.errorString "Invalid dashboard CID [none]") ∧
    (DeleteDashboardByCID a none).err =
      some (.errorString "Invalid dashboard CID [none]") ∧
    (DeleteDashboardByCID a (some "")).err =
      some (.errorString "Invalid dashboard CID [none]") ∧
    (∀ s : String, s ≠ "" → ¬ WellFormedCID s →
      (FetchDashboard a (some s)).err =
        some (.errorString ("Invalid dashboard CID [" ++ s ++ "]")) ∧
      (DeleteDashboardByCID a (some s)).err =
        some (.errorString ("Invalid dashboard CID [" ++ s ++ "]")) ∧
      (GoError.errorString ("Invalid dashboard CID [" ++ s ++ "]")).Error =
        "Invalid dashboard CID [" ++ s ++ "]" ∧
      ("Invalid dashboard CID [" ++ s ++ "]" = "Invalid dashboard CID [none]" ↔
        s = "none")) ∧
    (FetchDashboard a (some "/invalid")).err =
      some (.errorString "Invalid dashboard CID [/invalid]") ∧
    (DeleteDashboardByCID a (some "/invalid")).err =
      some (.errorString "Invalid dashboard CID [/invalid]") := by
  refine ⟨rfl, rfl, rfl, rfl, ?_, ?_, ?_⟩
  · intro s hs hwf
    refine ⟨?_, ?_, rfl, ?_⟩
    · rw [FetchDashboard_rejects a hs hwf]
    · rw [DeleteDashboardByCID_rejects a hs hwf]
    · constructor
      · intro h
        have hl : "Invalid dashboard CID [".data ++ s.data ++ "]".data =
            "Invalid dashboard CID [".data ++ "none".data ++ "]".data := by
          have := congrArg String.data h
          simpa only [String.data_append] using this
        exact String.ext (List.append_cancel_left (List.append_cancel_right hl))
      · rintro rfl; rfl
  · rw [FetchDashboard_rejects a (by decide) not_wellFormedCID_invalid]; rfl
  · rw [DeleteDashboardByCID_rejects a (by decide) not_wellFormedCID_invalid]; rfl

theorem invalid_cid_messages_witness :
    "/dashboard/12x" ≠ "" ∧ ¬ WellFormedCID "/dashboard/12x" ∧
    (FetchDashboard (testDashboardClient sampleDashboard) (some "/dashboard/12x")).err =
      some (.errorString ("Invalid dashboard CID [" ++ "/dashboard/12x" ++ "]")) ∧
    (DeleteDashboardByCID (testDashboardClient sampleDashboard)
        (some "/dashboard/12x")).err =
      some (.errorString ("Invalid dashboard CID [" ++ "/dashboard/12x" ++ "]")) :=
  have hwf : ¬ WellFormedCID "/dashboard/12x" := by rw [wellFormedCID_iff]; decide
  have h := (invalid_cid_messages (testDashboardClient sampleDashboard)).2.2.2.2.1
    "/dashboard/12x" (by decide) hwf
  ⟨by decide, hwf, h.1, h.2.1⟩

/-- C4 (the code departs from the claim): `UpdateDashboard` has no test for a blank
CID; for a config whose CID is the empty string the pattern check fails and the message
is the malformed-value form with an empty value, `Invalid dashboard CID []`, while
`FetchDashboard` and `DeleteDashboard` answer the same blank CID with
`Invalid dashboard CID [none]`. -/
theorem UpdateDashboard_blank_cid (a : API) :
    Dashboard.zero.CID = "" ∧
    (UpdateDashboard a (some Dashboard.zero)).err =
      some (.errorString "Invalid dashboard CID []") ∧
    (UpdateDashboard a (some Dashboard.zero)).err ≠
      some (.errorString "Invalid dashboard CID [none]") ∧
    (FetchDashboard a (some Dashboard.zero.CID)).err =
      some (.errorString "Invalid dashboard CID [none]") ∧
    (DeleteDashboard a (some Dashboard.zero)).err =
      some (.errorString "Invalid dashboard CID [none]") := by
  have h : (UpdateDashboard a (some Dashboard.zero)).err =
      some (.errorString "Invalid dashboard CID []") := by
    rw [@UpdateDashboard_rejects a Dashboard.zero not_wellFormedCID_empty]; rfl
  refine ⟨rfl, h, ?_, rfl, rfl⟩
  rw [h]; decide

/-- C8: for a CID of the form `/dashboard/<digits>`, `DeleteDashboardByCID` makes one
call, `Delete` on that path; it returns `(true, nil)` exactly when the call returns no
error, whatever the body, and `(false, e)` when the call returns the error `e`. -/
theorem DeleteDashboardByCID_follows_client (a : API) (s : String) (h : WellFormedCID s) :
    (DeleteDashboardByCID a (some s)).calls = [.Delete s] ∧
    (((DeleteDashboardByCID a (some s)).value = true ∧
        (DeleteDashboardByCID a (some s)).err = none) ↔ ∃ body, a.Delete s = .ok body) ∧
    (∀ body, a.Delete s = .ok body →
      (DeleteDashboardByCID a (some s)).value = true ∧
      (DeleteDashboardByCID a (some s)).err = none) ∧
    (∀ e, a.Delete s = .error e →
      (DeleteDashboardByCID a (some s)).value = false ∧
      (DeleteDashboardByCID a (some s)).err = some e) := by
  rw [DeleteDashboardByCID_accepts a h]
  cases hd : a.Delete s with
  | error e => simp
  | ok body => simp

theorem DeleteDashboardByCID_follows_client_witness :
    WellFormedCID "/dashboard/1234" ∧
    (DeleteDashboardByCID (testDashboardClient sampleDashboard)
      (some "/dashboard/1234")).calls = [.Delete "/dashboard/1234"] ∧
    (DeleteDashboardByCID (testDashboardClient sampleDashboard)
      (some "/dashboard/1234")).value = true ∧
    (DeleteDashboardByCID (testDashboardClient sampleDashboard)
      (some "/dashboard/1234")).err = none :=
  have h := DeleteDashboardByCID_follows_client (testDashboardClient sampleDashboard)
    "/dashboard/1234" wellFormedCID_sample
  ⟨wellFormedCID_sample, h.1, h.2.2.1 _ rfl⟩

/-- C9: with a search query that is nil or empty and a filter that is nil or an empty
map, `SearchDashboards` is `FetchDashboards`: the same single `Get` on `/dashboard`
(no `?`, no query string), the same result and the same error. -/
theorem SearchDashboards_without_criteria (a : API) (searchCriteria : Option SearchQueryType)
    (filterCriteria : Option SearchFilterType)
    (hq : searchCriteria = none ∨ searchCriteria = some "")
    (hf : filterCriteria = none ∨ filterCriteria = some []) :
    SearchDashboards a searchCriteria filterCriteria = FetchDashboards a ∧
    (SearchDashboards a searchCriteria filterCriteria).calls = [.Get "/dashboard"] ∧
    (FetchDashboards a).calls = [.Get "/dashboard"] := by
  have h : SearchDashboards a searchCriteria filterCriteria = FetchDashboards a := by
    rcases hq with rfl | rfl <;> rcases hf with rfl | rfl <;> rfl
  exact ⟨h, h ▸ FetchDashboards_calls a, FetchDashboards_calls a⟩

theorem SearchDashboards_without_criteria_witness :
    ((some "" : Option SearchQueryType) = none ∨ (some "" : Option SearchQueryType) = some "") ∧
    ((some [] : Option SearchFilterType) = none ∨
      (some [] : Option SearchFilterType) = some []) ∧
    SearchDashboards (testDashboardClient sampleDashboard) (some "") (some []) =
      FetchDashboards (testDashboardClient sampleDashboard) ∧
    (SearchDashboards (testDashboardClient sampleDashboard) (some "") (some [])).calls =
      [.Get "/dashboard"] :=
  have h := SearchDashboards_without_criteria (testDashboardClient sampleDashboard)
    (some "") (some []) (Or.inr rfl) (Or.inr rfl)
  ⟨Or.inr rfl, Or.inr rfl, h.1, h.2.1⟩

/-- C5 (as stated, refuted): a config with a well-formed CID whose serialization fails
(here a widget whose `Period` holds a channel) makes `UpdateDashboard` return the error
of `json.Marshal` without any call to the client. -/
theorem UpdateDashboard_marshal_error_no_call :
    WellFormedCID chanDashboard.CID ∧
    (UpdateDashboard (testDashboardClient sampleDashboard) (some chanDashboard)).calls = [] ∧
    (UpdateDashboard (testDashboardClient sampleDashboard) (some chanDashboard)).err =
      some (.unsupportedTypeError "chan int") := by
  have h : WellFormedCID chanDashboard.CID := wellFormedCID_sample
  rw [UpdateDashboard_accepts _ h]
  exact ⟨h, rfl, rfl⟩

/-- C5 (amended): for a config whose CID is of the form `/dashboard/<digits>` and whose
JSON serialization succeeds, `UpdateDashboard` makes exactly one client call, `Put` with
the CID as path and the serialization of the whole config as body; an error of that call
is returned as it is, and a response is decoded into the dashboard returned; against a
client that sends the body back, the dashboard returned has the CID of the config. A
response that does not decode gives no dashboard and the error of the decoder: so a
response with the threshold `1e40`, which overflows float32. -/
theorem UpdateDashboard_puts_whole_config (a : API) (config : Dashboard) (cfg : Bytes)
    (hcid : WellFormedCID config.CID)
    (hcfg : jsonMarshal Dashboard.codec config = .ok cfg) :
    (UpdateDashboard a (some config)).calls = [.Put config.CID cfg] ∧
    (∀ e, a.Put config.CID cfg = .error e →
      (UpdateDashboard a (some config)).value = none ∧
      (UpdateDashboard a (some config)).err = some e) ∧
    (∀ result d, a.Put config.CID cfg = .ok result →
      jsonUnmarshal Dashboard.codec result Dashboard.zero = .ok d →
      (UpdateDashboard a (some config)).value = some d ∧
      (UpdateDashboard a (some config)).err = none) ∧
    (∀ result e, a.Put config.CID cfg = .ok result →
      jsonUnmarshal Dashboard.codec result Dashboard.zero = .error e →
      (UpdateDashboard a (some config)).value = none ∧
      (UpdateDashboard a (some config)).err = some e) ∧
    (a.Put config.CID cfg = .ok cfg →
      ∃ d, (UpdateDashboard a (some config)).value = some d ∧ d.CID = config.CID ∧
        (UpdateDashboard a (some config)).err = none) ∧
    (a.Put config.CID cfg = .ok overflowThresholdBody →
      (UpdateDashboard a (some config)).value = none ∧
      ∃ st fl, (UpdateDashboard a (some config)).err =
        some (.unmarshalTypeError "number 1e40" "float32" st fl)) := by
  rw [UpdateDashboard_accepts a hcid, hcfg]
  simp only []
  refine ⟨?_, ?_, ?_, ?_, ?_, ?_⟩
  · cases a.Put config.CID cfg with
    | error e => rfl
    | ok r => simp only []; cases jsonUnmarshal Dashboard.codec r Dashboard.zero <;> rfl
  · intro e he; rw [he]; exact ⟨rfl, rfl⟩
  · intro result d hr hd; rw [hr]; simp only []; rw [hd]; exact ⟨rfl, rfl⟩
  · intro result e hr he; rw [hr]; simp only []; rw [he]; exact ⟨rfl, rfl⟩
  · intro hr
    obtain ⟨d, hd, hdc⟩ := unmarshal_marshal_cid config cfg hcfg
    rw [hr]; simp only []; rw [hd]
    exact ⟨d, rfl, hdc, rfl⟩
  · intro hr
    rw [hr]; simp only []; rw [overflowThresholdBody_rejected]
    exact ⟨rfl, _, _, rfl⟩

theorem UpdateDashboard_puts_whole_config_witness :
    WellFormedCID sampleDashboard.CID ∧
    (UpdateDashboard (testDashboardClient sampleDashboard) (some sampleDashboard)).calls =
      [.Put "/dashboard/1234" (.json (.object [("_cid", .string "/dashboard/1234"),
        ("account_default", .bool false),
        ("grid_layout", .object [("height", .number (.int false 0)),
          ("width", .number (.int false 0))]),
        ("options", .object []), ("shared", .bool false),
        ("title", .string "sample"), ("widgets", .null)]))] ∧
    (∃ d, (UpdateDashboard (testDashboardClient sampleDashboard)
        (some sampleDashboard)).value = some d ∧ d.CID = "/dashboard/1234" ∧
      (UpdateDashboard (testDashboardClient sampleDashboard) (some sampleDashboard)).err =
        none) :=
  have h := UpdateDashboard_puts_whole_config (testDashboardClient sampleDashboard)
    sampleDashboard _ wellFormedCID_sample rfl
  ⟨wellFormedCID_sample, h.1, h.2.2.2.2.1 rfl⟩

/-- C6: for a CID of the form `/dashboard/<digits>`, `FetchDashboard` makes exactly one
client call, `Get` on the CID itself; an error of the call is returned as it is, and a
response is decoded into the dashboard returned. When the response is the serialization
of a dashboard, the dashboard returned has the CID of that dashboard; so a response
that serializes a dashboard with CID `/dashboard/1234` gives that CID. A response that
does not decode gives no dashboard and the error of the decoder: so a response with
the threshold `1e40`, which overflows float32, or with the period `1e400`, which
overflows float64. A number is accepted into a `float32` exactly when its absolute
value is less than (2^25 - 1) * 2^103, where the nearest float32 is finite, and into
an `interface{}` exactly when it is less than (2^54 - 1) * 2^970. -/
theorem FetchDashboard_gets_and_decodes (a : API) (s : String) (h : WellFormedCID s) :
    (FetchDashboard a (some s)).calls = [.Get s] ∧
    (∀ e, a.Get s = .error e →
      (FetchDashboard a (some s)).value = none ∧ (FetchDashboard a (some s)).err = some e) ∧
    (∀ result d, a.Get s = .ok result →
      jsonUnmarshal Dashboard.codec result Dashboard.zero = .ok d →
      (FetchDashboard a (some s)).value = some d ∧ (FetchDashboard a (some s)).err = none) ∧
    (∀ result e, a.Get s = .ok result →
      jsonUnmarshal Dashboard.codec result Dashboard.zero = .error e →
      (FetchDashboard a (some s)).value = none ∧ (FetchDashboard a (some s)).err = some e) ∧
    (∀ (served : Dashboard) (body : Bytes),
      jsonMarshal Dashboard.codec served = .ok body → a.Get s = .ok body →
      ∃ d, (FetchDashboard a (some s)).value = some d ∧ d.CID = served.CID ∧
        (FetchDashboard a (some s)).err = none) ∧
    (∀ (served : Dashboard) (body : Bytes), served.CID = "/dashboard/1234" →
      s = "/dashboard/1234" →
      jsonMarshal Dashboard.codec served = .ok body → a.Get "/dashboard/1234" = .ok body →
      ∃ d, (FetchDashboard a (some "/dashboard/1234")).value = some d ∧
        d.CID = "/dashboard/1234") ∧
    (a.Get s = .ok overflowThresholdBody →
      (FetchDashboard a (some s)).value = none ∧
      ∃ st fl, (FetchDashboard a (some s)).err =
        some (.unmarshalTypeError "number 1e40" "float32" st fl)) ∧
    (a.Get s = .ok overflowPeriodBody →
      (FetchDashboard a (some s)).value = none ∧
      ∃ st fl, (FetchDashboard a (some s)).err =
        some (.unmarshalTypeError "number 1e400" "float64" st fl)) ∧
    (∀ (n : JNumber) (cur : GoFloat32),
      (∃ f, float32Codec.decode (.number n) cur = .ok f) ↔
        |n.toRat| < (2 ^ 25 - 1) * 2 ^ 103) ∧
    (∀ (n : JNumber) (cur : GoAny),
      (∃ v, anyCodec.decode (.number n) cur = .ok v) ↔
        |n.toRat| < (2 ^ 54 - 1) * 2 ^ 970) := by
  have hserved : ∀ (served : Dashboard) (body : Bytes),
      jsonMarshal Dashboard.codec served = .ok body → a.Get s = .ok body →
      ∃ d, (FetchDashboard a (some s)).value = some d ∧ d.CID = served.CID ∧
        (FetchDashboard a (some s)).err = none := by
    intro served body hb hr
    obtain ⟨d, hd, hdc⟩ := unmarshal_marshal_cid served body hb
    rw [FetchDashboard_accepts a h, hr]; simp only []; rw [hd]
    exact ⟨d, rfl, hdc, rfl⟩
  refine ⟨?_, ?_, ?_, ?_, hserved, ?_, ?_, ?_, float32_decodes_iff, interface_decodes_iff⟩
  · rw [FetchDashboard_accepts a h]
    cases a.Get s with
    | error e => rfl
    | ok r => simp only []; cases jsonUnmarshal Dashboard.codec r Dashboard.zero <;> rfl
  · intro e he; rw [FetchDashboard_accepts a h, he]; exact ⟨rfl, rfl⟩
  · intro result d hr hd; rw [FetchDashboard_accepts a h, hr]; simp only []; rw [hd]
    exact ⟨rfl, rfl⟩
  · intro result e hr he; rw [FetchDashboard_accepts a h, hr]; simp only []; rw [he]
    exact ⟨rfl, rfl⟩
  · intro served body hc hs hb hr
    subst hs
    obtain ⟨d, hd, hdc, _⟩ := hserved served body hb hr
    exact ⟨d, hd, hdc.trans hc⟩
  · intro hr
    rw [FetchDashboard_accepts a h, hr]; simp only []; rw [overflowThresholdBody_rejected]
    exact ⟨rfl, _, _, rfl⟩
  · intro hr
    rw [FetchDashboard_accepts a h, hr]; simp only []; rw [overflowPeriodBody_rejected]
    exact ⟨rfl, _, _, rfl⟩

theorem FetchDashboard_gets_and_decodes_witness :
    WellFormedCID "/dashboard/1234" ∧
    (FetchDashboard (testDashboardClient sampleDashboard) (some "/dashboard/1234")).calls =
      [.Get "/dashboard/1234"] ∧
    (∃ d, (FetchDashboard (testDashboardClient sampleDashboard)
        (some "/dashboard/1234")).value = some d ∧ d.CID = "/dashboard/1234") :=
  have h := FetchDashboard_gets_and_decodes (testDashboardClient sampleDashboard)
    "/dashboard/1234" wellFormedCID_sample
  ⟨wellFormedCID_sample, h.1, h.2.2.2.2.2.1 sampleDashboard _ rfl rfl rfl rfl⟩

/-- C7 (as stated, refuted): a config whose serialization fails (here a widget whose
`Threshold` is not a number) makes `CreateDashboard` return the error of `json.Marshal`
without any call to the client. -/
theorem CreateDashboard_marshal_error_no_call :
    (CreateDashboard (testDashboardClient sampleDashboard) (some nanDashboard)).calls = [] ∧
    (CreateDashboard (testDashboardClient sampleDashboard) (some nanDashboard)).err =
      some (.unsupportedValueError "NaN") :=
  ⟨rfl, rfl⟩

/-- C7 (amended): `CreateDashboard` makes no check of the CID of the config; for every
config whose JSON serialization succeeds, whatever its CID, it makes exactly one client
call, `Post` on `/dashboard` with that serialization, and the dashboard it returns is the
one decoded from the response: its CID is the CID of the dashboard that the response
serializes, and two configs that get the same response give the same result. A
response that does not decode gives no dashboard and the error of the decoder: so a
response with the threshold `1e40`, which overflows float32. -/
theorem CreateDashboard_posts_and_decodes (a : API) (config : Dashboard) (cfg : Bytes)
    (hcfg : jsonMarshal Dashboard.codec config = .ok cfg) :
    (CreateDashboard a (some config)).calls = [.Post "/dashboard" cfg] ∧
    (∀ e, a.Post "/dashboard" cfg = .error e →
      (CreateDashboard a (some config)).value = none ∧
      (CreateDashboard a (some config)).err = some e) ∧
    (∀ result d, a.Post "/dashboard" cfg = .ok result →
      jsonUnmarshal Dashboard.codec result Dashboard.zero = .ok d →
      (CreateDashboard a (some config)).value = some d ∧
      (CreateDashboard a (some config)).err = none) ∧
    (∀ result e, a.Post "/dashboard" cfg = .ok result →
      jsonUnmarshal Dashboard.codec result Dashboard.zero = .error e →
      (CreateDashboard a (some config)).value = none ∧
      (CreateDashboard a (some config)).err = some e) ∧
    (∀ (served : Dashboard) (body : Bytes),
      jsonMarshal Dashboard.codec served = .ok body → a.Post "/dashboard" cfg = .ok body →
      ∃ d, (CreateDashboard a (some config)).value = some d ∧ d.CID = served.CID ∧
        (CreateDashboard a (some config)).err = none) ∧
    (∀ (config2 : Dashboard) (cfg2 : Bytes),
      jsonMarshal Dashboard.codec config2 = .ok cfg2 →
      a.Post "/dashboard" cfg2 = a.Post "/dashboard" cfg →
      (CreateDashboard a (some config2)).value = (CreateDashboard a (some config)).value ∧
      (CreateDashboard a (some config2)).err = (CreateDashboard a (some config)).err) ∧
    (a.Post "/dashboard" cfg = .ok overflowThresholdBody →
      (CreateDashboard a (some config)).value = none ∧
      ∃ st fl, (CreateDashboard a (some config)).err =
        some (.unmarshalTypeError "number 1e40" "float32" st fl)) := by
  have hdef : ∀ (c : Dashboard) (b : Bytes), jsonMarshal Dashboard.codec c = .ok b →
      CreateDashboard a (some c) =
        match a.Post "/dashboard" b with
        | .error err => ⟨[.Post "/dashboard" b], [], none, some err⟩
        | .ok result =>
          match jsonUnmarshal Dashboard.codec result Dashboard.zero with
          | .error err => ⟨[.Post "/dashboard" b], [], none, some err⟩
          | .ok dashboard => ⟨[.Post "/dashboard" b], [], some dashboard, none⟩ := by
    intro c b hb
    simp only [CreateDashboard, hb]
    rfl
  refine ⟨?_, ?_, ?_, ?_, ?_, ?_, ?_⟩
  · rw [hdef config cfg hcfg]
    cases a.Post "/dashboard" cfg with
    | error e => rfl
    | ok r => simp only []; cases jsonUnmarshal Dashboard.codec r Dashboard.zero <;> rfl
  · intro e he; rw [hdef config cfg hcfg, he]; exact ⟨rfl, rfl⟩
  · intro result d hr hd; rw [hdef config cfg hcfg, hr]; simp only []; rw [hd]; exact ⟨rfl, rfl⟩
  · intro result e hr he; rw [hdef config cfg hcfg, hr]; simp only []; rw [he]; exact ⟨rfl, rfl⟩
  · intro served body hb hr
    obtain ⟨d, hd, hdc⟩ := unmarshal_marshal_cid served body hb
    rw [hdef config cfg hcfg, hr]; simp only []; rw [hd]
    exact ⟨d, rfl, hdc, rfl⟩
  · intro config2 cfg2 hcfg2 hsame
    rw [hdef config cfg hcfg, hdef config2 cfg2 hcfg2, hsame]
    cases a.Post "/dashboard" cfg with
    | error e => exact ⟨rfl, rfl⟩
    | ok r =>
      simp only []
      cases jsonUnmarshal Dashboard.codec r Dashboard.zero <;> exact ⟨rfl, rfl⟩
  · intro hr
    rw [hdef config cfg hcfg, hr]; simp only []; rw [overflowThresholdBody_rejected]
    exact ⟨rfl, _, _, rfl⟩

theorem CreateDashboard_posts_and_decodes_witness :
    jsonMarshal Dashboard.codec { Dashboard.zero with CID := "/invalid" } =
      .ok (.json (.object [("_cid", .string "/invalid"),
        ("account_default", .bool false),
        ("grid_layout", .object [("height", .number (.int false 0)),
          ("width", .number (.int false 0))]),
        ("options", .object []), ("shared", .bool false),
        ("title", .string ""), ("widgets", .null)])) ∧
    (CreateDashboard (testDashboardClient sampleDashboard)
        (some { Dashboard.zero with CID := "/invalid" })).calls =
      [.Post "/dashboard" (.json (.object [("_cid", .string "/invalid"),
        ("account_default", .bool false),
        ("grid_layout", .object [("height", .number (.int false 0)),
          ("width", .number (.int false 0))]),
        ("options", .object []), ("shared", .bool false),
        ("title", .string ""), ("widgets", .null)]))] ∧
    (∃ d, (CreateDashboard (testDashboardClient sampleDashboard)
        (some { Dashboard.zero with CID := "/invalid" })).value = some d ∧
      d.CID = "/dashboard/1234") :=
  have h := CreateDashboard_posts_and_decodes (testDashboardClient sampleDashboard)
    { Dashboard.zero with CID := "/invalid" } _ rfl
  have h5 := h.2.2.2.2.1 sampleDashboard _ rfl rfl
  ⟨rfl, h.1, h5.elim fun d hd => ⟨d, hd.1, hd.2.1⟩⟩

/-- C10 (as stated, refuted): a filter map that is not empty but whose only field has
no value, with no query, makes `SearchDashboards` request `/dashboard`, not a path that
starts with `/dashboard?`. -/
theorem SearchDashboards_valueless_filter_path :
    (some [("f_tags_has", [])] : Option SearchFilterType) ≠ none ∧
    (some [("f_tags_has", [])] : Option SearchFilterType) ≠ some [] ∧
    "search" ∉ [("f_tags_has", ([] : List String))].map Prod.fst ∧
    (SearchDashboards (testDashboardClient sampleDashboard) none
      (some [("f_tags_has", [])])).calls = [.Get "/dashboard"] ∧
    ¬ ∃ qs : String, (SearchDashboards (testDashboardClient sampleDashboard) none
      (some [("f_tags_has", [])])).calls = [.Get ("/dashboard?" ++ qs)] := by
  have hcalls : (SearchDashboards (testDashboardClient sampleDashboard) none
      (some [("f_tags_has", [])])).calls = [.Get "/dashboard"] := rfl
  refine ⟨by simp, by simp, by decide, hcalls, ?_⟩
  rintro ⟨qs, hqs⟩
  rw [hcalls] at hqs
  have h := congrArg String.length (Call.Get.inj (List.cons.inj hqs).1)
  rw [String.length_append] at h
  have h10 : "/dashboard".length = 10 := by decide
  have h11 : "/dashboard?".length = 11 := by decide
  omega

/-- C10 (amended): for a search query and a filter map (distinct fields, none named
`search`) such that the query is non-empty or some field of the filter has a value,
`SearchDashboards` makes one call, `Get` on `/dashboard?` followed by the pairs of
`searchPairs` in some order, joined by `&`: one URL-escaped pair `search=<q>` for a
non-empty query and one URL-escaped pair `<field>=<value>` for every value of every
field. The three requests of the claim are the ones computed. -/
theorem SearchDashboards_query_string (a : API) (searchCriteria : Option SearchQueryType)
    (filterCriteria : Option SearchFilterType)
    (hnodup : ((filterCriteria.getD []).map Prod.fst).Nodup)
    (hsearch : "search" ∉ (filterCriteria.getD []).map Prod.fst)
    (hne : (∃ q, searchCriteria = some q ∧ q ≠ "") ∨
      ∃ kv ∈ filterCriteria.getD [], kv.2 ≠ []) :
    (∃ pairs : List String, pairs.Perm (searchPairs searchCriteria filterCriteria) ∧
      (SearchDashboards a searchCriteria filterCriteria).calls =
        [.Get ("/dashboard?" ++ "&".intercalate pairs)]) ∧
    (SearchDashboards a none (some [("f_tags_has", ["dc:sfo1"])])).calls =
      [.Get "/dashboard?f_tags_has=dc%3Asfo1"] ∧
    (SearchDashboards a (some "web servers") none).calls =
      [.Get "/dashboard?search=web+servers"] ∧
    (SearchDashboards a (some "web servers") (some [("f_tags_has", ["dc:sfo1"])])).calls =
      [.Get "/dashboard?f_tags_has=dc%3Asfo1&search=web+servers"] := by
  refine ⟨?_, ?_, ?_, ?_⟩
  · have hperm := encode_pairs_perm (searchValues searchCriteria filterCriteria)
      (searchValues_nodup searchCriteria filterCriteria hnodup hsearch)
    rw [searchValues_pairs searchCriteria filterCriteria hnodup hsearch] at hperm
    refine ⟨_, hperm, ?_⟩
    have hpairs : searchPairs searchCriteria filterCriteria ≠ [] := by
      unfold searchPairs
      rcases hne with ⟨q, rfl, hq⟩ | ⟨kv, hkv, hval⟩
      · simp [hq]
      · intro h0
        have h1 := (List.append_eq_nil.mp h0).2
        rw [List.flatMap_eq_nil_iff] at h1
        exact hval (List.map_eq_nil_iff.mp (h1 kv hkv))
    have hencode : (searchValues searchCriteria filterCriteria).Encode ≠ "" := by
      apply intercalate_ne_empty
      · intro h0
        rw [h0] at hperm
        exact hpairs (List.Perm.nil_eq hperm).symm
      · intro x hx
        obtain ⟨k, _, hk⟩ := List.mem_flatMap.mp hx
        exact encodePairs_ne_empty k _ x hk
    rw [SearchDashboards_calls]
    unfold searchPath
    rw [if_neg hencode, URL_String_query _ hencode]
    rfl
  · rw [SearchDashboards_calls]; rfl
  · rw [SearchDashboards_calls]; rfl
  · rw [SearchDashboards_calls]; rfl

theorem SearchDashboards_query_string_witness :
    (([("f_tags_has", ["dc:sfo1", "dc:ams2"])] : SearchFilterType).map Prod.fst).Nodup ∧
    "search" ∉ ([("f_tags_has", ["dc:sfo1", "dc:ams2"])] : SearchFilterType).map Prod.fst ∧
    searchPairs (some "web servers") (some [("f_tags_has", ["dc:sfo1", "dc:ams2"])]) =
      ["search=web+servers", "f_tags_has=dc%3Asfo1", "f_tags_has=dc%3Aams2"] ∧
    (∃ pairs : List String,
      pairs.Perm (searchPairs (some "web servers")
        (some [("f_tags_has", ["dc:sfo1", "dc:ams2"])])) ∧
      (SearchDashboards (testDashboardClient sampleDashboard) (some "web servers")
        (some [("f_tags_has", ["dc:sfo1", "dc:ams2"])])).calls =
        [.Get ("/dashboard?" ++ "&".intercalate pairs)]) :=
  ⟨by decide, by decide, by decide,
    (SearchDashboards_query_string (testDashboardClient sampleDashboard) (some "web servers")
      (some [("f_tags_has", ["dc:sfo1", "dc:ams2"])]) (by decide) (by decide)
      (Or.inl ⟨"web servers", rfl, by decide⟩)).1⟩

/-- C12 (as stated, refuted): with a query, `SearchDashboards` does not return the
error of the client: for the error `not found: GET /dashboard?search=q` of the call it
returns a new error with the message
`[ERROR] API call error not found: GET /dashboard?search=q`. -/
theorem SearchDashboards_wraps_transport_error :
    (testDashboardClient sampleDashboard).Get "/dashboard?search=q" =
      .error (.errorString "not found: GET /dashboard?search=q") ∧
    (SearchDashboards (testDashboardClient sampleDashboard) (some "q") none).calls =
      [.Get "/dashboard?search=q"] ∧
    (SearchDashboards (testDashboardClient sampleDashboard) (some "q") none).err =
      some (.errorString "[ERROR] API call error not found: GET /dashboard?search=q") ∧
    (SearchDashboards (testDashboardClient sampleDashboard) (some "q") none).err ≠
      some (.errorString "not found: GET /dashboard?search=q") := by
  have h : (SearchDashboards (testDashboardClient sampleDashboard) (some "q") none).err =
      some (.errorString "[ERROR] API call error not found: GET /dashboard?search=q") := by
    rw [SearchDashboards_eq _ _ _ (by decide)]
    rfl
  refine ⟨rfl, ?_, h, ?_⟩
  · rw [SearchDashboards_calls]; rfl
  · rw [h]; decide

/-- C12 (amended): an error `e` of the client call is returned as it is, the same error
value, by `FetchDashboard`, `FetchDashboards`, `UpdateDashboard`, `CreateDashboard`,
`DeleteDashboardByCID`, and by `SearchDashboards` when its query string is empty (it
then runs `FetchDashboards`); with a non-empty query string `SearchDashboards` returns a
new error, never `e` itself, whose message is `[ERROR] API call error ` followed by the
message of `e`. -/
theorem transport_error_returned (a : API) (e : GoError) :
    (∀ s, WellFormedCID s → a.Get s = .error e →
      (FetchDashboard a (some s)).err = some e) ∧
    (a.Get "/dashboard" = .error e → (FetchDashboards a).err = some e) ∧
    (∀ config cfg, WellFormedCID config.CID → jsonMarshal Dashboard.codec config = .ok cfg →
      a.Put config.CID cfg = .error e → (UpdateDashboard a (some config)).err = some e) ∧
    (∀ config cfg, jsonMarshal Dashboard.codec config = .ok cfg →
      a.Post "/dashboard" cfg = .error e → (CreateDashboard a (some config)).err = some e) ∧
    (∀ s, WellFormedCID s → a.Delete s = .error e →
      (DeleteDashboardByCID a (some s)).err = some e) ∧
    (∀ searchCriteria filterCriteria,
      (searchValues searchCriteria filterCriteria).Encode = "" →
      a.Get "/dashboard" = .error e →
      (SearchDashboards a searchCriteria filterCriteria).err = some e) ∧
    (∀ searchCriteria filterCriteria,
      (searchValues searchCriteria filterCriteria).Encode ≠ "" →
      a.Get (searchPath searchCriteria filterCriteria) = .error e →
      (SearchDashboards a searchCriteria filterCriteria).err =
        some (.errorString ("[ERROR] API call error " ++ e.Error)) ∧
      (SearchDashboards a searchCriteria filterCriteria).err ≠ some e ∧
      (GoError.errorString ("[ERROR] API call error " ++ e.Error)).Error =
        "[ERROR] API call error " ++ e.Error) := by
  refine ⟨?_, ?_, ?_, ?_, ?_, ?_, ?_⟩
  · intro s h he; rw [FetchDashboard_accepts a h, he]
  · intro he; rw [FetchDashboards_eq, he]
  · intro config cfg h hm he; rw [UpdateDashboard_accepts a h, hm]; simp only []; rw [he]
  · intro config cfg hm he; rw [CreateDashboard_eq, hm]; simp only []; rw [he]
  · intro s h he; rw [DeleteDashboardByCID_accepts a h, he]
  · intro q f h he; rw [SearchDashboards_eq_fetch a q f h, FetchDashboards_eq, he]
  · intro q f h he
    have herr : (SearchDashboards a q f).err =
        some (.errorString ("[ERROR] API call error " ++ e.Error)) := by
      rw [SearchDashboards_eq a q f h, he]
    refine ⟨herr, ?_, rfl⟩
    rw [herr]
    intro heq
    cases e with
    | errorString m =>
      have hlen := congrArg String.length (GoError.errorString.inj (Option.some.inj heq))
      rw [String.length_append] at hlen
      have h23 : "[ERROR] API call error ".length = 23 := by decide
      simp only [GoError.Error] at hlen
      omega
    | _ => cases heq

theorem transport_error_returned_witness :
    WellFormedCID "/dashboard/99" ∧
    (testDashboardClient sampleDashboard).Get "/dashboard/99" =
      .error (.errorString "not found: GET /dashboard/99") ∧
    (FetchDashboard (testDashboardClient sampleDashboard) (some "/dashboard/99")).err =
      some (.errorString "not found: GET /dashboard/99") :=
  have hwf : WellFormedCID "/dashboard/99" := by rw [wellFormedCID_iff]; decide
  ⟨hwf, rfl,
    (transport_error_returned (testDashboardClient sampleDashboard)
      (.errorString "not found: GET /dashboard/99")).1 "/dashboard/99" hwf rfl⟩

/-- C13: every operation returns all or nothing, for every input and every client:
`FetchDashboard`, `FetchDashboards`, `CreateDashboard`, `UpdateDashboard` and
`SearchDashboards` return a non-nil result exactly when the error is nil, and a nil
result exactly when the error is non-nil; `DeleteDashboard` and `DeleteDashboardByCID`
return `true` exactly when the error is nil. -/
theorem operations_all_or_nothing (a : API) (cid : CIDType) (config : Option Dashboard)
    (searchCriteria : Option SearchQueryType) (filterCriteria : Option SearchFilterType) :
    (FetchDashboard a cid).AllOrNothing ∧
    (FetchDashboards a).AllOrNothing ∧
    (CreateDashboard a config).AllOrNothing ∧
    (UpdateDashboard a config).AllOrNothing ∧
    (SearchDashboards a searchCriteria filterCriteria).AllOrNothing ∧
    ((DeleteDashboard a config).value = true ↔ (DeleteDashboard a config).err = none) ∧
    ((DeleteDashboardByCID a cid).value = true ↔ (DeleteDashboardByCID a cid).err = none) := by
  refine ⟨FetchDashboard_allOrNothing a cid, FetchDashboards_allOrNothing a,
    CreateDashboard_allOrNothing a config, UpdateDashboard_allOrNothing a config,
    SearchDashboards_allOrNothing a searchCriteria filterCriteria, ?_,
    DeleteDashboardByCID_true_iff a cid⟩
  cases config with
  | none => simp [DeleteDashboard]
  | some config => exact DeleteDashboardByCID_true_iff a (some config.CID)

/-- C15 (as stated, refuted): a config as a fetch returns it, with non-zero `Created`,
`CreatedBy`, `UUID` and `LastModified`, is sent by `UpdateDashboard` and by
`CreateDashboard` with the four keys `_created`, `_created_by`, `_dashboard_uuid` and
`_last_modified` in the body. -/
theorem write_payload_has_server_fields :
    (UpdateDashboard (testDashboardClient sampleDashboard) (some fetchedDashboard)).calls =
      [.Put "/dashboard/1234" (.json (.object [("_cid", .string "/dashboard/1234"),
        ("_created", .number (.int false 1483033102)),
        ("_created_by", .string "/user/1234"),
        ("_dashboard_uuid", .string "01234567-89ab-cdef-0123-456789abcdef"),
        ("_last_modified", .number (.int false 1483639916)),
        ("account_default", .bool false),
        ("grid_layout", .object [("height", .number (.int false 0)),
          ("width", .number (.int false 0))]),
        ("options", .object []), ("shared", .bool false),
        ("title", .string "sample"), ("widgets", .null)]))] ∧
    (CreateDashboard (testDashboardClient sampleDashboard) (some fetchedDashboard)).calls =
      [.Post "/dashboard" (.json (.object [("_cid", .string "/dashboard/1234"),
        ("_created", .number (.int false 1483033102)),
        ("_created_by", .string "/user/1234"),
        ("_dashboard_uuid", .string "01234567-89ab-cdef-0123-456789abcdef"),
        ("_last_modified", .number (.int false 1483639916)),
        ("account_default", .bool false),
        ("grid_layout", .object [("height", .number (.int false 0)),
          ("width", .number (.int false 0))]),
        ("options", .object []), ("shared", .bool false),
        ("title", .string "sample"), ("widgets", .null)]))] ∧
    "_created" ∈ emittedKeys Dashboard.fields fetchedDashboard ∧
    "_created_by" ∈ emittedKeys Dashboard.fields fetchedDashboard ∧
    "_dashboard_uuid" ∈ emittedKeys Dashboard.fields fetchedDashboard ∧
    "_last_modified" ∈ emittedKeys Dashboard.fields fetchedDashboard := by
  have h : WellFormedCID fetchedDashboard.CID := wellFormedCID_sample
  refine ⟨?_, rfl, by decide, by decide, by decide, by decide⟩
  rw [UpdateDashboard_accepts _ h]
  rfl

/-- C15 (amended): the body that `CreateDashboard` and `UpdateDashboard` send is the
serialization of the config, and a server-assigned field is left out of it exactly when
it holds its zero value: the key `_created` is in the body exactly when `Created` is not
0, `_created_by` exactly when `CreatedBy` is not empty, `_dashboard_uuid` exactly when
`UUID` is not empty, `_last_modified` exactly when `LastModified` is not 0. -/
theorem server_fields_omitted_iff_zero (a : API) (config : Dashboard) (cfg : Bytes)
    (hcfg : jsonMarshal Dashboard.codec config = .ok cfg) :
    (CreateDashboard a (some config)).calls = [.Post "/dashboard" cfg] ∧
    (WellFormedCID config.CID →
      (UpdateDashboard a (some config)).calls = [.Put config.CID cfg]) ∧
    ∃ kvs, cfg = .json (.object kvs) ∧
      ("_created" ∈ kvs.map Prod.fst ↔ config.Created ≠ 0) ∧
      ("_created_by" ∈ kvs.map Prod.fst ↔ config.CreatedBy ≠ "") ∧
      ("_dashboard_uuid" ∈ kvs.map Prod.fst ↔ config.UUID ≠ "") ∧
      ("_last_modified" ∈ kvs.map Prod.fst ↔ config.LastModified ≠ 0) := by
  refine ⟨?_, ?_, ?_⟩
  · rw [CreateDashboard_eq, hcfg]
    simp only []
    cases a.Post "/dashboard" cfg with
    | error e => rfl
    | ok r => simp only []; cases jsonUnmarshal Dashboard.codec r Dashboard.zero <;> rfl
  · intro h
    rw [UpdateDashboard_accepts a h, hcfg]
    simp only []
    cases a.Put config.CID cfg with
    | error e => rfl
    | ok r => simp only []; cases jsonUnmarshal Dashboard.codec r Dashboard.zero <;> rfl
  · obtain ⟨kvs, rfl, hk⟩ := jsonMarshal_dashboard_keys config cfg hcfg
    refine ⟨kvs, rfl, ?_⟩
    rw [hk]
    have hlen : ∀ s : String, s.length ≠ 0 ↔ s ≠ "" := fun s =>
      not_congr ⟨fun h => String.ext (List.length_eq_zero.mp h), fun h => h ▸ rfl⟩
    have hfin : ∀ n : GoUint, n.val ≠ 0 ↔ n ≠ 0 := fun n =>
      not_congr ⟨fun h => Fin.ext h, fun h => h ▸ rfl⟩
    have hmem : ∀ i : Fin Dashboard.fields.length,
        (Dashboard.fields.get i).name ∈ emittedKeys Dashboard.fields config ↔
          (Dashboard.fields.get i).emitted config = true := fun i =>
      mem_emittedKeys_iff Dashboard.fields Dashboard_fields_nodup config _
        (List.get_mem _ _ _)
    refine ⟨?_, ?_, ?_, ?_⟩
    · refine (hmem ⟨2, by decide⟩).trans ?_
      rw [← hfin]
      show (!(true && (config.Created.val == 0))) = true ↔ config.Created.val ≠ 0
      simp
    · refine (hmem ⟨3, by decide⟩).trans ?_
      rw [← hlen]
      show (!(true && (config.CreatedBy.length == 0))) = true ↔ config.CreatedBy.length ≠ 0
      simp
    · refine (hmem ⟨4, by decide⟩).trans ?_
      rw [← hlen]
      show (!(true && (config.UUID.length == 0))) = true ↔ config.UUID.length ≠ 0
      simp
    · refine (hmem ⟨5, by decide⟩).trans ?_
      rw [← hfin]
      show (!(true && (config.LastModified.val == 0))) = true ↔ config.LastModified.val ≠ 0
      simp

theorem server_fields_omitted_iff_zero_witness :
    jsonMarshal Dashboard.codec sampleDashboard =
      .ok (.json (.object [("_cid", .string "/dashboard/1234"),
        ("account_default", .bool false),
        ("grid_layout", .object [("height", .number (.int false 0)),
          ("width", .number (.int false 0))]),
        ("options", .object []), ("shared", .bool false),
        ("title", .string "sample"), ("widgets", .null)])) ∧
    (CreateDashboard (testDashboardClient sampleDashboard) (some sampleDashboard)).calls =
      [.Post "/dashboard" (.json (.object [("_cid", .string "/dashboard/1234"),
        ("account_default", .bool false),
        ("grid_layout", .object [("height", .number (.int false 0)),
          ("width", .number (.int false 0))]),
        ("options", .object []), ("shared", .bool false),
        ("title", .string "sample"), ("widgets", .null)]))] :=
  ⟨rfl, (server_fields_omitted_iff_zero (testDashboardClient sampleDashboard)
    sampleDashboard _ rfl).1⟩

/-- C16 (as stated, refuted): the serialization of the zero-valued `Dashboard` is not the
empty object; it has the six members whose tags have no `omitempty`. -/
theorem zero_dashboard_not_empty_object :
    jsonMarshal Dashboard.codec Dashboard.zero =
      .ok (.json (.object [("account_default", .bool false),
        ("grid_layout", .object [("height", .number (.int false 0)),
          ("width", .number (.int false 0))]),
        ("options", .object []), ("shared", .bool false),
        ("title", .string ""), ("widgets", .null)])) ∧
    jsonMarshal Dashboard.codec Dashboard.zero ≠ .ok (.json (.object [])) := by
  refine ⟨rfl, ?_⟩
  intro h
  have h2 : jsonMarshal Dashboard.codec Dashboard.zero =
      .ok (.json (.object [("account_default", .bool false),
        ("grid_layout", .object [("height", .number (.int false 0)),
          ("width", .number (.int false 0))]),
        ("options", .object []), ("shared", .bool false),
        ("title", .string ""), ("widgets", .null)])) := rfl
  rw [h2] at h
  cases h

/-- C16 (amended): in the serialization of a `Dashboard`, a `DashboardWidget` or a
`DashboardWidgetSettings`, the members are the fields that are written, in the order of
declaration: a field is left out exactly when its tag has `omitempty` and its value is
empty, which is `false` for a bool, 0 for a `uint`, an `int` and a `float32`, the empty
string, a nil `interface{}` and a slice of length zero (nil or not); a struct is never
empty. So `_cid` is left out exactly for the empty CID, `period` exactly for a nil
`Period`, and `threshold` exactly for a `Threshold` that is zero, as the one read from
`0`, `-0`, `0.0` or `1e-60`, but not the one read from `1e-45` or `0.5`. The fields
without `omitempty` (six of `Dashboard`, all eight of `DashboardWidget`) are always
written, and so are the four struct-valued fields of `DashboardWidgetSettings`; the
zero-valued `Dashboard` is written with its six fields without `omitempty`. -/
theorem field_omitted_iff_omitempty_and_empty (d : Dashboard) (w : DashboardWidget)
    (ws : DashboardWidgetSettings) :
    (∀ j, Dashboard.codec.encode d = .ok j →
      ∃ kvs, j = .object kvs ∧ kvs.map Prod.fst = writtenKeys (Dashboard.written d)) ∧
    (∀ j, DashboardWidget.codec.encode w = .ok j →
      ∃ kvs, j = .object kvs ∧ kvs.map Prod.fst = writtenKeys (DashboardWidget.written w)) ∧
    (∀ j, DashboardWidgetSettings.codec.encode ws = .ok j →
      ∃ kvs, j = .object kvs ∧
        kvs.map Prod.fst = writtenKeys (DashboardWidgetSettings.written ws)) ∧
    (("_cid" ∈ writtenKeys (Dashboard.written d) ↔ d.CID ≠ "") ∧
      ("_active" ∈ writtenKeys (Dashboard.written d) ↔ d.Active = true) ∧
      ("_created" ∈ writtenKeys (Dashboard.written d) ↔ d.Created ≠ 0) ∧
      ("_created_by" ∈ writtenKeys (Dashboard.written d) ↔ d.CreatedBy ≠ "") ∧
      ("_dashboard_uuid" ∈ writtenKeys (Dashboard.written d) ↔ d.UUID ≠ "") ∧
      ("_last_modified" ∈ writtenKeys (Dashboard.written d) ↔ d.LastModified ≠ 0)) ∧
    (("account_id" ∈ writtenKeys (DashboardWidgetSettings.written ws) ↔ ws.AccountID ≠ "") ∧
      ("autoformat" ∈ writtenKeys (DashboardWidgetSettings.written ws) ↔
        ws.Autoformat = true) ∧
      ("cluster_id" ∈ writtenKeys (DashboardWidgetSettings.written ws) ↔ ws.ClusterID ≠ 0) ∧
      ("range_high" ∈ writtenKeys (DashboardWidgetSettings.written ws) ↔
        ws.RangeHigh.val ≠ 0) ∧
      ("contact_groups" ∈ writtenKeys (DashboardWidgetSettings.written ws) ↔
        ws.ContactGroups ≠ none ∧ ws.ContactGroups ≠ some []) ∧
      ("period" ∈ writtenKeys (DashboardWidgetSettings.written ws) ↔ ws.Period ≠ .nil) ∧
      ("threshold" ∈ writtenKeys (DashboardWidgetSettings.written ws) ↔
        ¬ ∃ n, ws.Threshold.val = .finite n ∧ |n.toRat| ≤ 1 / 2 ^ 150)) ∧
    ((GoFloat.finite (.int false 0)).isZero32 = true ∧
      (GoFloat.finite (.int true 0)).isZero32 = true ∧
      (GoFloat.finite (.frac false 0 ⟨0, []⟩ none)).isZero32 = true ∧
      (GoFloat.finite (.exp false 1 ⟨false, some true, ⟨6, [0]⟩⟩)).isZero32 = true ∧
      (GoFloat.finite (.exp false 1 ⟨false, some true, ⟨4, [5]⟩⟩)).isZero32 = false ∧
      (GoFloat.finite (.frac false 0 ⟨5, []⟩ none)).isZero32 = false ∧
      GoFloat.nan.isZero32 = false ∧
      [(JNumber.int false 0).text, (JNumber.int true 0).text,
        (JNumber.frac false 0 ⟨0, []⟩ none).text,
        (JNumber.exp false 1 ⟨false, some true, ⟨6, [0]⟩⟩).text,
        (JNumber.exp false 1 ⟨false, some true, ⟨4, [5]⟩⟩).text,
        (JNumber.frac false 0 ⟨5, []⟩ none).text] =
        ["0", "-0", "0.0", "1e-60", "1e-45", "0.5"]) ∧
    (∀ f : GoFloat32, f.val = .finite (.frac false 0 ⟨0, []⟩ none) →
      "threshold" ∉ writtenKeys
        (DashboardWidgetSettings.written { DashboardWidgetSettings.zero with Threshold := f })) ∧
    (Dashboard.fields.filter (fun f => !f.omitEmpty)).map (·.name) =
      ["account_default", "grid_layout", "options", "shared", "title", "widgets"] ∧
    (DashboardWidget.fields.filter (fun f => !f.omitEmpty)).map (·.name) =
      ["active", "height", "name", "origin", "settings", "type", "widget_id", "width"] ∧
    DashboardWidgetSettings.fields.all (·.omitEmpty) = true ∧
    (∀ k ∈ ["account_default", "grid_layout", "options", "shared", "title", "widgets"],
      k ∈ writtenKeys (Dashboard.written d)) ∧
    writtenKeys (Dashboard.written Dashboard.zero) =
      ["account_default", "grid_layout", "options", "shared", "title", "widgets"] ∧
    writtenKeys (DashboardWidget.written w) =
      ["active", "height", "name", "origin", "settings", "type", "widget_id", "width"] ∧
    (∀ k ∈ ["agent_status_settings", "definition", "host_status_settings", "thresholds"],
      k ∈ writtenKeys (DashboardWidgetSettings.written ws)) := by
  refine ⟨fun j h => encode_writtenKeys _ _ _ _ _ Dashboard_written d j h,
    fun j h => encode_writtenKeys _ _ _ _ _ DashboardWidget_written w j h,
    fun j h => encode_writtenKeys _ _ _ _ _ DashboardWidgetSettings_written ws j h,
    ⟨?_, ?_, ?_, ?_, ?_, ?_⟩, ⟨?_, ?_, ?_, ?_, ?_, ?_, ?_⟩,
    ⟨rfl, rfl, rfl, rfl, rfl, rfl, rfl, by decide⟩, ?_, rfl, rfl, rfl, ?_, by decide, rfl, ?_⟩
  · rw [mem_writtenKeys_iff]; simp [Dashboard.written]
  · rw [mem_writtenKeys_iff]; simp [Dashboard.written]
  · rw [mem_writtenKeys_iff]; simp [Dashboard.written]
  · rw [mem_writtenKeys_iff]; simp [Dashboard.written]
  · rw [mem_writtenKeys_iff]; simp [Dashboard.written]
  · rw [mem_writtenKeys_iff]; simp [Dashboard.written]
  · rw [mem_writtenKeys_iff]; simp [DashboardWidgetSettings.written]
  · rw [mem_writtenKeys_iff]; simp [DashboardWidgetSettings.written]
  · rw [mem_writtenKeys_iff]; simp [DashboardWidgetSettings.written]
  · rw [mem_writtenKeys_iff]; simp [DashboardWidgetSettings.written]
  · rw [mem_writtenKeys_iff]
    cases hcg : ws.ContactGroups with
    | none => simp [DashboardWidgetSettings.written, hcg]
    | some xs => cases xs <;> simp [DashboardWidgetSettings.written, hcg]
  · rw [mem_writtenKeys_iff]
    cases hp : ws.Period <;> simp [DashboardWidgetSettings.written, GoAny.isNil, hp]
  · rw [mem_writtenKeys_iff]
    have h1 : ("threshold", true) ∈ DashboardWidgetSettings.written ws ↔
        (!ws.Threshold.val.isZero32) = true := by
      simp [DashboardWidgetSettings.written]
    rw [h1, Bool.not_eq_true', ← Bool.not_eq_true, isZero32_iff]
  · intro f hf
    rw [mem_writtenKeys_iff]
    have hz : f.val.isZero32 = true := by rw [hf]; rfl
    simp [DashboardWidgetSettings.written, DashboardWidgetSettings.zero, hz]
  · intro k hk
    rw [mem_writtenKeys_iff]
    simp only [List.mem_cons, List.mem_singleton, List.not_mem_nil, or_false] at hk
    rcases hk with rfl | rfl | rfl | rfl | rfl | rfl <;> simp [Dashboard.written]
  · intro k hk
    rw [mem_writtenKeys_iff]
    simp only [List.mem_cons, List.mem_singleton, List.not_mem_nil, or_false] at hk
    rcases hk with rfl | rfl | rfl | rfl <;> simp [DashboardWidgetSettings.written]

/-- C11 (as stated, refuted): for the query `web servers` and the filter
`{"f_tags_has": ["dc:sfo1"]}` the pairs are inserted with `search` first, but the query
string encoded has `f_tags_has` before `search`. -/
theorem SearchDashboards_search_not_first :
    searchValues (some "web servers") (some [("f_tags_has", ["dc:sfo1"])]) =
      [("search", ["web servers"]), ("f_tags_has", ["dc:sfo1"])] ∧
    (searchValues (some "web servers") (some [("f_tags_has", ["dc:sfo1"])])).Encode =
      "f_tags_has=dc%3Asfo1&search=web+servers" ∧
    (searchValues (some "web servers") (some [("f_tags_has", ["dc:sfo1"])])).Encode ≠
      "search=web+servers&f_tags_has=dc%3Asfo1" ∧
    (SearchDashboards (testDashboardClient sampleDashboard) (some "web servers")
      (some [("f_tags_has", ["dc:sfo1"])])).calls =
      [.Get "/dashboard?f_tags_has=dc%3Asfo1&search=web+servers"] := by
  refine ⟨by decide, by decide, by decide, ?_⟩
  rw [SearchDashboards_calls]; rfl

/-- C11 (amended): the pairs of the query are inserted with `search` first and then the
fields of the filter in the order of the iteration, but the query string encodes them
in the ascending byte-wise order of the parameter names, the values of one name in the
order of their insertion. So the query `web servers` with the filter
`{"f_tags_has": ["dc:sfo1"]}` is encoded with `f_tags_has` before `search`. -/
theorem query_string_sorted_by_name (searchCriteria : Option SearchQueryType)
    (filterCriteria : Option SearchFilterType)
    (hnodup : ((filterCriteria.getD []).map Prod.fst).Nodup)
    (hsearch : "search" ∉ (filterCriteria.getD []).map Prod.fst) :
    searchValues searchCriteria filterCriteria =
      (match searchCriteria with
        | some q => if q ≠ "" then [("search", [q])] else []
        | none => []) ++
      (filterCriteria.getD []).filter (fun kv => !kv.2.isEmpty) ∧
    (searchValues searchCriteria filterCriteria).Encode =
      "&".intercalate
        ((sortStrings ((searchValues searchCriteria filterCriteria).map Prod.fst)).flatMap
          (fun k => encodePairs k ((searchValues searchCriteria filterCriteria).lookup k))) ∧
    (sortStrings ((searchValues searchCriteria filterCriteria).map Prod.fst)).Perm
      ((searchValues searchCriteria filterCriteria).map Prod.fst) ∧
    (sortStrings ((searchValues searchCriteria filterCriteria).map Prod.fst)).Pairwise
      (fun x y => stringLess x y = true) ∧
    (∀ kv ∈ searchValues searchCriteria filterCriteria,
      (searchValues searchCriteria filterCriteria).lookup kv.1 = kv.2) ∧
    (searchValues (some "web servers") (some [("f_tags_has", ["dc:sfo1"])])).Encode =
      "f_tags_has=dc%3Asfo1&search=web+servers" := by
  have hn := searchValues_nodup searchCriteria filterCriteria hnodup hsearch
  exact ⟨searchValues_eq searchCriteria filterCriteria hnodup hsearch, rfl,
    sortStrings_perm _, sortStrings_ascending _ hn,
    fun kv hkv => Values.lookup_of_mem _ hn kv hkv, by decide⟩

theorem query_string_sorted_by_name_witness :
    (([("z", ["1", "2"]), ("a", ["x y"])] : SearchFilterType).map Prod.fst).Nodup ∧
    "search" ∉ ([("z", ["1", "2"]), ("a", ["x y"])] : SearchFilterType).map Prod.fst ∧
    searchValues (some "q") (some [("z", ["1", "2"]), ("a", ["x y"])]) =
      [("search", ["q"]), ("z", ["1", "2"]), ("a", ["x y"])] ∧
    sortStrings ((searchValues (some "q")
      (some [("z", ["1", "2"]), ("a", ["x y"])])).map Prod.fst) = ["a", "search", "z"] ∧
    (searchValues (some "q") (some [("z", ["1", "2"]), ("a", ["x y"])])).Encode =
      "a=x+y&search=q&z=1&z=2" ∧
    (sortStrings ((searchValues (some "q")
      (some [("z", ["1", "2"]), ("a", ["x y"])])).map Prod.fst)).Pairwise
      (fun x y => stringLess x y = true) :=
  ⟨by decide, by decide, by decide, by decide, by decide,
    (query_string_sorted_by_name (some "q") (some [("z", ["1", "2"]), ("a", ["x y"])])
      (by decide) (by decide)).2.2.2.1⟩

/-- C17: the path that `SearchDashboards` requests does not depend on the order in which
the filter map is iterated: two orders `f1`, `f2` of the same map give the same path
and the same call. The parameter names (the key `search` included) come in ascending
byte-wise order, each name that has a value once; the values of a name are the search
query (under `search`) followed by the values of the filter field in the order of its
list. So the query `web servers` with the filter `{"f_tags_has": ["dc:sfo1"]}` gives
`/dashboard?f_tags_has=dc%3Asfo1&search=web+servers`. -/
theorem SearchDashboards_path_deterministic (a : API)
    (searchCriteria : Option SearchQueryType) (f1 f2 : SearchFilterType)
    (hperm : f1.Perm f2) (hnodup : (f1.map Prod.fst).Nodup) :
    searchPath searchCriteria (some f1) = searchPath searchCriteria (some f2) ∧
    (SearchDashboards a searchCriteria (some f1)).calls =
      (SearchDashboards a searchCriteria (some f2)).calls ∧
    (∃ names : List String,
      names.Pairwise (fun x y => stringLess x y = true) ∧
      (∀ k, k ∈ names ↔ searchLookup searchCriteria (some f1) k ≠ []) ∧
      (SearchDashboards a searchCriteria (some f1)).calls =
        [.Get (if names = [] then "/dashboard"
          else "/dashboard?" ++ "&".intercalate (names.flatMap
            (fun k => encodePairs k (searchLookup searchCriteria (some f1) k))))]) ∧
    (∀ kv ∈ f1, searchLookup searchCriteria (some f1) kv.1 =
      (match searchCriteria with
        | some q => if q ≠ "" ∧ kv.1 = "search" then [q] else []
        | none => []) ++ kv.2) ∧
    (SearchDashboards a (some "web servers") (some [("f_tags_has", ["dc:sfo1"])])).calls =
      [.Get "/dashboard?f_tags_has=dc%3Asfo1&search=web+servers"] := by
  have hnodup2 : (f2.map Prod.fst).Nodup := (hperm.map Prod.fst).nodup_iff.mp hnodup
  have hencode : (searchValues searchCriteria (some f1)).Encode =
      (searchValues searchCriteria (some f2)).Encode :=
    searchValues_encode_congr searchCriteria (some f1) (some f2) hnodup hnodup2
      (fun k => Values.lookup_perm hperm hnodup k)
  have hpath : searchPath searchCriteria (some f1) = searchPath searchCriteria (some f2) := by
    rw [searchPath_eq, searchPath_eq, hencode]
  refine ⟨hpath, ?_, ?_, ?_, ?_⟩
  · rw [SearchDashboards_calls, SearchDashboards_calls, hpath]
  · obtain ⟨hn, hm, _⟩ := searchValues_spec searchCriteria (some f1) hnodup
    refine ⟨sortStrings ((searchValues searchCriteria (some f1)).map Prod.fst),
      sortStrings_ascending _ hn, ?_, ?_⟩
    · intro k
      rw [← hm k]
      exact (sortStrings_perm _).mem_iff
    · rw [SearchDashboards_calls, searchPath_eq,
        searchValues_encode_eq searchCriteria (some f1) hnodup]
      congr 2
      by_cases hnil : sortStrings ((searchValues searchCriteria (some f1)).map Prod.fst) = []
      · rw [hnil]; rfl
      · rw [if_neg hnil, if_neg]
        apply intercalate_ne_empty
        · intro h0
          obtain ⟨k, hk⟩ := List.exists_mem_of_ne_nil _ hnil
          have hk2 : searchLookup searchCriteria (some f1) k ≠ [] :=
            (hm k).mp ((sortStrings_perm _).mem_iff.mp hk)
          obtain ⟨v, hv⟩ := List.exists_mem_of_ne_nil _ hk2
          have hmem : QueryEscape k ++ "=" ++ QueryEscape v ∈
              (sortStrings ((searchValues searchCriteria (some f1)).map Prod.fst)).flatMap
                (fun k => encodePairs k (searchLookup searchCriteria (some f1) k)) :=
            List.mem_flatMap.mpr ⟨k, hk, List.mem_map.mpr ⟨v, hv, rfl⟩⟩
          rw [h0] at hmem
          cases hmem
        · intro x hx
          obtain ⟨k, _, hk⟩ := List.mem_flatMap.mp hx
          exact encodePairs_ne_empty k _ x hk
  · intro kv hkv
    unfold searchLookup
    rw [Option.getD_some, Values.lookup_of_mem f1 hnodup kv hkv]
  · rw [SearchDashboards_calls]; rfl

theorem SearchDashboards_path_deterministic_witness :
    ([("z", ["1", "2"]), ("a", ["x y"])] : SearchFilterType).Perm
      [("a", ["x y"]), ("z", ["1", "2"])] ∧
    (([("z", ["1", "2"]), ("a", ["x y"])] : SearchFilterType).map Prod.fst).Nodup ∧
    searchPath (some "q") (some [("z", ["1", "2"]), ("a", ["x y"])]) =
      "/dashboard?a=x+y&search=q&z=1&z=2" ∧
    searchPath (some "q") (some [("z", ["1", "2"]), ("a", ["x y"])]) =
      searchPath (some "q") (some [("a", ["x y"]), ("z", ["1", "2"])]) ∧
    (SearchDashboards (testDashboardClient sampleDashboard) (some "q")
        (some [("z", ["1", "2"]), ("a", ["x y"])])).calls =
      (SearchDashboards (testDashboardClient sampleDashboard) (some "q")
        (some [("a", ["x y"]), ("z", ["1", "2"])])).calls :=
  have h := SearchDashboards_path_deterministic (testDashboardClient sampleDashboard)
    (some "q") [("z", ["1", "2"]), ("a", ["x y"])] [("a", ["x y"]), ("z", ["1", "2"])]
    (List.Perm.swap _ _ _) (by decide)
  ⟨List.Perm.swap _ _ _, by decide, by decide, h.1, h.2.1⟩

/-- C14 (as stated, refuted): a widget whose `Period` holds the unsigned integer
9007199254740993 is serialized and decoded into a widget whose `Period` holds a float64
of another value, 9007199254740992. -/
theorem period_round_trip_changes_value :
    bigPeriodWidget.Settings.Period.integerValue = some 9007199254740993 ∧
    ∃ body d2 w2 f,
      jsonMarshal Dashboard.codec bigPeriodDashboard = .ok body ∧
      jsonUnmarshal Dashboard.codec body Dashboard.zero = .ok d2 ∧
      d2.Widgets = some [w2] ∧
      w2.Settings.Period = .float64 f ∧
      f.val = .finite (.int false 9007199254740993) ∧
      w2.Settings.Period.integerValue = some 9007199254740992 ∧
      w2.Settings.Period.integerValue ≠ bigPeriodWidget.Settings.Period.integerValue := by
  refine ⟨rfl, ?_⟩
  cases hb : jsonMarshal Dashboard.codec bigPeriodDashboard with
  | error e => exact absurd hb (by rw [show jsonMarshal Dashboard.codec bigPeriodDashboard =
      .ok (.json (.object _)) from rfl]; intro h; cases h)
  | ok body =>
    refine ⟨body, bigPeriodDashboard.norm, bigPeriodWidget.norm,
      GoFloat64.ofInteger false 9007199254740993 (by decide), rfl,
      unmarshal_marshal_norm bigPeriodDashboard body hb, rfl, rfl, rfl, ?_, ?_⟩
    · show some (JNumber.intValue false (float64OfNat 9007199254740993)) = some 9007199254740992
      decide
    · show some (JNumber.intValue false (float64OfNat 9007199254740993)) ≠
        some ((9007199254740993 : Nat) : Int)
      decide

/-- C14 (amended): for a dashboard `d` whose serialization succeeds, decoding the
serialization into a fresh `Dashboard` succeeds and gives `d.norm`, which is `d` but for
three things. A slice with `omitempty` that is empty and not nil comes back nil. A
`Threshold` that is zero comes back as `0`. A `Period` comes back as `json.Unmarshal`
stores it: nil, a boolean, a string and a float64 as they were; an integer, signed or
not, as a float64, the one nearest to the integer, which is the same value up to 2^53
in absolute value; a slice as the slice of what its elements come back as; a map with
its entries in the order of the keys. The numeric-or-string kind is always kept. -/
theorem json_round_trip (d : Dashboard) (body : Bytes)
    (h : jsonMarshal Dashboard.codec d = .ok body) :
    jsonUnmarshal Dashboard.codec body Dashboard.zero = .ok d.norm ∧
    (∀ x : Dashboard, x.norm =
      { x with
        Options := x.Options.norm
        Widgets := normSlice DashboardWidget.norm false x.Widgets }) ∧
    (∀ x : DashboardOptions, x.norm =
      { x with
        AccessConfigs := normSlice (fun c => c) true x.AccessConfigs
        Linkages := normSlice (normSlice (fun b => b) false) true x.Linkages }) ∧
    (∀ x : DashboardWidget, x.norm = { x with Settings := x.Settings.norm }) ∧
    (∀ x : DashboardWidgetSettings, x.norm =
      { x with
        ContactGroups := normSlice (fun b => b) true x.ContactGroups
        Datapoints := normSlice (fun b => b) true x.Datapoints
        HostStatusSettings :=
          { x.HostStatusSettings with
            TagFilterSet := normSlice (fun b => b) true x.HostStatusSettings.TagFilterSet }
        OffHours := normSlice (fun b => b) true x.OffHours
        Period := x.Period.stored
        TagFilterSet := normSlice (fun b => b) true x.TagFilterSet
        Threshold := normFloat x.Threshold
        Thresholds :=
          { x.Thresholds with
            Colors := normSlice (fun b => b) true x.Thresholds.Colors
            Values := normSlice (fun b => b) true x.Thresholds.Values }
        WeekDays := normSlice (fun b => b) true x.WeekDays }) ∧
    (∀ (β : Type) (norm : β → β) (o : Bool) (x : β) (xs : List β),
      normSlice norm o none = none ∧
      normSlice norm true (some []) = none ∧
      normSlice norm false (some []) = some [] ∧
      normSlice norm o (some (x :: xs)) = some (norm x :: xs.map norm)) ∧
    (∀ f : GoFloat32,
      (f.val.isZero32 = true ↔ ∃ n, f.val = .finite n ∧ |n.toRat| ≤ 1 / 2 ^ 150) ∧
      (f.val.isZero32 = true → (normFloat f).val = .finite (.int false 0)) ∧
      (f.val.isZero32 = false → normFloat f = f)) ∧
    (GoAny.nil.stored = .nil ∧
      (∀ b, (GoAny.bool b).stored = .bool b) ∧
      (∀ str, (GoAny.string str).stored = .string str) ∧
      (∀ f, (GoAny.float64 f).stored = .float64 f) ∧
      (∀ n : GoUint, ∃ f, (GoAny.uint n).stored = .float64 f ∧
        f.val = .finite (.int false n.val)) ∧
      (∀ i : GoInt, ∃ f, (GoAny.int i).stored = .float64 f ∧
        f.val = .finite (.int (decide (i.val < 0)) i.val.natAbs)) ∧
      (∀ xs, (GoAny.slice xs).stored = .slice (xs.map GoAny.stored)) ∧
      (∀ m : List (String × GoAny), (m.map Prod.fst).Nodup →
        (GoAny.map m).stored = .map (sortByKey (m.map (fun kv => (kv.1, kv.2.stored)))))) ∧
    (∀ n : GoUint,
      (GoAny.uint n).stored.integerValue = some ((float64OfNat n.val : Nat) : Int) ∧
      (n.val ≤ 9007199254740992 →
        (GoAny.uint n).stored.integerValue = (GoAny.uint n).integerValue)) ∧
    (∀ i : GoInt,
      (GoAny.int i).stored.integerValue =
        some (JNumber.intValue (decide (i.val < 0)) (float64OfNat i.val.natAbs)) ∧
      (i.val.natAbs ≤ 9007199254740992 →
        (GoAny.int i).stored.integerValue = (GoAny.int i).integerValue)) ∧
    (∀ v : GoAny, v.stored.isNumber = v.isNumber ∧ v.stored.isString = v.isString) := by
  refine ⟨unmarshal_marshal_norm d body h, fun x => rfl, fun x => rfl, fun x => rfl,
    fun x => rfl, fun β norm o x xs => ⟨rfl, rfl, rfl, ?_⟩,
    fun f => ⟨isZero32_iff f.val, ?_, ?_⟩,
    ⟨by rw [GoAny.stored], fun b => by rw [GoAny.stored], fun str => by rw [GoAny.stored],
      fun f => by rw [GoAny.stored], fun n => ⟨_, by rw [GoAny.stored], rfl⟩,
      fun i => ⟨_, by rw [GoAny.stored], rfl⟩, stored_slice, stored_map_of_nodup⟩,
    fun n => ⟨?_, ?_⟩, fun i => ⟨?_, ?_⟩, stored_kind⟩
  · cases o <;> rfl
  · intro hz
    unfold normFloat
    rw [if_pos hz]
    rfl
  · intro hz
    unfold normFloat
    rw [if_neg (by rw [hz]; exact Bool.false_ne_true)]
  · rw [GoAny.stored]; rfl
  · intro hn
    rw [GoAny.stored]
    show some (JNumber.intValue false (float64OfNat n.val)) = some ((n.val : Nat) : Int)
    rw [float64OfNat_exact n.val hn]
    rfl
  · rw [GoAny.stored]; rfl
  · intro hi
    rw [GoAny.stored]
    show some (JNumber.intValue (decide (i.val < 0)) (float64OfNat i.val.natAbs)) = some i.val
    rw [float64OfNat_exact _ hi, intValue_natAbs]

theorem json_round_trip_witness :
    (∃ body, jsonMarshal Dashboard.codec periodDashboard = .ok body ∧
      jsonUnmarshal Dashboard.codec body Dashboard.zero = .ok periodDashboard.norm) ∧
    periodDashboard.norm.CID = "/dashboard/1234" ∧
    (periodDashboard.norm.Widgets.getD []).map (·.Name) = ["Graph", "Gauge", "Text", ""] ∧
    (periodDashboard.norm.Widgets.getD []).map (·.Settings.Period.isString) =
      [true, false, false, false] ∧
    (periodDashboard.norm.Widgets.getD []).map (·.Settings.Period.integerValue) =
      [none, some 300, some (-60), none] :=
  have hb : jsonMarshal Dashboard.codec periodDashboard =
      .ok (.json (.object
        (match Dashboard.codec.encode periodDashboard with
          | .ok (.object kvs) => kvs
          | _ => []))) := rfl
  ⟨⟨_, hb, (json_round_trip periodDashboard _ hb).1⟩, rfl, rfl, rfl, by decide⟩

end Circonus
